import Mathlib

/-!
# csim-0.1.0 server: `Model` (Model.cc / Model.hh), `GazeboError`

A shallow embedding of `gazebo::Model` and of the parts of its collaborators
that `Model.cc` relies on.  Stateful member functions are state transformers
on `St` (the `Model` object together with the `World` singleton); a `gzthrow`
is an `Outcome` that carries the raised `GazeboError` next to the state reached
when it was raised, because in C++ the mutations made before a throw persist.
-/

namespace gazebo

/-! ## Strings and `std::map<std::string, T>` -/

/-- Lexicographic comparison of character sequences, the order of
`std::string::operator<` (code points compare like their UTF-8 bytes). -/
def lessChars : List Char → List Char → Bool
  | [], [] => false
  | [], _ :: _ => true
  | _ :: _, [] => false
  | a :: as, b :: bs =>
    if a.toNat < b.toNat then true
    else if b.toNat < a.toNat then false
    else lessChars as bs

/-- The key order `std::less<std::string>` of the maps of a `Model`. -/
def strLess (a b : String) : Bool := lessChars a.data b.data

/-- A `std::map<std::string, T>`: the entries in ascending key order. -/
abbrev StdMap (β : Type) := List (String × β)

namespace StdMap

/-- The assignment `m[k] = v`: insert the key at its place in the order, or
overwrite the value stored under it. -/
def assign {β : Type} (k : String) (v : β) : StdMap β → StdMap β
  | [] => [(k, v)]
  | (k1, v1) :: rest =>
    if strLess k k1 then (k, v) :: (k1, v1) :: rest
    else if strLess k1 k then (k1, v1) :: assign k v rest
    else (k, v) :: rest

/-- The lookup `m.find(k)`: the value stored under `k`, if the key is present. -/
def find {β : Type} (k : String) : StdMap β → Option β
  | [] => none
  | (k1, v1) :: rest => if k1 = k then some v1 else find k rest

/-- The read `m[k]` of a map of pointers: a missing key is inserted with a
NULL value (`none`) first; the result is the map afterwards and the value read. -/
def index {β : Type} (k : String) (m : StdMap (Option β)) : StdMap (Option β) × Option β :=
  match find k m with
  | some v => (m, v)
  | none => (assign k none m, none)

/-- The keys of the map, in iteration order. -/
def keys {β : Type} (m : StdMap β) : List String := m.map Prod.fst

end StdMap

/-! ## Values -/

/-- A `Vector3`; the coordinates stand for the `double`s of the source, which
`Model.cc` only copies and compares with literals. -/
structure Vector3 where
  x : ℚ
  y : ℚ
  z : ℚ
  deriving DecidableEq

/-- A `Quatern` (u, x, y, z). -/
structure Quatern where
  u : ℚ
  x : ℚ
  y : ℚ
  z : ℚ
  deriving DecidableEq

/-- A `Pose3d`: position and rotation. -/
structure Pose3d where
  pos : Vector3
  rot : Quatern
  deriving DecidableEq

/-- The pose after `Pose3d::Reset()`: origin and identity rotation. -/
def Pose3d.Reset : Pose3d := ⟨⟨0, 0, 0⟩, ⟨1, 0, 0, 0⟩⟩

/-! ## GazeboError (GazeboError.cc) -/

/-- A `GazeboError`: the source file and line of the `gzthrow` and its message. -/
structure GazeboError where
  file : String
  line : Int
  str : String
  deriving DecidableEq

namespace GazeboError

/-- `GazeboError::GetErrorFile`. -/
def GetErrorFile (e : GazeboError) : String := e.file

/-- `GazeboError::GetErrorStr`. -/
def GetErrorStr (e : GazeboError) : String := e.str

/-- `GazeboError::GetErrorLine`. -/
def GetErrorLine (e : GazeboError) : Int := e.line

end GazeboError

/-- The `gzthrow(msg)` of `Model.cc` at the given line. -/
def gzthrow (line : Int) (msg : String) : GazeboError := ⟨"Model.cc", line, msg⟩

/-- Why a member function did not return normally. -/
inductive Failure where
  /-- A `GazeboError` raised by `gzthrow`; `catch (GazeboError e)` catches it. -/
  | thrown (e : GazeboError)
  /-- A member call through a NULL pointer: undefined behaviour, no handler catches it. -/
  | nullDeref
  deriving DecidableEq

/-! ## XMLConfigNode (external config tree) -/

/-- A node of the config tree: local tag name, namespace prefix, the named
string values `GetString` can resolve, and the child nodes in document order. -/
inductive XMLConfigNode where
  | mk (name : String) (nsPrefix : String) (attrs : List (String × String))
      (children : List XMLConfigNode)

namespace XMLConfigNode

/-- `XMLConfigNode::GetName`: the tag without its namespace prefix. -/
def GetName : XMLConfigNode → String
  | mk n _ _ _ => n

/-- `XMLConfigNode::GetNSPrefix`: the namespace prefix of the tag. -/
def GetNSPrefix : XMLConfigNode → String
  | mk _ p _ _ => p

/-- The named values of the node. -/
def attrs : XMLConfigNode → List (String × String)
  | mk _ _ a _ => a

/-- The child nodes, in document order. -/
def children : XMLConfigNode → List XMLConfigNode
  | mk _ _ _ c => c

mutual
/-- Decidable equality of nodes. -/
def decEq : (a b : XMLConfigNode) → Decidable (a = b)
  | mk n1 p1 a1 c1, mk n2 p2 a2 c2 =>
    if hn : n1 = n2 then
      if hp : p1 = p2 then
        if ha : a1 = a2 then
          match decEqList c1 c2 with
          | isTrue hc => isTrue (by rw [hn, hp, ha, hc])
          | isFalse hc => isFalse (fun h => hc (by cases h; rfl))
        else isFalse (fun h => ha (by cases h; rfl))
      else isFalse (fun h => hp (by cases h; rfl))
    else isFalse (fun h => hn (by cases h; rfl))
/-- Decidable equality of lists of nodes. -/
def decEqList : (a b : List XMLConfigNode) → Decidable (a = b)
  | [], [] => isTrue rfl
  | [], _ :: _ => isFalse (fun h => by cases h)
  | _ :: _, [] => isFalse (fun h => by cases h)
  | x :: xs, y :: ys =>
    match decEq x y with
    | isTrue hx =>
      match decEqList xs ys with
      | isTrue hxs => isTrue (by rw [hx, hxs])
      | isFalse hxs => isFalse (fun h => hxs (by cases h; rfl))
    | isFalse hx => isFalse (fun h => hx (by cases h; rfl))
end

instance : DecidableEq XMLConfigNode := decEq

/-- The value stored under `key` in a list of named values. -/
def lookup (key : String) : List (String × String) → Option String
  | [] => none
  | (k, v) :: rest => if k = key then some v else lookup key rest

/-- Modelled from the spec: `XMLConfigNode::GetString(key, def, require)`, which
is not among the sources; it is the "get-attribute-by-name-with-default-and-
required-flag" accessor: the named value when the node has one, else a
MissingRequiredParameter error when `require` is set, else the default. -/
def GetString (node : XMLConfigNode) (key : String) (dflt : String) (require : Bool) :
    Except GazeboError String :=
  match lookup key node.attrs with
  | some v => .ok v
  | none =>
    if require then .error ⟨"XMLConfig.cc", 0, "missing required parameter[" ++ key ++ "]"⟩
    else .ok dflt

/-- Modelled from the spec: the iteration `c = GetChildByNSPrefix(p)`,
`c = c->GetNextByNSPrefix(p)` until NULL, which is not among the sources; it
is the "get-first/next-child filtered by namespace-prefix" walk: the children
with namespace prefix `p`, in document order (`childrenByNSPrefix_eq_walk`
shows it to be the walk with the first/next accessors). -/
def childrenByNSPrefix (p : String) (node : XMLConfigNode) : List XMLConfigNode :=
  node.children.filter (fun c => c.GetNSPrefix = p)

/-- Modelled from the spec: the iteration of `Model::LoadPhysical` over body
nodes, whose accessors are not among the sources.  It starts at
`GetChildByNSPrefix("body")`, or at `GetChild("body")` when there is none, and
steps to `GetNextByNSPrefix("body")`, or to `GetNext("body")` when there is
none.  A child is therefore visited when its prefix is "body", or when its tag
is "body" and no later sibling has the prefix "body" (`bodyChildNodes_eq_walk`
shows it to be the walk with the first/next accessors). -/
def bodyChildNodes : List XMLConfigNode → List XMLConfigNode
  | [] => []
  | c :: rest =>
    if c.GetNSPrefix = "body" then c :: bodyChildNodes rest
    else if rest.any (fun d => d.GetNSPrefix = "body") then bodyChildNodes rest
    else if c.GetName = "body" then c :: bodyChildNodes rest
    else bodyChildNodes rest

end XMLConfigNode

/-! ## Param (external parameter system) -/

/-- A `ParamT<T>`: key, default, required flag and current value. -/
structure ParamT (α : Type) where
  key : String
  defaultValue : α
  required : Bool
  value : α
  deriving DecidableEq

namespace ParamT

/-- The constructor `ParamT<T>(key, default, required)`. -/
def new {α : Type} (key : String) (dflt : α) (required : Bool) : ParamT α :=
  ⟨key, dflt, required, dflt⟩

/-- `ParamT<T>::GetValue`, also written `**p`. -/
def GetValue {α : Type} (p : ParamT α) : α := p.value

/-- Modelled from the spec: the value part of `ParamT<T>::SetValue`, which is not
among the sources; the registered callback is run by the caller. -/
def SetValue {α : Type} (p : ParamT α) (v : α) : ParamT α := { p with value := v }

/-- Modelled from the spec: the value part of `ParamT<T>::Load(node)`, which is
not among the sources: "Load either finds the name in the config tree and
parses it, or falls back to the default (or fails if marked required and
absent)".  `cast` is the conversion of the text to `T`. -/
def Load {α : Type} (cast : String → α) (p : ParamT α) (node : XMLConfigNode) :
    Except GazeboError (ParamT α) :=
  match node.GetString p.key "" p.required with
  | .error e => .error e
  | .ok _ =>
    match XMLConfigNode.lookup p.key node.attrs with
    | some str => .ok { p with value := cast str }
    | none => .ok { p with value := p.defaultValue }

end ParamT

/-! ## Bodies, joints, controllers -/

/-- The state of a `Body` that `Model.cc` reads or writes. -/
structure Body where
  name : String
  gravityMode : Bool
  frictionMode : Bool
  collideMode : String
  laserFiducialId : Int
  laserRetro : ℚ
  linearVel : Vector3
  angularVel : Vector3
  force : Vector3
  torque : Vector3
  absPose : Pose3d
  deriving DecidableEq

/-- The enumeration `Joint::Type`. -/
inductive JointType where
  | SLIDER
  | HINGE
  | HINGE2
  | BALL
  | UNIVERSAL
  deriving DecidableEq

/-- The state of a `Joint` that `Model.cc` reads or writes: its type, its name
and the name of the model it was bound to by `SetModel`. -/
structure Joint where
  type : JointType
  name : String
  model : Option String
  deriving DecidableEq

/-- A `Controller` as `Model.cc` sees it: the type it was created for and the
name it was loaded under. -/
structure Controller where
  type : String
  name : String
  deriving DecidableEq

/-- The member functions of a `Body` that `Model.cc` calls. -/
inductive BodyCall where
  | SetGravityMode (v : Bool)
  | SetFrictionMode (v : Bool)
  | SetCollideMode (m : String)
  | SetLaserFiducialId (id : Int)
  | SetLaserRetro (retro : ℚ)
  | SetLinearVel (v : Vector3)
  | SetAngularVel (v : Vector3)
  | SetForce (v : Vector3)
  | SetTorque (v : Vector3)
  deriving DecidableEq

/-- The member functions of the attachment joint that `Model::Attach` calls,
with the arguments they are given; an `Angle` is its value in radians. -/
inductive JointCall where
  | Attach (one : Body) (two : Body)
  | SetAnchor (index : Int) (anchor : Vector3)
  | SetAxis (index : Int) (axis : Vector3)
  | SetHighStop (index : Int) (angle : ℚ)
  | SetLowStop (index : Int) (angle : ℚ)
  deriving DecidableEq

/-- The calls `Model.cc` makes to its collaborators, as they are logged. -/
inductive Event where
  /-- `ParamT::Load(node)` of the parameter with this key. -/
  | paramLoad (key : String)
  /-- `World::DeleteEntity(name)`. -/
  | deleteEntity (name : String)
  /-- `PhysicsEngine::CreateBody(model)`. -/
  | createBody
  /-- `Body::Load(node)`. -/
  | bodyLoad (node : XMLConfigNode)
  /-- `PhysicsEngine::CreateJoint(type)`. -/
  | createJoint (t : JointType)
  /-- `Joint::Load(node)`. -/
  | jointLoad (node : XMLConfigNode)
  /-- `ControllerFactory::LoadPlugin(plugin, type)`. -/
  | loadPlugin (plugin : String) (type : String)
  /-- `ControllerFactory::NewController(type, model)`. -/
  | newController (type : String)
  /-- `Controller::Load(node)`. -/
  | controllerLoad (node : XMLConfigNode)
  /-- A member call on the body stored under this key. -/
  | body (key : String) (call : BodyCall)
  /-- `Body::Update()` of the body stored under this key. -/
  | bodyUpdate (key : String)
  /-- `Controller::Update()` of the controller stored under this key. -/
  | controllerUpdate (key : String)
  /-- `Controller::Reset()` of the controller stored under this key. -/
  | controllerReset (key : String)
  /-- `Joint::Reset()` of this joint. -/
  | jointReset (j : Joint)
  /-- `Entity::SetAbsPose(pose, false)` of the model. -/
  | setAbsPose (pose : Pose3d)
  /-- The hook `UpdateChild()`. -/
  | updateChild
  /-- A member call on the attachment joint `this->joint`. -/
  | joint (call : JointCall)
  deriving DecidableEq

/-! ## World and Model state -/

/-- The `World` singleton as `Model.cc` uses it: the scoped names of the models
it holds and the log of the calls made to it, to the physics engine and to the
factories, oldest first. -/
structure World where
  models : List String
  log : List Event
  deriving DecidableEq

/-- Modelled from the spec: the members of the base class `Entity` that
`Model.cc` uses; `Entity` is not among the sources.  They are the name and
static parameters, the static flag, the names of the enclosing models from the
root down, and the poses relative to the parent and absolute. -/
structure Entity where
  nameP : ParamT String
  staticP : ParamT Bool
  isStatic : Bool
  ancestors : List String
  relativePose : Pose3d
  absPose : Pose3d
  deriving DecidableEq

/-- The members of a `Model` (Model.hh) on top of those of `Entity`. -/
structure Model extends Entity where
  type : String
  xmlNode : Option XMLConfigNode
  initPose : Pose3d
  bodies : StdMap (Option Body)
  joints : List Joint
  controllers : StdMap (Option Controller)
  joint : Option Joint
  canonicalBodyNameP : ParamT String
  xyzP : ParamT Vector3
  rpyP : ParamT Quatern
  parentBodyNameP : Option (ParamT String)
  myBodyNameP : Option (ParamT String)
  enableGravityP : ParamT Bool
  enableFrictionP : ParamT Bool
  laserFiducialP : ParamT Int
  laserRetroP : ParamT ℚ
  collideP : ParamT String
  selfID : ParamT Int
  team : ParamT String
  deriving DecidableEq

/-- A `GazeboError` raised by a collaborator: its `gzthrow` stands in the
source file of the collaborator, which is not Model.cc. -/
structure ForeignError where
  error : GazeboError
  foreign : error.file ≠ "Model.cc"

/-- The collaborators whose code is outside the repository sources, as
functions of what they are given.  They read the model and do not change it. -/
structure Externals where
  /-- Conversion of a parameter text to `bool`. -/
  castBool : String → Bool
  /-- Conversion of a parameter text to `int`. -/
  castInt : String → Int
  /-- Conversion of a parameter text to `float`. -/
  castFloat : String → ℚ
  /-- Conversion of a parameter text to `Vector3`. -/
  castVector3 : String → Vector3
  /-- Conversion of a parameter text to `Quatern`. -/
  castQuatern : String → Quatern
  /-- The body returned by `PhysicsEngine::CreateBody(model)`. -/
  CreateBody : Model → Body
  /-- The body after `Body::Load(node)`, or the error it raises. -/
  BodyLoad : Model → Body → XMLConfigNode → Except ForeignError Body
  /-- The joint after `Joint::Load(node)`, or the error it raises. -/
  JointLoad : Model → Joint → XMLConfigNode → Except ForeignError Joint
  /-- The result of `ControllerFactory::NewController(type, model)`, NULL as `none`. -/
  NewController : String → Model → Option Controller
  /-- The controller after `Controller::Load(node)`, or the error it raises. -/
  ControllerLoad : Model → Controller → XMLConfigNode → Except ForeignError Controller
  /-- The body after `Body::Update()`. -/
  BodyUpdate : Body → Body
  /-- The controller after `Controller::Update()`. -/
  ControllerUpdate : Controller → Controller
  /-- The controller after `Controller::Reset()`. -/
  ControllerReset : Controller → Controller
  /-- The joint after `Joint::Reset()`. -/
  JointReset : Joint → Joint
  /-- The text `Body::Save(prefix, stream)` writes. -/
  BodySave : Body → String → String
  /-- The text `Joint::Save(prefix, stream)` writes. -/
  JointSave : Joint → String → String
  /-- The text `Controller::Save(prefix, stream)` writes. -/
  ControllerSave : Controller → String → String
  /-- The text `operator<<` writes for a `bool` value. -/
  showBool : Bool → String
  /-- The text `operator<<` writes for a `Vector3`. -/
  showVector3 : Vector3 → String
  /-- The text `operator<<` writes for a `Quatern`. -/
  showQuatern : Quatern → String
  /-- The text `operator<<` writes for a parameter, from its key and the text
  of its value. -/
  showParam : String → String → String

/-- The state a member function of `Model` runs on: the object and the World. -/
structure St where
  self : Model
  world : World
  deriving DecidableEq

/-- The result of a member function: the state reached, and the failure that
ended it if it did not return normally. -/
structure Outcome where
  st : St
  err : Option Failure
  deriving DecidableEq

namespace Outcome

/-- Normal return. -/
def ok (s : St) : Outcome := ⟨s, none⟩

/-- A `gzthrow` raised in state `s`. -/
def throw (e : GazeboError) (s : St) : Outcome := ⟨s, some (.thrown e)⟩

/-- Sequencing of statements: the next statement runs only after a normal return. -/
def andThen (o : Outcome) (f : St → Outcome) : Outcome :=
  match o.err with
  | none => f o.st
  | some _ => o

/-- The handler `catch (GazeboError e)` that ends by returning or continuing:
a raised `GazeboError` is absorbed, the state reached is kept. -/
def catchGazeboError (o : Outcome) : Outcome :=
  match o.err with
  | some (.thrown _) => ⟨o.st, none⟩
  | _ => o

end Outcome

/-- A statement block: a state transformer that may fail. -/
abbrev Step := St → Outcome

namespace St

/-- Append a call to the log. -/
def record (s : St) (e : Event) : St :=
  { s with world := { s.world with log := s.world.log ++ [e] } }

/-- Replace the model object. -/
def setSelf (s : St) (m : Model) : St := { s with self := m }

end St

/-- A `while (childNode)` loop over the visited nodes: the body runs on each
node in turn, and a failure that leaves the body ends the loop. -/
def forEachNode (body : XMLConfigNode → Step) : List XMLConfigNode → Step
  | [], s => .ok s
  | c :: rest, s => (body c s).andThen (forEachNode body rest)

/-! ## World -/

namespace World

/-- `World::GetModelByName(name) != NULL`: whether the World holds a model of
that scoped name. -/
def GetModelByName (w : World) (name : String) : Bool := decide (name ∈ w.models)

/-- Modelled from the spec: `World::DeleteEntity(name)`, which is not among the
sources: the call is logged and the model of that name leaves the registry. -/
def DeleteEntity (name : String) (s : St) : St :=
  { s with world := { models := s.world.models.filter (fun n => n ≠ name),
                      log := s.world.log ++ [Event.deleteEntity name] } }

end World

/-! ## Entity and Body member functions used by Model.cc -/

namespace Model

/-- Modelled from the spec: `Entity::GetName`, the value of the name parameter. -/
def GetName (m : Model) : String := m.nameP.GetValue

/-- Modelled from the spec: `Entity::GetScopedName`, the "path from root": the
names of the enclosing models and the own name, joined by "::". -/
def GetScopedName (m : Model) : String :=
  m.ancestors.foldr (fun a acc => a ++ "::" ++ acc) m.GetName

/-- Modelled from the spec: `Entity::SetStatic`. -/
def SetStatic (m : Model) (v : Bool) : Model := { m with isStatic := v }

/-- Modelled from the spec: `Entity::IsStatic`. -/
def IsStatic (m : Model) : Bool := m.isStatic

/-- Modelled from the spec: `Entity::SetRelativePose`; the pose relative to the
parent is stored (the cached absolute pose belongs to the pose library). -/
def SetRelativePose (m : Model) (p : Pose3d) : Model := { m with relativePose := p }

/-- Modelled from the spec: `Entity::SetRelativePosition`. -/
def SetRelativePosition (v : Vector3) : Step :=
  fun s => .ok (s.setSelf { s.self with relativePose := { s.self.relativePose with pos := v } })

/-- Modelled from the spec: `Entity::SetRelativeRotation`. -/
def SetRelativeRotation (q : Quatern) : Step :=
  fun s => .ok (s.setSelf { s.self with relativePose := { s.self.relativePose with rot := q } })

/-- `Model::SetInitPose`. -/
def SetInitPose (m : Model) (p : Pose3d) : Model := { m with initPose := p }

/-- `Model::GetInitPose`. -/
def GetInitPose (m : Model) : Pose3d := m.initPose

/-- `Model::GetType`. -/
def GetType (m : Model) : String := m.type

end Model

/-- Modelled from the spec: the effect of a `Body` setter on the body, the
setters not being among the sources: the attribute takes the value given. -/
def BodyCall.apply : BodyCall → Body → Body
  | .SetGravityMode v, b => { b with gravityMode := v }
  | .SetFrictionMode v, b => { b with frictionMode := v }
  | .SetCollideMode m, b => { b with collideMode := m }
  | .SetLaserFiducialId id, b => { b with laserFiducialId := id }
  | .SetLaserRetro r, b => { b with laserRetro := r }
  | .SetLinearVel v, b => { b with linearVel := v }
  | .SetAngularVel v, b => { b with angularVel := v }
  | .SetForce v, b => { b with force := v }
  | .SetTorque v, b => { b with torque := v }

/-- The loop `for (iter = bodies.begin(); iter != bodies.end(); iter++)
iter->second->call(v)`: the map after the calls made, the calls made, and the
failure when an entry holds NULL. -/
def eachBody (call : BodyCall) :
    StdMap (Option Body) → StdMap (Option Body) × List Event × Option Failure
  | [] => ([], [], none)
  | (k, none) :: rest => ((k, none) :: rest, [], some .nullDeref)
  | (k, some b) :: rest =>
    ((k, some (call.apply b)) :: (eachBody call rest).1,
     Event.body k call :: (eachBody call rest).2.1,
     (eachBody call rest).2.2)

namespace Model

/-- The body loop of the setters `Model::SetGravityMode`, `SetFrictionMode`,
`SetCollideMode`, `SetLaserFiducialId` and `SetLaserRetro`. -/
def callBodies (call : BodyCall) : Step := fun s =>
  ⟨{ self := { s.self with bodies := (eachBody call s.self.bodies).1 },
     world := { s.world with log := s.world.log ++ (eachBody call s.self.bodies).2.1 } },
   (eachBody call s.self.bodies).2.2⟩

/-- `Model::SetGravityMode`. -/
def SetGravityMode (v : Bool) : Step := callBodies (.SetGravityMode v)

/-- `Model::SetFrictionMode`. -/
def SetFrictionMode (v : Bool) : Step := callBodies (.SetFrictionMode v)

/-- `Model::SetCollideMode`. -/
def SetCollideMode (m : String) : Step := callBodies (.SetCollideMode m)

/-- `Model::SetLaserFiducialId`. -/
def SetLaserFiducialId (id : Int) : Step := callBodies (.SetLaserFiducialId id)

/-- `Model::SetLaserRetro`. -/
def SetLaserRetro (retro : ℚ) : Step := callBodies (.SetLaserRetro retro)

/-- `Model::GetLaserFiducialId`. -/
def GetLaserFiducialId (m : Model) : Int := m.laserFiducialP.GetValue

/-- `Model::GetSelfID`. -/
def GetSelfID (m : Model) : Int := m.selfID.GetValue

/-- `Model::GetTeam`. -/
def GetTeam (m : Model) : String := m.team.GetValue

/-- The constructor `Model::Model(parent)` on top of the `Entity` it extends:
empty type, no attachment joint, the ten parameters with their defaults, empty
containers. -/
def new (entity : Entity) : gazebo.Model :=
  { toEntity := entity
    type := ""
    xmlNode := none
    initPose := Pose3d.Reset
    bodies := []
    joints := []
    controllers := []
    joint := none
    canonicalBodyNameP := ParamT.new "canonicalBody" "" false
    xyzP := ParamT.new "xyz" ⟨0, 0, 0⟩ false
    rpyP := ParamT.new "rpy" ⟨1, 0, 0, 0⟩ false
    parentBodyNameP := none
    myBodyNameP := none
    enableGravityP := ParamT.new "enableGravity" true false
    enableFrictionP := ParamT.new "enableFriction" true false
    laserFiducialP := ParamT.new "laserFiducialId" (-1) false
    laserRetroP := ParamT.new "laserRetro" (-1) false
    collideP := ParamT.new "collide" "all" false
    selfID := ParamT.new "selfID" (-1) false
    team := ParamT.new "team" "" false }

/-- A `p->Load(node)` of one parameter of the model: the load is logged, a
missing required value raises, and after a successful load the callback
registered for the parameter in the constructor runs on the new value. -/
def loadParam {α : Type} (cast : String → α) (get : gazebo.Model → ParamT α)
    (set : gazebo.Model → ParamT α → gazebo.Model) (callback : α → Step)
    (node : XMLConfigNode) : Step := fun s =>
  match (get s.self).Load cast node with
  | .error e => .throw e (s.record (.paramLoad (get s.self).key))
  | .ok p => callback p.value ((s.record (.paramLoad (get s.self).key)).setSelf (set s.self p))

/-- A parameter without callback. -/
def noCallback {α : Type} : α → Step := fun _ s => .ok s

/-- `Model::CreateBody`: the body comes from the physics engine of the World. -/
def CreateBody (ext : Externals) (s : St) : Body × St :=
  (ext.CreateBody s.self, s.record .createBody)

/-- `Model::GetJointCount`. -/
def GetJointCount (m : gazebo.Model) : Nat := m.joints.length % 2 ^ 32

/-- `Model::GetJoint(std::string name)`: the first registered joint of that
name, NULL (`none`) when there is none. -/
def GetJointByName (m : gazebo.Model) (name : String) : Option Joint :=
  m.joints.find? (fun j => j.name = name)

/-- `Model::GetCanonicalBody`: the read `bodies[canonicalBodyName]`. -/
def GetCanonicalBody (m : gazebo.Model) : gazebo.Model × Option Body :=
  ({ m with bodies := (StdMap.index m.canonicalBodyNameP.GetValue m.bodies).1 },
   (StdMap.index m.canonicalBodyNameP.GetValue m.bodies).2)

/-- `Model::GetBody(const std::string &name)`. -/
def GetBody (m : gazebo.Model) (name : String) : gazebo.Model × Option Body :=
  if (StdMap.find name m.bodies).isSome then
    ({ m with bodies := (StdMap.index name m.bodies).1 }, (StdMap.index name m.bodies).2)
  else if name = "canonical" then m.GetCanonicalBody
  else (m, none)

/-- `Joint::Type` selected by `Model::LoadJoint` from the tag of the node. -/
def jointTypeOfTag (tag : String) : Option JointType :=
  if tag = "hinge" then some .HINGE
  else if tag = "ball" then some .BALL
  else if tag = "slider" then some .SLIDER
  else if tag = "hinge2" then some .HINGE2
  else if tag = "universal" then some .UNIVERSAL
  else none

/-- Modelled from the spec: the joint handed out by
`PhysicsEngine::CreateJoint(type)`, the engine not being among the sources: a
joint of the requested type, not yet named nor bound to a model. -/
def CreateJoint (t : JointType) (s : St) : Joint × St :=
  (⟨t, "", none⟩, s.record (.createJoint t))

/-- `Model::LoadBody`. -/
def LoadBody (ext : Externals) (node : Option XMLConfigNode) : Step := fun s =>
  match node with
  | none => .throw (gzthrow 737 "Trying to load a body with NULL XML information") s
  | some node =>
    let created := CreateBody ext s
    let s1 := created.2.record (.bodyLoad node)
    match ext.BodyLoad s1.self created.1 node with
    | .error e => .throw e.error s1
    | .ok body =>
      -- `if (this->bodies[body->GetName()])` reads through `operator[]`
      let read := StdMap.index body.name s1.self.bodies
      .ok (s1.setSelf { s1.self with bodies := StdMap.assign body.name (some body) read.1 })

/-- `Model::LoadJoint`. -/
def LoadJoint (ext : Externals) (node : Option XMLConfigNode) : Step := fun s =>
  match node with
  | none => .throw (gzthrow 759 "Trying to load a joint with NULL XML information") s
  | some node =>
    match jointTypeOfTag node.GetName with
    | none => .throw (gzthrow 777 ("Uknown joint[" ++ node.GetName ++ "]\n")) s
    | some jtype =>
      let created := CreateJoint jtype s
      -- joint->SetModel(this)
      let bound : Joint := { created.1 with model := some created.2.self.GetName }
      let s1 := created.2.record (.jointLoad node)
      match ext.JointLoad s1.self bound node with
      | .error e => .throw e.error s1
      | .ok joint =>
        if (GetJointByName s1.self joint.name).isSome then
          .throw (gzthrow 788 "can't have two joint with the same name") s1
        else
          .ok (s1.setSelf { s1.self with joints := s1.self.joints ++ [joint] })

/-- `Model::LoadController`. -/
def LoadController (ext : Externals) (node : Option XMLConfigNode) : Step := fun s =>
  match node with
  | none => .throw (gzthrow 799 "node parameter is NULL") s
  | some node =>
    let controllerType := node.GetName
    match node.GetString "name" "" true with
    | .error e => .throw e s
    | .ok controllerName =>
      match node.GetString "plugin" "" false with
      | .error e => .throw e s
      | .ok pluginName =>
        let s1 := if pluginName ≠ "" then s.record (.loadPlugin pluginName controllerType) else s
        let s2 := s1.record (.newController controllerType)
        match ext.NewController controllerType s2.self with
        | some controller =>
          let s3 := s2.record (.controllerLoad node)
          match ext.ControllerLoad s3.self controller node with
          | .error _ => .ok s3
          | .ok loaded =>
            .ok (s3.setSelf { s3.self with
              controllers := StdMap.assign controllerName (some loaded) s3.self.controllers })
        | none => .ok s2

/-- `Model::LoadPhysical`: the body nodes, then the joint nodes, the load of
each joint inside `try`/`catch (GazeboError e)`. -/
def LoadPhysical (ext : Externals) (node : XMLConfigNode) : Step := fun s =>
  (forEachNode (fun c => LoadBody ext (some c))
    (XMLConfigNode.bodyChildNodes node.children) s).andThen
  (forEachNode (fun c s1 => (LoadJoint ext (some c) s1).catchGazeboError)
    (node.childrenByNSPrefix "joint"))

/-- `Model::Load`, lines 163-165: the name parameter. -/
def Load.name (node : XMLConfigNode) : Step :=
  loadParam id (fun m => m.nameP) (fun m p => { m with nameP := p }) noCallback node

/-- `Model::Load`, lines 165-182: the check for a model of the same scoped name. -/
def Load.checkDuplicate (removeDuplicate : Bool) : Step := fun s =>
  if s.world.GetModelByName s.self.GetScopedName then
    if removeDuplicate = false then
      .throw (gzthrow 174 ("Duplicate model name" ++ s.self.GetScopedName ++ "\n")) s
    else
      .ok (World.DeleteEntity s.self.GetScopedName s)
  else .ok s

/-- `Model::Load`, line 184: the static parameter. -/
def Load.static (ext : Externals) (node : XMLConfigNode) : Step :=
  loadParam ext.castBool (fun m => m.staticP) (fun m p => { m with staticP := p }) noCallback node

/-- `Model::Load`, line 186: the canonical body name parameter. -/
def Load.canonicalBodyName (node : XMLConfigNode) : Step :=
  loadParam id (fun m => m.canonicalBodyNameP) (fun m p => { m with canonicalBodyNameP := p })
    noCallback node

/-- `Model::Load`, lines 187-195: the parameters from xyz to team, each with
the callback the constructor registered for it. -/
def Load.otherParameters (ext : Externals) (node : XMLConfigNode) : Step := fun s =>
  (loadParam ext.castVector3 (fun m => m.xyzP) (fun m p => { m with xyzP := p })
    SetRelativePosition node s).andThen fun s =>
  (loadParam ext.castQuatern (fun m => m.rpyP) (fun m p => { m with rpyP := p })
    SetRelativeRotation node s).andThen fun s =>
  (loadParam ext.castBool (fun m => m.enableGravityP) (fun m p => { m with enableGravityP := p })
    SetGravityMode node s).andThen fun s =>
  (loadParam ext.castBool (fun m => m.enableFrictionP) (fun m p => { m with enableFrictionP := p })
    SetFrictionMode node s).andThen fun s =>
  (loadParam id (fun m => m.collideP) (fun m p => { m with collideP := p })
    SetCollideMode node s).andThen fun s =>
  (loadParam ext.castInt (fun m => m.laserFiducialP) (fun m p => { m with laserFiducialP := p })
    SetLaserFiducialId node s).andThen fun s =>
  (loadParam ext.castFloat (fun m => m.laserRetroP) (fun m p => { m with laserRetroP := p })
    SetLaserRetro node s).andThen fun s =>
  (loadParam ext.castInt (fun m => m.selfID) (fun m p => { m with selfID := p })
    noCallback node s).andThen fun s =>
  loadParam id (fun m => m.team) (fun m p => { m with team := p }) noCallback node s

/-- `Model::Load`, lines 184-195: the parameters after the name. -/
def Load.parameters (ext : Externals) (node : XMLConfigNode) : Step := fun s =>
  (Load.static ext node s).andThen fun s1 =>
  (Load.canonicalBodyName node s1).andThen (Load.otherParameters ext node)

/-- The local `pose` of `Model::Load`, lines 203-205. -/
def Load.pose (m : gazebo.Model) : Pose3d :=
  { Pose3d.Reset with pos := m.xyzP.GetValue, rot := m.rpyP.GetValue }

/-- `Model::Load`, lines 197-208: node, type and static flag are stored, and a
static model takes its pose at once. -/
def Load.setup (node : XMLConfigNode) (s : St) : St :=
  let m1 : gazebo.Model := { s.self with xmlNode := some node, type := node.GetName }
  let m2 := m1.SetStatic m1.staticP.GetValue
  if m2.IsStatic then s.setSelf (m2.SetRelativePose (Load.pose m2)) else s.setSelf m2

/-- `Model::Load`, lines 210-213: the dispatch on the type. -/
def Load.byType (ext : Externals) (node : XMLConfigNode) : Step := fun s =>
  if s.self.type = "physical" then LoadPhysical ext node s
  else if s.self.type ≠ "empty" then
    .throw (gzthrow 213 ("Invalid model type[" ++ s.self.type ++ "]\n")) s
  else .ok s

/-- `Model::Load`, lines 215-220: a non-static model takes its pose now, and
the pose is recorded as the initial pose. -/
def Load.setPose (pose : Pose3d) (s : St) : St :=
  let m1 := if s.self.IsStatic = false then s.self.SetRelativePose pose else s.self
  s.setSelf (m1.SetInitPose pose)

/-- `Model::Load`, lines 222-228: the controller nodes. -/
def Load.controllers (ext : Externals) (node : XMLConfigNode) : Step :=
  forEachNode (fun c => LoadController ext (some c)) (node.childrenByNSPrefix "controller")

/-- `Model::Load`, lines 230-245: the default body of a model without bodies. -/
def Load.defaultBody (ext : Externals) (s : St) : St :=
  if s.self.bodies.length ≤ 0 then
    let bodyName := s.self.GetName ++ "_body"
    let created := CreateBody ext s
    let body : Body := { created.1 with name := bodyName }
    created.2.setSelf { created.2.self with
      bodies := StdMap.assign body.name (some body) created.2.self.bodies
      canonicalBodyNameP := created.2.self.canonicalBodyNameP.SetValue bodyName }
  else s

/-- `Model::Load`, lines 248-253: an empty canonical body name (`empty()`, the
string "") becomes the first key of the bodies map. -/
def Load.canonical : Step := fun s =>
  if s.self.canonicalBodyNameP.GetValue = "" then
    match s.self.bodies with
    | [] => ⟨s, some .nullDeref⟩
    | (k, _) :: _ =>
      .ok (s.setSelf { s.self with canonicalBodyNameP := s.self.canonicalBodyNameP.SetValue k })
  else .ok s

/-- `Model::Load`, lines 255-265: gravity mode for a non-static model, and the
laser fiducial id and retro value when they are not -1. -/
def Load.pushModes : Step := fun s =>
  ((if s.self.staticP.GetValue = false then SetGravityMode s.self.enableGravityP.GetValue s
    else .ok s).andThen fun s =>
   (if s.self.laserFiducialP.GetValue ≠ -1 then SetLaserFiducialId s.self.laserFiducialP.GetValue s
    else .ok s)).andThen fun s =>
  if s.self.laserRetroP.GetValue ≠ -1 then SetLaserRetro s.self.laserRetroP.GetValue s
  else .ok s

/-- `Model::Load`, lines 215-265: what follows the dispatch on the type. -/
def Load.afterType (ext : Externals) (node : XMLConfigNode) (pose : Pose3d) : Step := fun s =>
  (Load.controllers ext node (Load.setPose pose s)).andThen fun s1 =>
  (Load.canonical (Load.defaultBody ext s1)).andThen Load.pushModes

/-- `Model::Load`, lines 197-265: what follows the loading of the parameters. -/
def Load.afterParameters (ext : Externals) (node : XMLConfigNode) : Step := fun s =>
  (Load.byType ext node (Load.setup node s)).andThen
    (Load.afterType ext node (Load.pose (Load.setup node s).self))

/-- `Model::Load`, lines 184-265: what follows the duplicate check. -/
def Load.afterDuplicate (ext : Externals) (node : XMLConfigNode) : Step := fun s =>
  (Load.parameters ext node s).andThen (Load.afterParameters ext node)

/-- `Model::Load`, lines 163-195: the name, the duplicate check and the
parameters, the part of `Load` before the type is looked at. -/
def Load.prelude (ext : Externals) (node : XMLConfigNode) (removeDuplicate : Bool) : Step :=
  fun s =>
  (Load.name node s).andThen fun s1 =>
  (Load.checkDuplicate removeDuplicate s1).andThen (Load.parameters ext node)

/-- `Model::Load(node, removeDuplicate)`. -/
def Load (ext : Externals) (node : XMLConfigNode) (removeDuplicate : Bool) : Step := fun s =>
  (Load.name node s).andThen fun s1 =>
  (Load.checkDuplicate removeDuplicate s1).andThen (Load.afterDuplicate ext node)

end Model

/-! ## Properties of runs -/

/-- The log after is the log before followed by calls that all satisfy `Q`. -/
def LogExt (Q : Event → Prop) (a b : St) : Prop :=
  ∃ added, b.world.log = a.world.log ++ added ∧ ∀ e ∈ added, Q e

/-- Whether the event is a member call on a body of the bodies map. -/
def Event.isBodyCall : Event → Bool
  | .body _ _ => true
  | _ => false

/-- Whether the event is a `Body::SetGravityMode` on a body of the bodies map. -/
def Event.isGravity : Event → Bool
  | .body _ (.SetGravityMode _) => true
  | _ => false

/-- Whether the event is a `Body::Load` or a `Joint::Load`. -/
def Event.isLoad : Event → Bool
  | .bodyLoad _ => true
  | .jointLoad _ => true
  | _ => false

/-- Every entry of a bodies map holds a body, stored under its own name. -/
def WellNamed (m : StdMap (Option Body)) : Prop :=
  ∀ e ∈ m, ∃ b, e.2 = some b ∧ b.name = e.1

/-- The keys of a map ascend strictly. -/
def Ascending {β : Type} (m : StdMap β) : Prop :=
  m.Pairwise (fun a b => strLess a.1 b.1 = true)

/-- What a relation between the state before and the state after must allow
to be kept by the statements of `Model::Load` that neither load a body, a joint
or a controller nor touch the name or the canonical body name: logging a call
that is no body or joint load and no call on a body, `World::DeleteEntity`, a
change of the model
that leaves bodies, joints, controllers, name and canonical body name alone,
and a setter call on every body. -/
structure Quiet (R : St → St → Prop) : Prop where
  refl : ∀ a, R a a
  trans : ∀ a b c, R a b → R b c → R a c
  record : ∀ s e, e.isLoad = false → e.isBodyCall = false → R s (s.record e)
  delete : ∀ s n, R s (World.DeleteEntity n s)
  change : ∀ s m, m.bodies = s.self.bodies → m.joints = s.self.joints →
    m.controllers = s.self.controllers → m.nameP = s.self.nameP →
    m.canonicalBodyNameP = s.self.canonicalBodyNameP → R s (s.setSelf m)
  bodies : ∀ s call, R s (Model.callBodies call s).st

/-! ## A sample configuration -/

namespace Sample

/-- A body as the sample engine creates it. -/
def body : Body :=
  ⟨"", true, true, "all", -1, -1, ⟨0, 0, 0⟩, ⟨0, 0, 0⟩, ⟨0, 0, 0⟩, ⟨0, 0, 0⟩, Pose3d.Reset⟩

/-- The name a sample body, joint or controller takes from its node. -/
def nameOf (node : XMLConfigNode) : String :=
  match XMLConfigNode.lookup "name" node.attrs with
  | some v => v
  | none => ""

/-- Sample collaborators: bodies, joints and controllers take the name given
on their node, and a body or joint node without a name is an error. -/
def ext : Externals :=
  { castBool := fun t => decide (t = "true")
    castInt := fun _ => 0
    castFloat := fun _ => 0
    castVector3 := fun _ => ⟨0, 0, 0⟩
    castQuatern := fun _ => ⟨1, 0, 0, 0⟩
    CreateBody := fun _ => body
    BodyLoad := fun _ b n =>
      match XMLConfigNode.lookup "name" n.attrs with
      | some v => .ok { b with name := v }
      | none => .error ⟨⟨"Body.cc", 0, "body without name"⟩, by decide⟩
    JointLoad := fun _ j n =>
      match XMLConfigNode.lookup "name" n.attrs with
      | some v => .ok { j with name := v }
      | none => .error ⟨⟨"Joint.cc", 0, "joint without name"⟩, by decide⟩
    NewController := fun t _ => if t = "unknown" then none else some ⟨t, ""⟩
    ControllerLoad := fun _ c n =>
      match XMLConfigNode.lookup "broken" n.attrs with
      | some _ => .error ⟨⟨"Controller.cc", 0, "broken controller"⟩, by decide⟩
      | none => .ok { c with name := nameOf n }
    BodyUpdate := fun b => { b with absPose := ⟨⟨1, 0, 0⟩, b.absPose.rot⟩ }
    ControllerUpdate := fun c => c
    ControllerReset := fun c => c
    JointReset := fun j => j
    BodySave := fun b p => p ++ "<body name=\"" ++ b.name ++ "\"/>\n"
    JointSave := fun j p => p ++ "<joint name=\"" ++ j.name ++ "\"/>\n"
    ControllerSave := fun c p => p ++ "<controller name=\"" ++ c.name ++ "\"/>\n"
    showBool := fun b => if b then "true" else "false"
    showVector3 := fun _ => "0 0 0"
    showQuatern := fun _ => "0 0 0"
    showParam := fun key value => key ++ "=\"" ++ value ++ "\"" }

/-- A root entity with a required name and an optional static flag. -/
def entity : Entity :=
  ⟨ParamT.new "name" "" true, ParamT.new "static" false false, false, [], Pose3d.Reset,
   Pose3d.Reset⟩

/-- A World that holds one model, "old". -/
def world : World := ⟨["old"], []⟩

/-- A freshly constructed model in the sample World. -/
def st : St := ⟨Model.new entity, world⟩

/-- A node `<prefix:tag name="name">` without children. -/
def leaf (pfx tag name : String) : XMLConfigNode := .mk tag pfx [("name", name)] []

end Sample

/-- A failure that Model.cc did not raise itself: a NULL dereference, or a
`GazeboError` whose `gzthrow` stands in another source file. -/
def Failure.Foreign : Failure → Prop
  | .nullDeref => True
  | .thrown e => e.file ≠ "Model.cc"

/-- A body after a sequence of setter calls. -/
def applyCalls (calls : List BodyCall) (b : Body) : Body :=
  calls.foldl (fun b call => call.apply b) b

/-- The entries of the second bodies map are those of the first, key by key,
each body after some setter calls and each NULL still NULL. -/
def BodiesEvolve (m m2 : StdMap (Option Body)) : Prop :=
  List.Forall₂ (fun e e2 => e2.1 = e.1 ∧ ∃ calls, e2.2 = e.2.map (applyCalls calls)) m m2

namespace Sample

/-- The node `<model:physical name="m">` with the body children "b" and "a",
in this order, a hinge joint "j" and a controller "c"; `canonical` is the
value of its `canonicalBody` attribute, if it has one. -/
def robot (canonical : Option String) : XMLConfigNode :=
  .mk "physical" "model"
    (("name", "m") :: match canonical with
      | some v => [("canonicalBody", v)]
      | none => [])
    [leaf "body" "box" "b", leaf "body" "box" "a", leaf "joint" "hinge" "j",
     leaf "controller" "drive" "c"]

end Sample

/-! ## The first/next accessors of the config tree -/

namespace XMLConfigNode

/-- A position among siblings, as a `XMLConfigNode *` that is not NULL gives
it: the node and the siblings after it. -/
abbrev Cursor := XMLConfigNode × List XMLConfigNode

/-- Modelled from the spec: the search of `GetChildByNSPrefix(p)` through the
children, and of `GetNextByNSPrefix(p)` through the siblings after a node; the
accessors are not among the sources.  The result is the first node with the
namespace prefix `p`, NULL as `none`. -/
def firstByNSPrefix (p : String) : List XMLConfigNode → Option Cursor
  | [] => none
  | c :: rest => if c.GetNSPrefix = p then some (c, rest) else firstByNSPrefix p rest

/-- Modelled from the spec: the search of `GetChild(name)` through the
children, and of `GetNext(name)` through the siblings after a node: the first
node with that tag. -/
def firstByName (name : String) : List XMLConfigNode → Option Cursor
  | [] => none
  | c :: rest => if c.GetName = name then some (c, rest) else firstByName name rest

/-- `node->GetChildByNSPrefix(p)`. -/
def GetChildByNSPrefix (node : XMLConfigNode) (p : String) : Option Cursor :=
  firstByNSPrefix p node.children

/-- `node->GetChild(name)`. -/
def GetChild (node : XMLConfigNode) (name : String) : Option Cursor :=
  firstByName name node.children

/-- `childNode->GetNextByNSPrefix(p)`. -/
def GetNextByNSPrefix (cur : Cursor) (p : String) : Option Cursor :=
  firstByNSPrefix p cur.2

/-- `childNode->GetNext(name)`. -/
def GetNext (cur : Cursor) (name : String) : Option Cursor :=
  firstByName name cur.2

/-- The nodes that `while (childNode) { ...; childNode =
childNode->GetNextByNSPrefix(p); }` visits from `childNode` on, in at most
`fuel` rounds. -/
def walkByNSPrefix (p : String) : Nat → Option Cursor → List XMLConfigNode
  | 0, _ => []
  | _ + 1, none => []
  | fuel + 1, some cur => cur.1 :: walkByNSPrefix p fuel (GetNextByNSPrefix cur p)

/-- The nodes that the body loop of `Model::LoadPhysical` visits from
`childNode` on, in at most `fuel` rounds: the step is to
`GetNextByNSPrefix("body")` when there is one and to `GetNext("body")`
otherwise. -/
def walkBodies : Nat → Option Cursor → List XMLConfigNode
  | 0, _ => []
  | _ + 1, none => []
  | fuel + 1, some cur =>
    cur.1 :: walkBodies fuel
      (if (GetNextByNSPrefix cur "body").isSome then GetNextByNSPrefix cur "body"
       else GetNext cur "body")

end XMLConfigNode

/-! ## Joints by index, reset, update and attachment -/

namespace Model

/-- `Model::GetJoint(unsigned int index)`: the index is an `unsigned int`, a
number below 2^32; the member function is `const`. -/
def GetJoint (m : gazebo.Model) (index : Nat) : Except GazeboError Joint :=
  if h : index ≥ m.joints.length then
    .error (gzthrow 714 ("Invalid joint index[" ++ toString index ++ "]\n"))
  else .ok (m.joints.get ⟨index, Nat.lt_of_not_le h⟩)

/-- The loop `for (citer = controllers.begin(); ...) citer->second->Reset()`
of `Model::Reset`: the map after the calls made, the calls made, and the
failure when an entry holds NULL. -/
def resetControllers (ext : Externals) :
    StdMap (Option Controller) → StdMap (Option Controller) × List Event × Option Failure
  | [] => ([], [], none)
  | (k, none) :: rest => ((k, none) :: rest, [], some .nullDeref)
  | (k, some c) :: rest =>
    ((k, some (ext.ControllerReset c)) :: (resetControllers ext rest).1,
     Event.controllerReset k :: (resetControllers ext rest).2.1,
     (resetControllers ext rest).2.2)

/-- The body loop of `Model::Reset`: on every body in turn `SetLinearVel(v)`,
`SetAngularVel(v)`, `SetForce(v)` and `SetTorque(v)`; an entry holding NULL
ends the loop in a failure. -/
def resetBodies (v : Vector3) :
    StdMap (Option Body) → StdMap (Option Body) × List Event × Option Failure
  | [] => ([], [], none)
  | (k, none) :: rest => ((k, none) :: rest, [], some .nullDeref)
  | (k, some b) :: rest =>
    ((k, some ((BodyCall.SetTorque v).apply ((BodyCall.SetForce v).apply
        ((BodyCall.SetAngularVel v).apply ((BodyCall.SetLinearVel v).apply b))))) ::
       (resetBodies v rest).1,
     Event.body k (.SetLinearVel v) :: Event.body k (.SetAngularVel v) ::
       Event.body k (.SetForce v) :: Event.body k (.SetTorque v) :: (resetBodies v rest).2.1,
     (resetBodies v rest).2.2)

/-- `Model::Reset`, lines 515-518: the controllers. -/
def Reset.controllers (ext : Externals) : Step := fun s =>
  ⟨{ self := { s.self with controllers := (resetControllers ext s.self.controllers).1 },
     world := { s.world with
       log := s.world.log ++ (resetControllers ext s.self.controllers).2.1 } },
   (resetControllers ext s.self.controllers).2.2⟩

/-- `Model::Reset`, lines 520-523: the joints, in the order of the vector. -/
def Reset.joints (ext : Externals) : Step := fun s =>
  .ok { self := { s.self with joints := s.self.joints.map ext.JointReset },
        world := { s.world with log := s.world.log ++ s.self.joints.map Event.jointReset } }

/-- `Model::Reset`, lines 525-531: the bodies, with `v` the vector (0,0,0). -/
def Reset.bodies : Step := fun s =>
  ⟨{ self := { s.self with bodies := (resetBodies ⟨0, 0, 0⟩ s.self.bodies).1 },
     world := { s.world with log := s.world.log ++ (resetBodies ⟨0, 0, 0⟩ s.self.bodies).2.1 } },
   (resetBodies ⟨0, 0, 0⟩ s.self.bodies).2.2⟩

/-- `Model::Reset`; the line `SetPose(initPose)` is commented out in the source. -/
def Reset (ext : Externals) : Step := fun s =>
  (Reset.controllers ext s).andThen fun s1 =>
  (Reset.joints ext s1).andThen Reset.bodies

/-- The body loop of `Model::Update` without thread pool: `Update()` on every
entry that is not NULL. -/
def updateBodies (ext : Externals) :
    StdMap (Option Body) → StdMap (Option Body) × List Event
  | [] => ([], [])
  | (k, none) :: rest => ((k, none) :: (updateBodies ext rest).1, (updateBodies ext rest).2)
  | (k, some b) :: rest =>
    ((k, some (ext.BodyUpdate b)) :: (updateBodies ext rest).1,
     Event.bodyUpdate k :: (updateBodies ext rest).2)

/-- The controller loop of `Model::Update` without thread pool: `Update()` on
every entry that is not NULL. -/
def updateControllers (ext : Externals) :
    StdMap (Option Controller) → StdMap (Option Controller) × List Event
  | [] => ([], [])
  | (k, none) :: rest =>
    ((k, none) :: (updateControllers ext rest).1, (updateControllers ext rest).2)
  | (k, some c) :: rest =>
    ((k, some (ext.ControllerUpdate c)) :: (updateControllers ext rest).1,
     Event.controllerUpdate k :: (updateControllers ext rest).2)

/-- Modelled from the spec: `Entity::SetAbsPose(pose, false)`, `Entity` not
being among the sources: the absolute pose of the model takes the value given. -/
def SetAbsPose (pose : Pose3d) (s : St) : St :=
  (s.setSelf { s.self with absPose := pose }).record (.setAbsPose pose)

/-- `Model::Update`, lines 412-425: the bodies. -/
def Update.bodies (ext : Externals) (s : St) : St :=
  { self := { s.self with bodies := (updateBodies ext s.self.bodies).1 },
    world := { s.world with log := s.world.log ++ (updateBodies ext s.self.bodies).2 } }

/-- `Model::Update`, lines 429-441: the controllers. -/
def Update.controllers (ext : Externals) (s : St) : St :=
  { self := { s.self with controllers := (updateControllers ext s.self.controllers).1 },
    world := { s.world with
      log := s.world.log ++ (updateControllers ext s.self.controllers).2 } }

/-- `Model::Update`, lines 453-458: with a canonical body name that is not
empty, `SetAbsPose(bodies[name]->GetAbsPose(), false)`; the read `bodies[name]`
inserts NULL under a key the map lacks, and NULL is dereferenced. -/
def Update.pose : Step := fun s =>
  if s.self.canonicalBodyNameP.GetValue = "" then .ok s
  else
    let read := StdMap.index s.self.canonicalBodyNameP.GetValue s.self.bodies
    let s1 := s.setSelf { s.self with bodies := read.1 }
    match read.2 with
    | none => ⟨s1, some .nullDeref⟩
    | some b => .ok (SetAbsPose b.absPose s1)

/-- `Model::Update`, line 479: the hook `UpdateChild()`. -/
def Update.child : Step := fun s => .ok (s.record .updateChild)

/-- `Model::Update` as compiled without `USE_THREADPOOL`. -/
def Update (ext : Externals) : Step := fun s =>
  if s.self.controllers.length = 0 ∧ s.self.IsStatic = true then .ok s
  else (Update.pose (Update.controllers ext (Update.bodies ext s))).andThen Update.child

/-- `Model::Attach`, line 918: `parentBodyNameP->Load(node)`; the parameter
has no callback. -/
def Attach.loadParentBody (node : XMLConfigNode) : Step := fun s =>
  match s.self.parentBodyNameP with
  | none => ⟨s, some .nullDeref⟩
  | some p =>
    match p.Load id node with
    | .error e => .throw e (s.record (.paramLoad p.key))
    | .ok p1 =>
      .ok ((s.record (.paramLoad p.key)).setSelf { s.self with parentBodyNameP := some p1 })

/-- `Model::Attach`, line 919: `myBodyNameP->Load(node)`; the parameter has no
callback. -/
def Attach.loadMyBody (node : XMLConfigNode) : Step := fun s =>
  match s.self.myBodyNameP with
  | none => ⟨s, some .nullDeref⟩
  | some p =>
    match p.Load id node with
    | .error e => .throw e (s.record (.paramLoad p.key))
    | .ok p1 =>
      .ok ((s.record (.paramLoad p.key)).setSelf { s.self with myBodyNameP := some p1 })

/-- `Model::Attach`, lines 910-920: the two parameters are created, both
required, and loaded when a node is given. -/
def Attach.parameters (node : Option XMLConfigNode) : Step := fun s =>
  let s1 := s.setSelf { s.self with
    parentBodyNameP := some (ParamT.new "parentBody" "canonical" true)
    myBodyNameP := some (ParamT.new "myBody" s.self.canonicalBodyNameP.GetValue true) }
  match node with
  | none => .ok s1
  | some node => (Attach.loadParentBody node s1).andThen (Attach.loadMyBody node)

/-- `Model::Attach`, lines 937-941: the calls on the attachment joint. -/
def Attach.calls (myBody pBody : Body) : List JointCall :=
  [.Attach myBody pBody, .SetAnchor 0 myBody.absPose.pos, .SetAxis 0 ⟨0, 1, 0⟩,
   .SetHighStop 0 0, .SetLowStop 0 0]

/-- `Model::Attach`, line 926: the hinge joint is asked of the physics engine
and stored in `this->joint`. -/
def Attach.create (s : St) : St :=
  let created := CreateJoint .HINGE s
  created.2.setSelf { created.2.self with joint := some created.1 }

/-- `Model::Attach`, lines 928-941: both bodies are looked up, then tested,
then the attachment joint is set up; the outcome for this model, and the
parent model after its lookup. -/
def Attach.connect (parent : gazebo.Model) (s : St) : Outcome × Option gazebo.Model :=
  match s.self.myBodyNameP, s.self.parentBodyNameP with
  | some myName, some parentName =>
    let mine := s.self.GetBody myName.GetValue
    let theirs := parent.GetBody parentName.GetValue
    let s2 := s.setSelf mine.1
    match mine.2 with
    | none => (.throw (gzthrow 932 "No canonical body set.") s2, some theirs.1)
    | some myBody =>
      match theirs.2 with
      | none => (.throw (gzthrow 935 "Parent has no canonical body") s2, some theirs.1)
      | some pBody =>
        (.ok { s2 with world := { s2.world with
                log := s2.world.log ++ (Attach.calls myBody pBody).map Event.joint } },
         some theirs.1)
  | _, _ => (⟨s, some .nullDeref⟩, some parent)

/-- `Model::Attach`, lines 922-941, on the parent model found by
`dynamic_cast<Model*>(this->parent)`, NULL as `none`: the outcome for this
model, and the parent model afterwards. -/
def Attach.join (parentModel : Option gazebo.Model) (s : St) : Outcome × Option gazebo.Model :=
  match parentModel with
  | none => (.throw (gzthrow 924 "Parent cannot be NULL when attaching two models") s, none)
  | some parent => Attach.connect parent (Attach.create s)

/-- `Model::Attach(node)`, with the parent model as `Attach.join` takes it. -/
def Attach (node : Option XMLConfigNode) (parentModel : Option gazebo.Model) (s : St) :
    Outcome × Option gazebo.Model :=
  match (Attach.parameters node s).err with
  | some f => (⟨(Attach.parameters node s).st, some f⟩, parentModel)
  | none => Attach.join parentModel (Attach.parameters node s).st

end Model

/-- The four setter calls `Model::Reset` makes on the body under a key. -/
def Model.Reset.calls (k : String) : List Event :=
  [.body k (.SetLinearVel ⟨0, 0, 0⟩), .body k (.SetAngularVel ⟨0, 0, 0⟩),
   .body k (.SetForce ⟨0, 0, 0⟩), .body k (.SetTorque ⟨0, 0, 0⟩)]

/-- The sample model after `Load` from the sample node without `canonicalBody`
attribute: the bodies "a" and "b", the joint "j" and the controller "c". -/
def Sample.loaded : St := (Model.Load Sample.ext (Sample.robot none) false Sample.st).st

/-- A static sample model without controllers, after `Load`: one body "b". -/
def Sample.still : St :=
  (Model.Load Sample.ext
    (.mk "physical" "model" [("name", "s"), ("static", "true")] [Sample.leaf "body" "box" "b"])
    false Sample.st).st

/-! ## Save -/

/-- A model together with the models among its `children`, in the order of
that vector; the children that are no models are left out, as the
`dynamic_cast<Model*>` of `Model::Save` does. -/
inductive ModelTree where
  | mk (self : Model) (children : List ModelTree)

namespace Model

/-- The text `stream << *(p)` writes for a parameter. -/
def Save.param {α : Type} (ext : Externals) (render : α → String) (p : ParamT α) : String :=
  ext.showParam p.key (render p.value)

/-- `Model::Save`, lines 298-299: `xyzP` and `rpyP` take the relative pose;
the callbacks of the two parameters store the same position and rotation as
the relative pose again. -/
def Save.sync (m : gazebo.Model) : gazebo.Model :=
  let m1 : gazebo.Model := { m with xyzP := m.xyzP.SetValue m.relativePose.pos }
  let m2 : gazebo.Model :=
    { m1 with relativePose := { m1.relativePose with pos := m1.xyzP.GetValue } }
  let m3 : gazebo.Model := { m2 with rpyP := m2.rpyP.SetValue m2.relativePose.rot }
  { m3 with relativePose := { m3.relativePose with rot := m3.rpyP.GetValue } }

/-- `Model::Save`, lines 301-304: the local `typeName`, which stays empty for
a type that is neither "empty" nor "physical". -/
def Save.typeName (m : gazebo.Model) : String :=
  if m.type = "empty" then "empty" else if m.type = "physical" then "physical" else ""

/-- `Model::Save`, lines 306-307: the opening line. -/
def Save.head (pfx : String) (m : gazebo.Model) : String :=
  pfx ++ "<model:" ++ Save.typeName m ++ " name=\"" ++ m.nameP.GetValue ++ "\">\n"

/-- `Model::Save`, lines 308-312: the lines of xyz, rpy, enableGravity,
enableFriction and collide. -/
def Save.core (ext : Externals) (pfx : String) (m : gazebo.Model) : String :=
  pfx ++ "  " ++ Save.param ext ext.showVector3 m.xyzP ++ "\n" ++
  pfx ++ "  " ++ Save.param ext ext.showQuatern m.rpyP ++ "\n" ++
  pfx ++ "  " ++ Save.param ext ext.showBool m.enableGravityP ++ "\n" ++
  pfx ++ "  " ++ Save.param ext ext.showBool m.enableFrictionP ++ "\n" ++
  pfx ++ "  " ++ Save.param ext id m.collideP ++ "\n"

/-- `Model::Save`, lines 319-324: a newline for every entry of the bodies map,
followed by the text of the body when the entry is not NULL. -/
def Save.bodies (ext : Externals) (p : String) : StdMap (Option Body) → String
  | [] => ""
  | (_, none) :: rest => "\n" ++ Save.bodies ext p rest
  | (_, some b) :: rest => "\n" ++ ext.BodySave b p ++ Save.bodies ext p rest

/-- `Model::Save`, lines 327-330: the joints; the vector holds no NULL, every
joint in it was pushed by `LoadJoint`. -/
def Save.joints (ext : Externals) (p : String) : List Joint → String
  | [] => ""
  | j :: rest => ext.JointSave j p ++ Save.joints ext p rest

/-- `Model::Save`, lines 333-338: the controllers that are not NULL. -/
def Save.controllers (ext : Externals) (p : String) : StdMap (Option Controller) → String
  | [] => ""
  | (_, none) :: rest => Save.controllers ext p rest
  | (_, some c) :: rest => ext.ControllerSave c p ++ Save.controllers ext p rest

/-- `Model::Save`, lines 314-339: what is written for the type "physical" only:
the line of static, the bodies, the joints and the controllers. -/
def Save.physical (ext : Externals) (pfx : String) (m : gazebo.Model) : String :=
  if m.type = "physical" then
    pfx ++ "  " ++ Save.param ext ext.showBool m.staticP ++ "\n" ++
    Save.bodies ext (pfx ++ "  ") m.bodies ++
    Save.joints ext (pfx ++ "  ") m.joints ++
    Save.controllers ext (pfx ++ "  ") m.controllers
  else ""

/-- `Model::Save`, lines 341-347: the attachment record, written when both
parameters of `Attach` exist. -/
def Save.attach (ext : Externals) (pfx : String) (m : gazebo.Model) : String :=
  match m.parentBodyNameP, m.myBodyNameP with
  | some parentBody, some myBody =>
    pfx ++ "  <attach>\n" ++
    pfx ++ "    " ++ Save.param ext id parentBody ++ "\n" ++
    pfx ++ "    " ++ Save.param ext id myBody ++ "\n" ++
    pfx ++ "  </attach>\n"
  | _, _ => ""

/-- `Model::Save`, line 358: the closing line. -/
def Save.foot (pfx : String) (m : gazebo.Model) : String :=
  pfx ++ "</model:" ++ Save.typeName m ++ ">\n"

mutual

/-- `Model::Save(prefix, stream)`: the text appended to the stream.  The model
is `Save.sync` of itself afterwards, and so is every child model. -/
def Save (ext : Externals) (pfx : String) : ModelTree → String
  | .mk m children =>
    Save.head pfx (Save.sync m) ++ Save.core ext pfx (Save.sync m) ++
    Save.physical ext pfx (Save.sync m) ++ Save.attach ext pfx (Save.sync m) ++
    SaveChildren ext (pfx ++ "  ") children ++ Save.foot pfx (Save.sync m)

/-- `Model::Save`, lines 350-356: every child model is saved with the prefix
`p`, the prefix of the model followed by two blanks. -/
def SaveChildren (ext : Externals) (p : String) : List ModelTree → String
  | [] => ""
  | c :: rest => Save ext p c ++ SaveChildren ext p rest

end

end Model

/-! ## ODEHingeJoint -/

/-- The functions of the ODE library that ODEHingeJoint.cc calls, with the
arguments they are given after the joint id. -/
inductive OdeCall where
  | dJointGetHingeAnchor
  | dJointSetHingeAnchor (x y z : ℚ)
  | dJointGetHingeAxis
  | dJointSetHingeAxis (x y z : ℚ)
  | dJointGetHingeAngle
  | dJointGetHingeAngleRate
  | dJointAddHingeTorque (torque : ℚ)
  | dJointGetHingeParam (parameter : Int)
  | dJointSetHingeParam (parameter : Int) (value : ℚ)
  deriving DecidableEq

/-- What a member function of `ODEHingeJoint` does outside the object:
`physics->LockMutex()`, `physics->UnlockMutex()`, and a call of the ODE library
on a joint id. -/
inductive OdeEvent where
  | LockMutex
  | UnlockMutex
  | call (jointId : Nat) (c : OdeCall)
  deriving DecidableEq

/-- An `ODEHingeJoint` as ODEHingeJoint.cc sees it: its `jointId`, the state of
the solver of type `W` behind `physics`, and the trace of what its member
functions did outside the object. -/
structure ODEHingeJoint (W : Type) where
  jointId : Nat
  solver : W
  trace : List OdeEvent

/-- What ODEHingeJoint.cc uses and the sources do not hold: the two parameter
numbers and the functions of the ODE library, on a solver state of type `W`,
and `Load` of the base class `HingeJoint<ODEJoint>`. -/
structure OdeExternals (W : Type) where
  dParamFMax : Int
  dParamVel : Int
  dJointGetHingeAnchor : W → Nat → Vector3
  dJointSetHingeAnchor : W → Nat → ℚ → ℚ → ℚ → W
  dJointGetHingeAxis : W → Nat → Vector3
  dJointSetHingeAxis : W → Nat → ℚ → ℚ → ℚ → W
  dJointGetHingeAngle : W → Nat → ℚ
  dJointGetHingeAngleRate : W → Nat → ℚ
  dJointAddHingeTorque : W → Nat → ℚ → W
  dJointGetHingeParam : W → Nat → Int → ℚ
  dJointSetHingeParam : W → Nat → Int → ℚ → W
  /-- `HingeJoint<ODEJoint>::Load(node)`: the joint afterwards, or the error. -/
  HingeJointLoad : Option XMLConfigNode → ODEHingeJoint W → Except ForeignError (ODEHingeJoint W)

namespace ODEHingeJoint

variable {W : Type}

/-- `this->physics->LockMutex()`. -/
def LockMutex (j : ODEHingeJoint W) : ODEHingeJoint W :=
  { j with trace := j.trace ++ [.LockMutex] }

/-- `this->physics->UnlockMutex()`. -/
def UnlockMutex (j : ODEHingeJoint W) : ODEHingeJoint W :=
  { j with trace := j.trace ++ [.UnlockMutex] }

/-- A call of the ODE library on `this->jointId` that leaves the solver in the
state given. -/
def odeCall (c : OdeCall) (solver : W) (j : ODEHingeJoint W) : ODEHingeJoint W :=
  { j with solver := solver, trace := j.trace ++ [.call j.jointId c] }

/-- `ODEHingeJoint::GetAnchor`. -/
def GetAnchor (x : OdeExternals W) (_index : Int) (j : ODEHingeJoint W) :
    Vector3 × ODEHingeJoint W :=
  let j1 := j.LockMutex
  let result := x.dJointGetHingeAnchor j1.solver j1.jointId
  let j2 := j1.odeCall .dJointGetHingeAnchor j1.solver
  (⟨result.x, result.y, result.z⟩, j2.UnlockMutex)

/-- `ODEHingeJoint::SetAnchor`. -/
def SetAnchor (x : OdeExternals W) (_index : Int) (anchor : Vector3) (j : ODEHingeJoint W) :
    ODEHingeJoint W :=
  let j1 := j.LockMutex
  let j2 := j1.odeCall (.dJointSetHingeAnchor anchor.x anchor.y anchor.z)
    (x.dJointSetHingeAnchor j1.solver j1.jointId anchor.x anchor.y anchor.z)
  j2.UnlockMutex

/-- `ODEHingeJoint::GetAxis`. -/
def GetAxis (x : OdeExternals W) (_index : Int) (j : ODEHingeJoint W) :
    Vector3 × ODEHingeJoint W :=
  let j1 := j.LockMutex
  let result := x.dJointGetHingeAxis j1.solver j1.jointId
  let j2 := j1.odeCall .dJointGetHingeAxis j1.solver
  (⟨result.x, result.y, result.z⟩, j2.UnlockMutex)

/-- `ODEHingeJoint::SetAxis`. -/
def SetAxis (x : OdeExternals W) (_index : Int) (axis : Vector3) (j : ODEHingeJoint W) :
    ODEHingeJoint W :=
  let j1 := j.LockMutex
  let j2 := j1.odeCall (.dJointSetHingeAxis axis.x axis.y axis.z)
    (x.dJointSetHingeAxis j1.solver j1.jointId axis.x axis.y axis.z)
  j2.UnlockMutex

/-- `ODEHingeJoint::GetAngle`. -/
def GetAngle (x : OdeExternals W) (_index : Int) (j : ODEHingeJoint W) : ℚ × ODEHingeJoint W :=
  let j1 := j.LockMutex
  let result := x.dJointGetHingeAngle j1.solver j1.jointId
  let j2 := j1.odeCall .dJointGetHingeAngle j1.solver
  (result, j2.UnlockMutex)

/-- `ODEHingeJoint::GetVelocity`. -/
def GetVelocity (x : OdeExternals W) (_index : Int) (j : ODEHingeJoint W) :
    ℚ × ODEHingeJoint W :=
  let j1 := j.LockMutex
  let result := x.dJointGetHingeAngleRate j1.solver j1.jointId
  let j2 := j1.odeCall .dJointGetHingeAngleRate j1.solver
  (result, j2.UnlockMutex)

/-- `ODEHingeJoint::GetParam`. -/
def GetParam (x : OdeExternals W) (parameter : Int) (j : ODEHingeJoint W) :
    ℚ × ODEHingeJoint W :=
  let j1 := j.LockMutex
  let result := x.dJointGetHingeParam j1.solver j1.jointId parameter
  let j2 := j1.odeCall (.dJointGetHingeParam parameter) j1.solver
  (result, j2.UnlockMutex)

/-- `ODEHingeJoint::SetParam`. -/
def SetParam (x : OdeExternals W) (parameter : Int) (value : ℚ) (j : ODEHingeJoint W) :
    ODEHingeJoint W :=
  let j1 := j.LockMutex
  let j2 := j1.odeCall (.dJointSetHingeParam parameter value)
    (x.dJointSetHingeParam j1.solver j1.jointId parameter value)
  j2.UnlockMutex

/-- `ODEHingeJoint::SetVelocity`. -/
def SetVelocity (x : OdeExternals W) (_index : Int) (angle : ℚ) (j : ODEHingeJoint W) :
    ODEHingeJoint W :=
  j.SetParam x x.dParamVel angle

/-- `ODEHingeJoint::SetMaxForce`. -/
def SetMaxForce (x : OdeExternals W) (_index : Int) (t : ℚ) (j : ODEHingeJoint W) :
    ODEHingeJoint W :=
  j.SetParam x x.dParamFMax t

/-- `ODEHingeJoint::GetMaxForce`. -/
def GetMaxForce (x : OdeExternals W) (_index : Int) (j : ODEHingeJoint W) :
    ℚ × ODEHingeJoint W :=
  j.GetParam x x.dParamFMax

/-- `ODEHingeJoint::SetForce`: the torque is handed to `dJointAddHingeTorque`. -/
def SetForce (x : OdeExternals W) (_index : Int) (torque : ℚ) (j : ODEHingeJoint W) :
    ODEHingeJoint W :=
  let j1 := j.LockMutex
  let j2 := j1.odeCall (.dJointAddHingeTorque torque)
    (x.dJointAddHingeTorque j1.solver j1.jointId torque)
  j2.UnlockMutex

/-- `ODEHingeJoint::Load`. -/
def Load (x : OdeExternals W) (node : Option XMLConfigNode) (j : ODEHingeJoint W) :
    Except ForeignError (ODEHingeJoint W) :=
  match x.HingeJointLoad node j with
  | .error e => .error e
  | .ok j1 => .ok ((j1.SetParam x x.dParamFMax 0).SetForce x 0 0)

end ODEHingeJoint

namespace Sample

/-- A sample solver state for one hinge joint: the parameters set so far, the
latest first, and the torque added so far. -/
structure Solver where
  params : List (Int × ℚ)
  torque : ℚ

/-- The value set last for a parameter, 0 when it was never set. -/
def Solver.param (parameter : Int) : List (Int × ℚ) → ℚ
  | [] => 0
  | (p, v) :: rest => if p = parameter then v else Solver.param parameter rest

/-- A sample ODE library: parameters are stored and read back, a torque is
added to the torque added before, and the base class loads nothing. -/
def ode : OdeExternals Solver :=
  { dParamFMax := 3
    dParamVel := 2
    dJointGetHingeAnchor := fun _ _ => ⟨0, 0, 0⟩
    dJointSetHingeAnchor := fun w _ _ _ _ => w
    dJointGetHingeAxis := fun _ _ => ⟨0, 1, 0⟩
    dJointSetHingeAxis := fun w _ _ _ _ => w
    dJointGetHingeAngle := fun _ _ => 0
    dJointGetHingeAngleRate := fun _ _ => 0
    dJointAddHingeTorque := fun w _ t => { w with torque := w.torque + t }
    dJointGetHingeParam := fun w _ p => Solver.param p w.params
    dJointSetHingeParam := fun w _ p v => { w with params := (p, v) :: w.params }
    HingeJointLoad := fun _ j => .ok j }

/-- The sample model after `Load` from the sample node with the attributes
`canonicalBody`, `selfID` and `team` added. -/
def numbered : St :=
  (Model.Load Sample.ext
    (.mk "physical" "model"
      [("name", "m"), ("canonicalBody", "b"), ("selfID", "0"), ("team", "blue")]
      [leaf "body" "box" "b", leaf "body" "box" "a", leaf "joint" "hinge" "j",
       leaf "controller" "drive" "c"])
    false Sample.st).st

/-- A sample node that carries every parameter `Model::Save` writes for the
model `numbered`, and its bodies, joint and controller. -/
def rewritten : XMLConfigNode :=
  .mk "physical" "model"
    [("name", "m"), ("xyz", "0 0 0"), ("rpy", "0 0 0"), ("enableGravity", "true"),
     ("enableFriction", "true"), ("collide", "all"), ("static", "false")]
    [leaf "body" "box" "a", leaf "body" "box" "b", leaf "joint" "hinge" "j",
     leaf "controller" "drive" "c"]

/-- A sample model of type "empty" after `Load`, attached to the static
sample model. -/
def attached : St :=
  (Model.Attach none (some Sample.still.self)
    (Model.Load Sample.ext (.mk "empty" "model" [("name", "e")] []) false Sample.st).st).1.st

end Sample

/-! ## The lock discipline of a trace -/

/-- Whether a trace keeps the lock discipline when read from left to right,
`held` being `none` while the lock is free and otherwise the number of solver
calls made since the lock was taken: `LockMutex` only while the lock is free, a
solver call only under the lock and as the first call since it was taken,
`UnlockMutex` only after exactly one solver call, and the lock free at the
end. -/
def disciplinedFrom : Option Nat → List OdeEvent → Bool
  | held, [] => held.isNone
  | none, .LockMutex :: rest => disciplinedFrom (some 0) rest
  | some _, .LockMutex :: _ => false
  | some 0, .call _ _ :: rest => disciplinedFrom (some 1) rest
  | _, .call _ _ :: _ => false
  | some 1, .UnlockMutex :: rest => disciplinedFrom none rest
  | _, .UnlockMutex :: _ => false

/-- A trace that keeps the lock discipline, the lock being free at its start. -/
def disciplined (trace : List OdeEvent) : Bool := disciplinedFrom none trace

namespace ODEHingeJoint

/-- The public member functions of `ODEHingeJoint` other than `Load`, as
functions of the joint, results dropped, each with the call of the ODE library
that stands in its body: `GetAnchor`, `SetAnchor`, `GetAxis`, `SetAxis`,
`GetAngle`, `GetVelocity`, `SetVelocity`, `SetMaxForce`, `GetMaxForce`,
`SetForce`, `GetParam` and `SetParam`, on the arguments given. -/
def operations {W : Type} (x : OdeExternals W) (index : Int) (v : Vector3) (t : ℚ)
    (parameter : Int) : List ((ODEHingeJoint W → ODEHingeJoint W) × OdeCall) :=
  [(fun j => (j.GetAnchor x index).2, .dJointGetHingeAnchor),
   (fun j => j.SetAnchor x index v, .dJointSetHingeAnchor v.x v.y v.z),
   (fun j => (j.GetAxis x index).2, .dJointGetHingeAxis),
   (fun j => j.SetAxis x index v, .dJointSetHingeAxis v.x v.y v.z),
   (fun j => (j.GetAngle x index).2, .dJointGetHingeAngle),
   (fun j => (j.GetVelocity x index).2, .dJointGetHingeAngleRate),
   (fun j => j.SetVelocity x index t, .dJointSetHingeParam x.dParamVel t),
   (fun j => j.SetMaxForce x index t, .dJointSetHingeParam x.dParamFMax t),
   (fun j => (j.GetMaxForce x index).2, .dJointGetHingeParam x.dParamFMax),
   (fun j => j.SetForce x index t, .dJointAddHingeTorque t),
   (fun j => (j.GetParam x parameter).2, .dJointGetHingeParam parameter),
   (fun j => j.SetParam x parameter t, .dJointSetHingeParam parameter t)]

end ODEHingeJoint

namespace Sample

/-- A sample parent model after `Load`: the bodies "canonical" and "a", the
canonical body being "a". -/
def aliased : St :=
  (Model.Load Sample.ext
    (.mk "physical" "model" [("name", "p"), ("canonicalBody", "a")]
      [leaf "body" "box" "canonical", leaf "body" "box" "a"])
    false Sample.st).st

/-- The sample model after `Load` with a `canonicalBody` attribute that names
none of its bodies "a" and "b". -/
def misnamed : St := (Model.Load Sample.ext (Sample.robot (some "zzz")) false Sample.st).st

end Sample

namespace Sample

/-- The sample model after `Load` with `canonicalBody="A"`, a name that none of
its bodies "a" and "b" has and that sorts before them, followed by a
`GetCanonicalBody()` on it. -/
def dangling : St :=
  (Model.Load Sample.ext (Sample.robot (some "A")) false Sample.st).st.setSelf
    (Model.Load Sample.ext (Sample.robot (some "A")) false Sample.st).st.self.GetCanonicalBody.1

/-- A sample hinge joint on which `SetForce(0, 9)` was called. -/
def driven : ODEHingeJoint Solver :=
  (⟨7, ⟨[], 0⟩, []⟩ : ODEHingeJoint Solver).SetForce Sample.ode 0 9

end Sample

/-! ## The key order and `std::map` -/

theorem lessChars_irrefl (a : List Char) : lessChars a a = false := by
  induction a with
  | nil => rfl
  | cons x xs ih => simp [lessChars, ih]

theorem lessChars_asymm : ∀ (a b : List Char), lessChars a b = true → lessChars b a = false
  | [], [], h => by simp [lessChars] at h
  | [], _ :: _, _ => by simp [lessChars]
  | _ :: _, [], h => by simp [lessChars] at h
  | x :: xs, y :: ys, h => by
    simp only [lessChars] at h ⊢
    by_cases h1 : x.toNat < y.toNat
    · have h2 : ¬ y.toNat < x.toNat := by omega
      simp [h1, h2]
    · by_cases h2 : y.toNat < x.toNat
      · simp [h1, h2] at h
      · simp only [h1, h2, if_false] at h ⊢
        exact lessChars_asymm xs ys h

theorem lessChars_total : ∀ (a b : List Char),
    lessChars a b = false → lessChars b a = false → a = b
  | [], [], _, _ => rfl
  | [], _ :: _, h, _ => by simp [lessChars] at h
  | _ :: _, [], _, h => by simp [lessChars] at h
  | x :: xs, y :: ys, h, h' => by
    simp only [lessChars] at h h'
    by_cases h1 : x.toNat < y.toNat
    · simp [h1] at h
    · by_cases h2 : y.toNat < x.toNat
      · simp [h2] at h'
      · simp only [h1, h2, if_false] at h h'
        have hxy : x = y := by
          have : x.toNat = y.toNat := by omega
          rw [← Char.ofNat_toNat x, ← Char.ofNat_toNat y, this]
        rw [hxy, lessChars_total xs ys h h']

theorem lessChars_trans : ∀ (a b c : List Char),
    lessChars a b = true → lessChars b c = true → lessChars a c = true
  | [], [], _, h, _ => by simp [lessChars] at h
  | [], _ :: _, [], _, h => by simp [lessChars] at h
  | [], _ :: _, _ :: _, _, _ => by simp [lessChars]
  | _ :: _, [], _, h, _ => by simp [lessChars] at h
  | _ :: _, _ :: _, [], _, h => by simp [lessChars] at h
  | x :: xs, y :: ys, z :: zs, h, h' => by
    simp only [lessChars] at h h' ⊢
    by_cases h1 : x.toNat < y.toNat
    · by_cases h2 : y.toNat < z.toNat
      · have : x.toNat < z.toNat := by omega
        simp [this]
      · by_cases h3 : z.toNat < y.toNat
        · simp [h2, h3] at h'
        · have : x.toNat < z.toNat := by omega
          simp [this]
    · by_cases h1' : y.toNat < x.toNat
      · simp [h1, h1'] at h
      · simp only [h1, h1', if_false] at h
        by_cases h2 : y.toNat < z.toNat
        · have : x.toNat < z.toNat := by omega
          simp [this]
        · by_cases h3 : z.toNat < y.toNat
          · simp [h2, h3] at h'
          · simp only [h2, h3, if_false] at h'
            have e1 : ¬ x.toNat < z.toNat := by omega
            have e2 : ¬ z.toNat < x.toNat := by omega
            simp only [e1, e2, if_false]
            exact lessChars_trans xs ys zs h h'

theorem strLess_irrefl (a : String) : strLess a a = false := lessChars_irrefl a.data

theorem strLess_asymm {a b : String} (h : strLess a b = true) : strLess b a = false :=
  lessChars_asymm a.data b.data h

theorem strLess_total {a b : String} (h : strLess a b = false) (h' : strLess b a = false) :
    a = b :=
  String.ext (lessChars_total a.data b.data h h')

theorem strLess_trans {a b c : String} (h : strLess a b = true) (h' : strLess b c = true) :
    strLess a c = true :=
  lessChars_trans a.data b.data c.data h h'

namespace StdMap

theorem find_assign_self {β : Type} (k : String) (v : β) (m : StdMap β) :
    find k (assign k v m) = some v := by
  induction m with
  | nil => simp [assign, find]
  | cons e rest ih =>
    obtain ⟨k1, v1⟩ := e
    simp only [assign]
    by_cases h1 : strLess k k1 = true
    · simp [h1, find]
    · by_cases h2 : strLess k1 k = true
      · have hne : k1 ≠ k := by
          intro h; rw [h, strLess_irrefl] at h2; exact absurd h2 (by simp)
        simp [h1, h2, find, hne, ih]
      · simp [h1, h2, find]

theorem find_assign_ne {β : Type} (k k2 : String) (v : β) (m : StdMap β) (hne : k2 ≠ k) :
    find k2 (assign k v m) = find k2 m := by
  induction m with
  | nil => simp [assign, find, Ne.symm hne]
  | cons e rest ih =>
    obtain ⟨k1, v1⟩ := e
    simp only [assign]
    by_cases h1 : strLess k k1 = true
    · simp [h1, find, Ne.symm hne]
    · by_cases h2 : strLess k1 k = true
      · simp [h1, h2, find, ih]
      · have hk : k = k1 := strLess_total (by simpa using h1) (by simpa using h2)
        subst hk
        simp [h1, find, Ne.symm hne]

theorem assign_assign {β : Type} (k : String) (v w : β) (m : StdMap β) :
    assign k v (assign k w m) = assign k v m := by
  induction m with
  | nil => simp [assign, strLess_irrefl]
  | cons e rest ih =>
    obtain ⟨k1, v1⟩ := e
    simp only [assign]
    by_cases h1 : strLess k k1 = true
    · simp [h1, assign, strLess_irrefl]
    · by_cases h2 : strLess k1 k = true
      · simp [h1, h2, assign, ih]
      · simp [h1, h2, assign, strLess_irrefl]

theorem assign_ne_nil {β : Type} (k : String) (v : β) (m : StdMap β) : assign k v m ≠ [] := by
  cases m with
  | nil => simp [assign]
  | cons e rest =>
    obtain ⟨k1, v1⟩ := e
    simp only [assign]
    split
    · simp
    · split <;> simp

end StdMap

/-! ## Sequencing -/

namespace St

@[simp] theorem record_self (s : St) (e : Event) : (s.record e).self = s.self := rfl

@[simp] theorem record_log (s : St) (e : Event) :
    (s.record e).world.log = s.world.log ++ [e] := rfl

@[simp] theorem record_models (s : St) (e : Event) :
    (s.record e).world.models = s.world.models := rfl

@[simp] theorem setSelf_self (s : St) (m : Model) : (s.setSelf m).self = m := rfl

@[simp] theorem setSelf_world (s : St) (m : Model) : (s.setSelf m).world = s.world := rfl

end St

namespace Outcome

@[simp] theorem ok_st (s : St) : (ok s).st = s := rfl

@[simp] theorem ok_err (s : St) : (ok s).err = none := rfl

@[simp] theorem throw_st (e : GazeboError) (s : St) : (throw e s).st = s := rfl

@[simp] theorem throw_err (e : GazeboError) (s : St) :
    (throw e s).err = some (.thrown e) := rfl

theorem andThen_of_ok {o : Outcome} {f : St → Outcome} (h : o.err = none) :
    o.andThen f = f o.st := by
  simp [andThen, h]

theorem andThen_of_err {o : Outcome} {f : St → Outcome} {e : Failure} (h : o.err = some e) :
    o.andThen f = o := by
  simp [andThen, h]

theorem andThen_err_none {o : Outcome} {f : St → Outcome} (h : (o.andThen f).err = none) :
    o.err = none ∧ o.andThen f = f o.st := by
  cases ho : o.err with
  | none => exact ⟨rfl, andThen_of_ok ho⟩
  | some e => rw [andThen_of_err ho, ho] at h; cases h

/-- A relation between the states before and after that a statement and the
statements after it keep is kept by their sequence. -/
theorem andThen_keeps {R : St → St → Prop} (htrans : ∀ a b c, R a b → R b c → R a c)
    {o : Outcome} {g : Step} {s : St} (ho : R s o.st) (hg : ∀ s1, R s1 (g s1).st) :
    R s (o.andThen g).st := by
  cases h : o.err with
  | none => rw [andThen_of_ok h]; exact htrans _ _ _ ho (hg _)
  | some e => rw [andThen_of_err h]; exact ho

/-- A property of the errors two statements raise holds of the errors their
sequence raises. -/
theorem andThen_err {P : Failure → Prop} {o : Outcome} {f : St → Outcome}
    (ho : ∀ e, o.err = some e → P e) (hf : ∀ e, (f o.st).err = some e → P e) :
    ∀ e, (o.andThen f).err = some e → P e := by
  intro e he
  cases h : o.err with
  | none => rw [andThen_of_ok h] at he; exact hf e he
  | some e' => rw [andThen_of_err h] at he; exact ho e he

end Outcome

theorem forEachNode_keeps {R : St → St → Prop} (hrefl : ∀ a, R a a)
    (htrans : ∀ a b c, R a b → R b c → R a c)
    {body : XMLConfigNode → Step} (hbody : ∀ c s, R s (body c s).st) :
    ∀ (nodes : List XMLConfigNode) (s : St), R s (forEachNode body nodes s).st
  | [], s => hrefl s
  | c :: rest, s => by
    simp only [forEachNode]
    exact Outcome.andThen_keeps htrans (hbody c s) (forEachNode_keeps hrefl htrans hbody rest)

theorem forEachNode_err {P : Failure → Prop} {body : XMLConfigNode → Step}
    (hbody : ∀ c s e, (body c s).err = some e → P e) :
    ∀ (nodes : List XMLConfigNode) (s : St) (e : Failure),
      (forEachNode body nodes s).err = some e → P e
  | [], s, e, h => by simp [forEachNode] at h
  | c :: rest, s, e, h => by
    simp only [forEachNode] at h
    exact Outcome.andThen_err (hbody c s) (fun e he => forEachNode_err hbody rest _ e he) e h

/-- A loop whose body never fails is the fold of the body over the nodes. -/
theorem forEachNode_of_ok {body : XMLConfigNode → Step}
    (hbody : ∀ c s, (body c s).err = none) :
    ∀ (nodes : List XMLConfigNode) (s : St),
      forEachNode body nodes s = ⟨nodes.foldl (fun st c => (body c st).st) s, none⟩
  | [], s => rfl
  | c :: rest, s => by
    simp only [forEachNode, List.foldl_cons]
    rw [Outcome.andThen_of_ok (hbody c s)]
    exact forEachNode_of_ok hbody rest _

namespace Model

/-! ## LoadJoint -/

theorem jointTypeOfTag_eq_none {tag : String}
    (h : tag ∉ ["hinge", "ball", "slider", "hinge2", "universal"]) :
    jointTypeOfTag tag = none := by
  simp only [List.mem_cons, List.mem_singleton, List.not_mem_nil, or_false, not_or] at h
  simp [jointTypeOfTag, h]

theorem jointTypeOfTag_of_mem {tag : String} {t : JointType}
    (h : (tag, t) ∈ [("hinge", JointType.HINGE), ("ball", .BALL), ("slider", .SLIDER),
      ("hinge2", .HINGE2), ("universal", .UNIVERSAL)]) :
    jointTypeOfTag tag = some t := by
  simp only [List.mem_cons, Prod.mk.injEq, List.mem_singleton, List.not_mem_nil, or_false] at h
  rcases h with h | h | h | h | h <;> obtain ⟨h1, h2⟩ := h <;> subst h1 <;> subst h2 <;> decide

/-- What `LoadJoint` does to the joints: it appends the loaded joint, whose
name was not registered, on success, and leaves them alone when it raises. -/
theorem LoadJoint_joints (ext : Externals) (node : Option XMLConfigNode) (s : St) :
    ((LoadJoint ext node s).err = none ∧
      ∃ j, (LoadJoint ext node s).st.self.joints = s.self.joints ++ [j] ∧
        GetJointByName s.self j.name = none) ∨
    ((∃ e, (LoadJoint ext node s).err = some (.thrown e)) ∧
      (LoadJoint ext node s).st.self.joints = s.self.joints) := by
  unfold LoadJoint
  repeat' (first | split | dsimp only)
  · right; simp
  · right; simp
  · right; simp [CreateJoint]
  · right; simp [CreateJoint]
  · rename_i j _ h
    left
    refine ⟨rfl, j, ?_, ?_⟩
    · simp [CreateJoint]
    · simpa [CreateJoint, GetJointByName] using h

theorem GetJointByName_eq_none {m : gazebo.Model} {name : String} :
    GetJointByName m name = none ↔ name ∉ m.joints.map (fun j => j.name) := by
  simp [GetJointByName, List.find?_eq_none]

theorem LoadJoint_nodup (ext : Externals) (node : Option XMLConfigNode) (s : St)
    (h : (s.self.joints.map (fun j => j.name)).Nodup) :
    ((LoadJoint ext node s).st.self.joints.map (fun j => j.name)).Nodup := by
  rcases LoadJoint_joints ext node s with ⟨_, j, hj, hn⟩ | ⟨_, hj⟩
  · rw [hj, List.map_append, List.map_singleton]
    rw [GetJointByName_eq_none] at hn
    exact List.Nodup.append h (List.nodup_singleton _) (by simpa using hn)
  · rw [hj]; exact h

/-- C6: a joint node whose tag is not hinge, ball, slider, hinge2 or universal
makes `LoadJoint` raise the unknown-joint error in the very state it was called
in (nothing was asked of the physics engine, the joints are as before); for
each of the five tags the first thing `LoadJoint` does is to ask the engine
for a joint of the matching type, which it then loads from the node. -/
theorem LoadJoint_by_tag (ext : Externals) (node : XMLConfigNode) (s : St) :
    (node.GetName ∉ ["hinge", "ball", "slider", "hinge2", "universal"] →
      LoadJoint ext (some node) s
        = ⟨s, some (.thrown (gzthrow 777 ("Uknown joint[" ++ node.GetName ++ "]\n")))⟩) ∧
    (∀ t, (node.GetName, t) ∈ [("hinge", JointType.HINGE), ("ball", .BALL),
        ("slider", .SLIDER), ("hinge2", .HINGE2), ("universal", .UNIVERSAL)] →
      (LoadJoint ext (some node) s).st.world.log
        = s.world.log ++ [.createJoint t, .jointLoad node]) := by
  constructor
  · intro h
    simp [LoadJoint, jointTypeOfTag_eq_none h, Outcome.throw]
  · intro t ht
    simp only [LoadJoint, jointTypeOfTag_of_mem ht]
    repeat' (first | split | dsimp only)
    all_goals simp [CreateJoint]

theorem LoadJoint_by_tag_witness :
    LoadJoint Sample.ext (some (Sample.leaf "joint" "wheel" "j")) Sample.st
        = ⟨Sample.st, some (.thrown (gzthrow 777 "Uknown joint[wheel]\n"))⟩ ∧
    (LoadJoint Sample.ext (some (Sample.leaf "joint" "hinge2" "j")) Sample.st).st.world.log
        = [.createJoint .HINGE2, .jointLoad (Sample.leaf "joint" "hinge2" "j")] :=
  ⟨(LoadJoint_by_tag Sample.ext (Sample.leaf "joint" "wheel" "j") Sample.st).1 (by decide),
   (LoadJoint_by_tag Sample.ext (Sample.leaf "joint" "hinge2" "j") Sample.st).2 .HINGE2
     (by decide)⟩

end Model

namespace Model

/-- C7: when the joint loaded from a node takes the name of a joint the model
has registered, `LoadJoint` raises the duplicate-joint-name error and the
joints are exactly as before, the earlier joint at its index; and whatever
sequence of `LoadJoint` calls is made, on nodes or on NULL, failed or not,
pairwise distinct names of the registered joints stay pairwise distinct. -/
theorem LoadJoint_duplicate_name (ext : Externals) :
    (∀ (node : XMLConfigNode) (s : St) (t : JointType) (j : Joint),
      jointTypeOfTag node.GetName = some t →
      ext.JointLoad s.self ⟨t, "", some s.self.GetName⟩ node = .ok j →
      (∃ j0 ∈ s.self.joints, j0.name = j.name) →
      (LoadJoint ext (some node) s).err
          = some (.thrown (gzthrow 788 "can't have two joint with the same name")) ∧
        (LoadJoint ext (some node) s).st.self.joints = s.self.joints) ∧
    (∀ (calls : List (Option XMLConfigNode)) (s : St),
      (s.self.joints.map (fun j => j.name)).Nodup →
      ((calls.foldl (fun st n => (LoadJoint ext n st).st) s).self.joints.map
        (fun j => j.name)).Nodup) := by
  constructor
  · intro node s t j ht hload hdup
    have hfind : (GetJointByName s.self j.name).isSome = true := by
      obtain ⟨j0, hj0, hname⟩ := hdup
      cases h : GetJointByName s.self j.name with
      | some _ => rfl
      | none =>
        rw [GetJointByName_eq_none] at h
        exact absurd (List.mem_map.mpr ⟨j0, hj0, hname⟩) h
    simp only [GetJointByName] at hfind
    simp [LoadJoint, ht, CreateJoint, hload, GetJointByName, hfind]
  · intro calls
    induction calls with
    | nil => intro s h; exact h
    | cons n rest ih =>
      intro s h
      simp only [List.foldl_cons]
      exact ih _ (LoadJoint_nodup ext n s h)

theorem LoadJoint_duplicate_name_witness :
    ((LoadJoint Sample.ext (some (Sample.leaf "joint" "ball" "j"))
        (LoadJoint Sample.ext (some (Sample.leaf "joint" "hinge" "j")) Sample.st).st).err
          = some (.thrown (gzthrow 788 "can't have two joint with the same name")) ∧
      (LoadJoint Sample.ext (some (Sample.leaf "joint" "ball" "j"))
        (LoadJoint Sample.ext (some (Sample.leaf "joint" "hinge" "j")) Sample.st).st).st.self.joints
          = [⟨.HINGE, "j", some ""⟩]) ∧
    (([some (Sample.leaf "joint" "hinge" "j"), none, some (Sample.leaf "joint" "ball" "j"),
        some (Sample.leaf "joint" "ball" "k")].foldl
        (fun st n => (LoadJoint Sample.ext n st).st) Sample.st).self.joints.map
        (fun j => j.name)).Nodup :=
  ⟨(LoadJoint_duplicate_name Sample.ext).1 (Sample.leaf "joint" "ball" "j")
      (LoadJoint Sample.ext (some (Sample.leaf "joint" "hinge" "j")) Sample.st).st .BALL
      ⟨.BALL, "j", some ""⟩ (by decide) (by rfl) (by decide),
   (LoadJoint_duplicate_name Sample.ext).2 _ Sample.st (by decide)⟩

/-! ## LoadPhysical -/

theorem LoadJoint_caught_err (ext : Externals) (node : Option XMLConfigNode) (s : St) :
    ((LoadJoint ext node s).catchGazeboError).err = none := by
  rcases LoadJoint_joints ext node s with ⟨h, _⟩ | ⟨⟨e, h⟩, _⟩
  · simp [Outcome.catchGazeboError, h]
  · simp [Outcome.catchGazeboError, h]

theorem LoadJoint_caught_st (ext : Externals) (node : Option XMLConfigNode) (s : St) :
    ((LoadJoint ext node s).catchGazeboError).st = (LoadJoint ext node s).st := by
  unfold Outcome.catchGazeboError
  split <;> rfl

/-- Once the body nodes are loaded, `LoadPhysical` is the fold of `LoadJoint`
over the joint nodes and returns normally. -/
theorem LoadPhysical_eq_fold (ext : Externals) (node : XMLConfigNode) (s : St)
    (hb : (forEachNode (fun c => LoadBody ext (some c))
        (XMLConfigNode.bodyChildNodes node.children) s).err = none) :
    LoadPhysical ext node s
      = ⟨(node.childrenByNSPrefix "joint").foldl
          (fun st c => (LoadJoint ext (some c) st).st)
          (forEachNode (fun c => LoadBody ext (some c))
            (XMLConfigNode.bodyChildNodes node.children) s).st, none⟩ := by
  unfold LoadPhysical
  rw [Outcome.andThen_of_ok hb,
    forEachNode_of_ok (fun c s1 => LoadJoint_caught_err ext (some c) s1)]
  simp only [LoadJoint_caught_st]

/-- C8: once the bodies of a physical model are loaded, `LoadPhysical` returns
normally whatever the joints do: it is the run of `LoadJoint` on each joint
child once, in document order, each call continuing from the state the call
before left, raised or not; and a call that returns appends its joint to the
joints while a call that raises leaves the joints as they were, so that the
joints afterwards are those loaded with success, in document order. -/
theorem LoadPhysical_joint_errors_caught (ext : Externals) (node : XMLConfigNode) (s : St) :
    ((forEachNode (fun c => LoadBody ext (some c))
        (XMLConfigNode.bodyChildNodes node.children) s).err = none →
      LoadPhysical ext node s
        = ⟨(node.childrenByNSPrefix "joint").foldl
            (fun st c => (LoadJoint ext (some c) st).st)
            (forEachNode (fun c => LoadBody ext (some c))
              (XMLConfigNode.bodyChildNodes node.children) s).st, none⟩) ∧
    (∀ (c : XMLConfigNode) (st : St),
      ((LoadJoint ext (some c) st).err = none →
        ∃ j, (LoadJoint ext (some c) st).st.self.joints = st.self.joints ++ [j]) ∧
      ((LoadJoint ext (some c) st).err ≠ none →
        (LoadJoint ext (some c) st).st.self.joints = st.self.joints)) := by
  constructor
  · exact LoadPhysical_eq_fold ext node s
  · intro c st
    rcases LoadJoint_joints ext (some c) st with ⟨h, j, hj, _⟩ | ⟨⟨e, h⟩, hj⟩
    · exact ⟨fun _ => ⟨j, hj⟩, fun hne => absurd h hne⟩
    · exact ⟨fun hn => absurd hn (by rw [h]; simp), fun _ => hj⟩

theorem LoadPhysical_joint_errors_caught_witness :
    LoadPhysical Sample.ext
        (.mk "physical" "model" []
          [Sample.leaf "body" "box" "b", Sample.leaf "joint" "hinge" "j1",
           Sample.leaf "joint" "wheel" "j2", Sample.leaf "joint" "ball" "j1",
           Sample.leaf "joint" "slider" "j3"]) Sample.st
      = ⟨[Sample.leaf "joint" "hinge" "j1", Sample.leaf "joint" "wheel" "j2",
          Sample.leaf "joint" "ball" "j1", Sample.leaf "joint" "slider" "j3"].foldl
            (fun st c => (LoadJoint Sample.ext (some c) st).st)
            (forEachNode (fun c => LoadBody Sample.ext (some c))
              [Sample.leaf "body" "box" "b"] Sample.st).st, none⟩ ∧
    (LoadPhysical Sample.ext
        (.mk "physical" "model" []
          [Sample.leaf "body" "box" "b", Sample.leaf "joint" "hinge" "j1",
           Sample.leaf "joint" "wheel" "j2", Sample.leaf "joint" "ball" "j1",
           Sample.leaf "joint" "slider" "j3"]) Sample.st).st.self.joints
      = [⟨.HINGE, "j1", some ""⟩, ⟨.SLIDER, "j3", some ""⟩] :=
  ⟨(LoadPhysical_joint_errors_caught Sample.ext
      (.mk "physical" "model" []
        [Sample.leaf "body" "box" "b", Sample.leaf "joint" "hinge" "j1",
         Sample.leaf "joint" "wheel" "j2", Sample.leaf "joint" "ball" "j1",
         Sample.leaf "joint" "slider" "j3"]) Sample.st).1 (by decide), by decide⟩

end Model

namespace Model

/-! ## LoadController -/

/-- C10: for a controller node with a name, `LoadController` returns normally
in every case.  When the factory returns no controller, or the `Load` of the
created controller raises a `GazeboError`, the model is left as it was, so the
controllers mapping keeps every entry, one under that name included.  When the
`Load` succeeds, the mapping afterwards holds the loaded controller under that
name and every other key as before. -/
theorem LoadController_registers (ext : Externals) (node : XMLConfigNode) (name : String)
    (s : St) (hname : XMLConfigNode.lookup "name" node.attrs = some name) :
    (LoadController ext (some node) s).err = none ∧
    (ext.NewController node.GetName s.self = none →
      (LoadController ext (some node) s).st.self = s.self) ∧
    (∀ c e, ext.NewController node.GetName s.self = some c →
      ext.ControllerLoad s.self c node = .error e →
      (LoadController ext (some node) s).st.self = s.self) ∧
    (∀ c loaded, ext.NewController node.GetName s.self = some c →
      ext.ControllerLoad s.self c node = .ok loaded →
      (LoadController ext (some node) s).st.self
          = { s.self with controllers := StdMap.assign name (some loaded) s.self.controllers } ∧
        StdMap.find name (LoadController ext (some node) s).st.self.controllers
          = some (some loaded) ∧
        ∀ k, k ≠ name →
          StdMap.find k (LoadController ext (some node) s).st.self.controllers
            = StdMap.find k s.self.controllers) := by
  have hget : node.GetString "name" "" true = .ok name := by
    simp [XMLConfigNode.GetString, hname]
  have hplug : ∃ p, node.GetString "plugin" "" false = .ok p := by
    unfold XMLConfigNode.GetString
    split <;> simp
  obtain ⟨p, hp⟩ := hplug
  refine ⟨?_, ?_, ?_, ?_⟩
  · simp only [LoadController, hget, hp]
    repeat' (first | split | dsimp only)
    all_goals simp
  · intro hnone
    simp only [LoadController, hget, hp]
    by_cases hpe : p ≠ "" <;> simp [hpe, hnone]
  · intro c e hc he
    simp only [LoadController, hget, hp]
    by_cases hpe : p ≠ "" <;> simp [hpe, hc, he]
  · intro c loaded hc hl
    have hself : (LoadController ext (some node) s).st.self
        = { s.self with controllers := StdMap.assign name (some loaded) s.self.controllers } := by
      simp only [LoadController, hget, hp]
      by_cases hpe : p ≠ "" <;> simp [hpe, hc, hl]
    refine ⟨hself, ?_, ?_⟩
    · rw [hself]; exact StdMap.find_assign_self _ _ _
    · intro k hk
      rw [hself]; exact StdMap.find_assign_ne _ _ _ _ hk

theorem LoadController_registers_witness :
    (LoadController Sample.ext (some (Sample.leaf "controller" "drive" "c")) Sample.st).err
      = none ∧
    (Sample.ext.NewController "drive" Sample.st.self = none →
      (LoadController Sample.ext (some (Sample.leaf "controller" "drive" "c"))
        Sample.st).st.self = Sample.st.self) ∧
    (∀ c e, Sample.ext.NewController "drive" Sample.st.self = some c →
      Sample.ext.ControllerLoad Sample.st.self c (Sample.leaf "controller" "drive" "c")
        = .error e →
      (LoadController Sample.ext (some (Sample.leaf "controller" "drive" "c"))
        Sample.st).st.self = Sample.st.self) ∧
    (∀ c loaded, Sample.ext.NewController "drive" Sample.st.self = some c →
      Sample.ext.ControllerLoad Sample.st.self c (Sample.leaf "controller" "drive" "c")
        = .ok loaded →
      (LoadController Sample.ext (some (Sample.leaf "controller" "drive" "c"))
          Sample.st).st.self
          = { Sample.st.self with
              controllers := StdMap.assign "c" (some loaded) Sample.st.self.controllers } ∧
        StdMap.find "c" (LoadController Sample.ext
            (some (Sample.leaf "controller" "drive" "c")) Sample.st).st.self.controllers
          = some (some loaded) ∧
        ∀ k, k ≠ "c" →
          StdMap.find k (LoadController Sample.ext
              (some (Sample.leaf "controller" "drive" "c")) Sample.st).st.self.controllers
            = StdMap.find k Sample.st.self.controllers) :=
  LoadController_registers Sample.ext (Sample.leaf "controller" "drive" "c") "c" Sample.st
    (by decide)

/-- C9: on a model node with two controller children, the first without the
required `name`, `Model::Load` raises the error of the missing name and the
second controller is not registered; without the first child the second one
is registered. -/
theorem Load_controller_without_name :
    (Load Sample.ext
        (.mk "empty" "model" [("name", "m")]
          [.mk "drive" "controller" [] [], Sample.leaf "controller" "drive" "c2"])
        false Sample.st).err
      = some (.thrown ⟨"XMLConfig.cc", 0, "missing required parameter[name]"⟩) ∧
    (Load Sample.ext
        (.mk "empty" "model" [("name", "m")]
          [.mk "drive" "controller" [] [], Sample.leaf "controller" "drive" "c2"])
        false Sample.st).st.self.controllers = [] ∧
    (Load Sample.ext
        (.mk "empty" "model" [("name", "m")] [Sample.leaf "controller" "drive" "c2"])
        false Sample.st).err = none ∧
    (Load Sample.ext
        (.mk "empty" "model" [("name", "m")] [Sample.leaf "controller" "drive" "c2"])
        false Sample.st).st.self.controllers = [("c2", some ⟨"drive", "c2"⟩)] := by
  decide

end Model

namespace Model

/-! ## Statements of `Load` that keep a relation -/

theorem loadParam_keeps {α : Type} {R : St → St → Prop}
    (htrans : ∀ a b c, R a b → R b c → R a c)
    {cast : String → α} {get : gazebo.Model → ParamT α}
    {set : gazebo.Model → ParamT α → gazebo.Model} {callback : α → Step}
    {node : XMLConfigNode}
    (hrec : ∀ s key, R s (s.record (.paramLoad key)))
    (hset : ∀ s p, R s (s.setSelf (set s.self p)))
    (hcb : ∀ v s, R s (callback v s).st) (s : St) :
    R s (loadParam cast get set callback node s).st := by
  unfold loadParam
  split
  · exact hrec s _
  · exact htrans _ _ _ (hrec s _) (htrans _ _ _ (hset (s.record _) _) (hcb _ _))

end Model

open Model

theorem Quiet.noCallback {R : St → St → Prop} (q : Quiet R) {α : Type} (v : α) (s : St) :
    R s (noCallback v s).st := q.refl s

theorem Quiet.loadParam {R : St → St → Prop} (q : Quiet R) {α : Type}
    {cast : String → α} {get : gazebo.Model → ParamT α}
    {set : gazebo.Model → ParamT α → gazebo.Model} {callback : α → Step}
    {node : XMLConfigNode}
    (hset : ∀ m p, (set m p).bodies = m.bodies ∧ (set m p).joints = m.joints ∧
      (set m p).controllers = m.controllers ∧ (set m p).nameP = m.nameP ∧
      (set m p).canonicalBodyNameP = m.canonicalBodyNameP)
    (hcb : ∀ v s, R s (callback v s).st) (s : St) :
    R s (Model.loadParam cast get set callback node s).st :=
  loadParam_keeps q.trans (fun s _ => q.record s _ rfl rfl)
    (fun s p => q.change s _ (hset _ p).1 (hset _ p).2.1 (hset _ p).2.2.1 (hset _ p).2.2.2.1
      (hset _ p).2.2.2.2) hcb s

theorem Quiet.static {R : St → St → Prop} (q : Quiet R) (ext : Externals)
    (node : XMLConfigNode) (s : St) : R s (Load.static ext node s).st :=
  q.loadParam (by intro m p; exact ⟨rfl, rfl, rfl, rfl, rfl⟩) q.noCallback s

theorem Quiet.otherParameters {R : St → St → Prop} (q : Quiet R) (ext : Externals)
    (node : XMLConfigNode) (s : St) : R s (Load.otherParameters ext node s).st := by
  have hpos : ∀ v s, R s (SetRelativePosition v s).st :=
    fun v s => q.change s _ rfl rfl rfl rfl rfl
  have hrot : ∀ v s, R s (SetRelativeRotation v s).st :=
    fun v s => q.change s _ rfl rfl rfl rfl rfl
  unfold Load.otherParameters
  refine Outcome.andThen_keeps q.trans
    (q.loadParam (by intro m p; exact ⟨rfl, rfl, rfl, rfl, rfl⟩) hpos s) (fun s => ?_)
  refine Outcome.andThen_keeps q.trans
    (q.loadParam (by intro m p; exact ⟨rfl, rfl, rfl, rfl, rfl⟩) hrot s) (fun s => ?_)
  refine Outcome.andThen_keeps q.trans
    (q.loadParam (by intro m p; exact ⟨rfl, rfl, rfl, rfl, rfl⟩) (fun v s => q.bodies s _) s) (fun s => ?_)
  refine Outcome.andThen_keeps q.trans
    (q.loadParam (by intro m p; exact ⟨rfl, rfl, rfl, rfl, rfl⟩) (fun v s => q.bodies s _) s) (fun s => ?_)
  refine Outcome.andThen_keeps q.trans
    (q.loadParam (by intro m p; exact ⟨rfl, rfl, rfl, rfl, rfl⟩) (fun v s => q.bodies s _) s) (fun s => ?_)
  refine Outcome.andThen_keeps q.trans
    (q.loadParam (by intro m p; exact ⟨rfl, rfl, rfl, rfl, rfl⟩) (fun v s => q.bodies s _) s) (fun s => ?_)
  refine Outcome.andThen_keeps q.trans
    (q.loadParam (by intro m p; exact ⟨rfl, rfl, rfl, rfl, rfl⟩) (fun v s => q.bodies s _) s) (fun s => ?_)
  refine Outcome.andThen_keeps q.trans
    (q.loadParam (by intro m p; exact ⟨rfl, rfl, rfl, rfl, rfl⟩) q.noCallback s) (fun s => ?_)
  exact q.loadParam (by intro m p; exact ⟨rfl, rfl, rfl, rfl, rfl⟩) q.noCallback s

theorem Quiet.checkDuplicate {R : St → St → Prop} (q : Quiet R) (removeDuplicate : Bool)
    (s : St) : R s (Load.checkDuplicate removeDuplicate s).st := by
  unfold Load.checkDuplicate
  repeat' (first | split | dsimp only)
  · exact q.refl s
  · exact q.delete s _
  · exact q.refl s

theorem Quiet.setup {R : St → St → Prop} (q : Quiet R) (node : XMLConfigNode) (s : St) :
    R s (Load.setup node s) := by
  unfold Load.setup
  dsimp only
  split
  · exact q.change s _ rfl rfl rfl rfl rfl
  · exact q.change s _ rfl rfl rfl rfl rfl

theorem Quiet.setPose {R : St → St → Prop} (q : Quiet R) (pose : Pose3d) (s : St) :
    R s (Load.setPose pose s) := by
  unfold Load.setPose
  dsimp only
  split
  · exact q.change s _ rfl rfl rfl rfl rfl
  · exact q.change s _ rfl rfl rfl rfl rfl

theorem Quiet.pushModes {R : St → St → Prop} (q : Quiet R) (s : St) :
    R s (Load.pushModes s).st := by
  have hif : ∀ (c : Prop) [Decidable c] (call : BodyCall) (s : St),
      R s (if c then callBodies call s else Outcome.ok s).st := by
    intro c _ call s
    split
    · exact q.bodies s call
    · exact q.refl s
  unfold Load.pushModes
  exact Outcome.andThen_keeps q.trans
    (Outcome.andThen_keeps q.trans (hif _ _ s) (fun s => hif _ _ s)) (fun s => hif _ _ s)

/-! ## The log -/

theorem LogExt.log_refl (Q : Event → Prop) (a : St) : LogExt Q a a :=
  ⟨[], by simp, by simp⟩

theorem LogExt.log_trans (Q : Event → Prop) (a b c : St) (h1 : LogExt Q a b) (h2 : LogExt Q b c) :
    LogExt Q a c := by
  obtain ⟨x, hx, hxQ⟩ := h1
  obtain ⟨y, hy, hyQ⟩ := h2
  refine ⟨x ++ y, by rw [hy, hx, List.append_assoc], ?_⟩
  intro e he
  rcases List.mem_append.mp he with h | h
  · exact hxQ e h
  · exact hyQ e h

theorem LogExt.mono {Q Q2 : Event → Prop} (h : ∀ e, Q e → Q2 e) {a b : St}
    (hab : LogExt Q a b) : LogExt Q2 a b := by
  obtain ⟨x, hx, hxQ⟩ := hab
  exact ⟨x, hx, fun e he => h e (hxQ e he)⟩

theorem eachBody_events (call : BodyCall) (m : StdMap (Option Body)) :
    ∀ e ∈ (eachBody call m).2.1, e.isLoad = false := by
  induction m with
  | nil => simp [eachBody]
  | cons x rest ih =>
    obtain ⟨k, ob⟩ := x
    cases ob with
    | none => simp [eachBody]
    | some b =>
      intro e he
      simp only [eachBody, List.mem_cons] at he
      rcases he with h | h
      · rw [h]; rfl
      · exact ih e h

theorem LogExt.quiet {Q : Event → Prop} (hQ : ∀ e, e.isLoad = false → Q e) :
    Quiet (LogExt Q) where
  refl := LogExt.log_refl Q
  trans := LogExt.log_trans Q
  record := fun s e he _ => ⟨[e], rfl, by simpa using hQ e he⟩
  delete := fun s n => ⟨[.deleteEntity n], rfl, by simpa using hQ (.deleteEntity n) rfl⟩
  change := fun s m _ _ _ _ _ => ⟨[], by simp, by simp⟩
  bodies := fun s call =>
    ⟨(eachBody call s.self.bodies).2.1, rfl, fun e he => hQ e (eachBody_events call _ e he)⟩

theorem LogExt.setSelf (Q : Event → Prop) (s : St) (m : Model) : LogExt Q s (s.setSelf m) :=
  ⟨[], by simp, by simp⟩

/-! ## Failures -/

theorem XMLConfigNode.GetString_error {node : XMLConfigNode} {key dflt : String}
    {require : Bool} {e : GazeboError} (h : node.GetString key dflt require = .error e) :
    e.file = "XMLConfig.cc" := by
  unfold XMLConfigNode.GetString at h
  split at h
  · cases h
  · split at h
    · cases h; rfl
    · cases h

theorem ParamT.Load_error {α : Type} {cast : String → α} {p : ParamT α}
    {node : XMLConfigNode} {e : GazeboError} (h : p.Load cast node = .error e) :
    e.file = "XMLConfig.cc" := by
  unfold ParamT.Load at h
  cases hg : node.GetString p.key "" p.required with
  | error e1 =>
    rw [hg] at h
    cases h
    exact XMLConfigNode.GetString_error hg
  | ok v =>
    rw [hg] at h
    dsimp only at h
    split at h <;> cases h

theorem Failure.foreign_of_xml {e : GazeboError} (h : e.file = "XMLConfig.cc") :
    Failure.Foreign (.thrown e) := by
  simp [Failure.Foreign, h]

theorem eachBody_err (call : BodyCall) (m : StdMap (Option Body)) (f : Failure)
    (h : (eachBody call m).2.2 = some f) : f = .nullDeref := by
  induction m with
  | nil => simp [eachBody] at h
  | cons x rest ih =>
    obtain ⟨k, ob⟩ := x
    cases ob with
    | none => simp [eachBody] at h; exact h.symm
    | some b => exact ih (by simpa [eachBody] using h)

namespace Model

theorem callBodies_err (call : BodyCall) (s : St) (f : Failure)
    (h : (callBodies call s).err = some f) : f.Foreign := by
  rw [eachBody_err call s.self.bodies f h]
  trivial

theorem loadParam_err {α : Type} {P : Failure → Prop} {cast : String → α}
    {get : gazebo.Model → ParamT α} {set : gazebo.Model → ParamT α → gazebo.Model}
    {callback : α → Step} {node : XMLConfigNode}
    (hx : ∀ e, e.file = "XMLConfig.cc" → P (.thrown e))
    (hcb : ∀ v s f, (callback v s).err = some f → P f) (s : St) (f : Failure)
    (h : (loadParam cast get set callback node s).err = some f) : P f := by
  unfold loadParam at h
  split at h
  · rename_i e he
    simp only [Outcome.throw_err, Option.some.injEq] at h
    rw [← h]
    exact hx e (ParamT.Load_error he)
  · exact hcb _ _ f h

theorem noCallback_err {α : Type} {P : Failure → Prop} (v : α) (s : St) (f : Failure)
    (h : (noCallback v s).err = some f) : P f := by
  simp [noCallback] at h

theorem loadParam_foreign {α : Type} {cast : String → α}
    {get : gazebo.Model → ParamT α} {set : gazebo.Model → ParamT α → gazebo.Model}
    {callback : α → Step} {node : XMLConfigNode}
    (hcb : ∀ v s f, (callback v s).err = some f → f.Foreign) (s : St) (f : Failure)
    (h : (loadParam cast get set callback node s).err = some f) : f.Foreign :=
  loadParam_err (fun _ he => Failure.foreign_of_xml he) hcb s f h

theorem otherParameters_err (ext : Externals) (node : XMLConfigNode) (s : St) (f : Failure)
    (h : (Load.otherParameters ext node s).err = some f) : f.Foreign := by
  have hpos : ∀ v s f, (SetRelativePosition v s).err = some f → f.Foreign := by
    intro v s f h; simp [SetRelativePosition] at h
  have hrot : ∀ v s f, (SetRelativeRotation v s).err = some f → f.Foreign := by
    intro v s f h; simp [SetRelativeRotation] at h
  unfold Load.otherParameters at h
  refine Outcome.andThen_err (loadParam_foreign hpos s) (fun f h => ?_) f h
  refine Outcome.andThen_err (loadParam_foreign hrot _) (fun f h => ?_) f h
  refine Outcome.andThen_err (loadParam_foreign (fun v s => callBodies_err _ s) _)
    (fun f h => ?_) f h
  refine Outcome.andThen_err (loadParam_foreign (fun v s => callBodies_err _ s) _)
    (fun f h => ?_) f h
  refine Outcome.andThen_err (loadParam_foreign (fun v s => callBodies_err _ s) _)
    (fun f h => ?_) f h
  refine Outcome.andThen_err (loadParam_foreign (fun v s => callBodies_err _ s) _)
    (fun f h => ?_) f h
  refine Outcome.andThen_err (loadParam_foreign (fun v s => callBodies_err _ s) _)
    (fun f h => ?_) f h
  refine Outcome.andThen_err (loadParam_foreign noCallback_err _) (fun f h => ?_) f h
  exact loadParam_foreign noCallback_err _ f h

theorem parameters_err (ext : Externals) (node : XMLConfigNode) (s : St) (f : Failure)
    (h : (Load.parameters ext node s).err = some f) : f.Foreign := by
  unfold Load.parameters at h
  refine Outcome.andThen_err (loadParam_foreign noCallback_err s) (fun f h => ?_) f h
  refine Outcome.andThen_err (loadParam_foreign noCallback_err _) (fun f h => ?_) f h
  exact otherParameters_err ext node _ f h

theorem name_err (node : XMLConfigNode) (s : St) (f : Failure)
    (h : (Load.name node s).err = some f) : f.Foreign :=
  loadParam_foreign noCallback_err s f h

theorem LoadBody_err (ext : Externals) (c : XMLConfigNode) (s : St) (f : Failure)
    (h : (LoadBody ext (some c) s).err = some f) : f.Foreign := by
  unfold LoadBody at h
  dsimp only at h
  split at h
  · rename_i e _
    simp only [Outcome.throw_err, Option.some.injEq] at h
    rw [← h]
    exact e.foreign
  · simp at h

theorem LoadPhysical_err (ext : Externals) (node : XMLConfigNode) (s : St) (f : Failure)
    (h : (LoadPhysical ext node s).err = some f) : f.Foreign := by
  unfold LoadPhysical at h
  refine Outcome.andThen_err (forEachNode_err (fun c s f h => LoadBody_err ext c s f h) _ s)
    (fun f h => ?_) f h
  exact forEachNode_err
    (fun c s f h => absurd h (by rw [LoadJoint_caught_err]; simp)) _ _ f h

theorem LoadController_err (ext : Externals) (c : XMLConfigNode) (s : St) (f : Failure)
    (h : (LoadController ext (some c) s).err = some f) : f.Foreign := by
  unfold LoadController at h
  dsimp only at h
  split at h
  · rename_i e he
    simp only [Outcome.throw_err, Option.some.injEq] at h
    rw [← h]
    exact Failure.foreign_of_xml (XMLConfigNode.GetString_error he)
  · split at h
    · rename_i e he
      simp only [Outcome.throw_err, Option.some.injEq] at h
      rw [← h]
      exact Failure.foreign_of_xml (XMLConfigNode.GetString_error he)
    · repeat' (first | split at h | dsimp only at h)
      all_goals simp at h

theorem controllers_err (ext : Externals) (node : XMLConfigNode) (s : St) (f : Failure)
    (h : (Load.controllers ext node s).err = some f) : f.Foreign :=
  forEachNode_err (fun c s f h => LoadController_err ext c s f h) _ s f h

theorem canonical_err (s : St) (f : Failure) (h : (Load.canonical s).err = some f) :
    f.Foreign := by
  unfold Load.canonical at h
  repeat' (first | split at h | dsimp only at h)
  all_goals simp at h
  all_goals (rw [← h]; trivial)

theorem pushModes_err (s : St) (f : Failure) (h : (Load.pushModes s).err = some f) :
    f.Foreign := by
  have hif : ∀ (c : Prop) [Decidable c] (call : BodyCall) (s : St) (f : Failure),
      (if c then callBodies call s else Outcome.ok s).err = some f → f.Foreign := by
    intro c _ call s f h
    split at h
    · exact callBodies_err call s f h
    · simp at h
  unfold Load.pushModes at h
  exact Outcome.andThen_err (Outcome.andThen_err (hif _ _ s) (fun f h => hif _ _ _ f h))
    (fun f h => hif _ _ _ f h) f h

/-- The failures of `Load` after the parameters: foreign, or the invalid-type
error for a tag that is neither "physical" nor "empty". -/
theorem afterParameters_err (ext : Externals) (node : XMLConfigNode) (s : St) (f : Failure)
    (h : (Load.afterParameters ext node s).err = some f) :
    f.Foreign ∨
      (f = .thrown (gzthrow 213 ("Invalid model type[" ++ node.GetName ++ "]\n")) ∧
        node.GetName ≠ "physical" ∧ node.GetName ≠ "empty") := by
  have htype : (Load.setup node s).self.type = node.GetName := by
    unfold Load.setup
    dsimp only
    split <;> rfl
  unfold Load.afterParameters Load.afterType at h
  refine Outcome.andThen_err (P := fun f => f.Foreign ∨
      (f = .thrown (gzthrow 213 ("Invalid model type[" ++ node.GetName ++ "]\n")) ∧
        node.GetName ≠ "physical" ∧ node.GetName ≠ "empty")) ?_ (fun f h => Or.inl ?_) f h
  · intro f h
    unfold Load.byType at h
    rw [htype] at h
    split at h
    · exact Or.inl (LoadPhysical_err ext node _ f h)
    · rename_i hp
      split at h
      · rename_i he
        simp only [Outcome.throw_err, Option.some.injEq] at h
        exact Or.inr ⟨h.symm, hp, he⟩
      · simp at h
  · refine Outcome.andThen_err (controllers_err ext node _) (fun f h => ?_) f h
    exact Outcome.andThen_err (canonical_err _) (fun f h => pushModes_err _ f h) f h

theorem afterDuplicate_err (ext : Externals) (node : XMLConfigNode) (s : St) (f : Failure)
    (h : (Load.afterDuplicate ext node s).err = some f) :
    f.Foreign ∨
      (f = .thrown (gzthrow 213 ("Invalid model type[" ++ node.GetName ++ "]\n")) ∧
        node.GetName ≠ "physical" ∧ node.GetName ≠ "empty") := by
  unfold Load.afterDuplicate at h
  exact Outcome.andThen_err (fun f h => Or.inl (parameters_err ext node s f h))
    (fun f h => afterParameters_err ext node _ f h) f h

end Model

/-! ## The statements of `Load` that change the model -/

theorem Quiet.name {R : St → St → Prop} (q : Quiet R)
    (hname : ∀ s p, R s (s.setSelf { s.self with nameP := p }))
    (node : XMLConfigNode) (s : St) : R s (Load.name node s).st :=
  loadParam_keeps q.trans (fun s _ => q.record s _ rfl rfl) hname q.noCallback s

theorem Quiet.canonicalBodyName {R : St → St → Prop} (q : Quiet R)
    (hcan : ∀ s p, R s (s.setSelf { s.self with canonicalBodyNameP := p }))
    (node : XMLConfigNode) (s : St) : R s (Load.canonicalBodyName node s).st :=
  loadParam_keeps q.trans (fun s _ => q.record s _ rfl rfl) hcan q.noCallback s

theorem Quiet.parameters {R : St → St → Prop} (q : Quiet R)
    (hcan : ∀ s p, R s (s.setSelf { s.self with canonicalBodyNameP := p }))
    (ext : Externals) (node : XMLConfigNode) (s : St) :
    R s (Load.parameters ext node s).st := by
  unfold Load.parameters
  exact Outcome.andThen_keeps q.trans (q.static ext node s) (fun s1 =>
    Outcome.andThen_keeps q.trans (q.canonicalBodyName hcan node s1)
      (q.otherParameters ext node))

theorem Quiet.LoadController {R : St → St → Prop} (q : Quiet R)
    (hctl : ∀ s c, R s (s.setSelf { s.self with controllers := c }))
    (ext : Externals) (node : Option XMLConfigNode) (s : St) :
    R s (Model.LoadController ext node s).st := by
  unfold Model.LoadController
  repeat' (first | split | dsimp only)
  all_goals simp only [Outcome.ok_st, Outcome.throw_st]
  all_goals repeat (first
    | exact q.refl _
    | refine q.trans _ _ _ ?_ (q.record _ _ (by rfl) (by rfl))
    | refine q.trans _ _ _ ?_ (hctl _ _))

theorem Quiet.controllers {R : St → St → Prop} (q : Quiet R)
    (hctl : ∀ s c, R s (s.setSelf { s.self with controllers := c }))
    (ext : Externals) (node : XMLConfigNode) (s : St) :
    R s (Load.controllers ext node s).st :=
  forEachNode_keeps q.refl q.trans (fun c s => q.LoadController hctl ext (some c) s) _ s

theorem Quiet.defaultBody {R : St → St → Prop} (q : Quiet R)
    (hdef : ∀ s b p, R s (s.setSelf { s.self with bodies := b, canonicalBodyNameP := p }))
    (ext : Externals) (s : St) : R s (Load.defaultBody ext s) := by
  unfold Load.defaultBody
  split
  · exact q.trans _ _ _ (q.record s .createBody rfl rfl) (hdef _ _ _)
  · exact q.refl s

theorem Quiet.canonical {R : St → St → Prop} (q : Quiet R)
    (hcan : ∀ s p, R s (s.setSelf { s.self with canonicalBodyNameP := p }))
    (s : St) : R s (Load.canonical s).st := by
  unfold Load.canonical
  repeat' (first | split | dsimp only)
  · exact q.refl s
  · exact hcan _ _
  · exact q.refl s

theorem Quiet.afterType {R : St → St → Prop} (q : Quiet R)
    (hctl : ∀ s c, R s (s.setSelf { s.self with controllers := c }))
    (hdef : ∀ s b p, R s (s.setSelf { s.self with bodies := b, canonicalBodyNameP := p }))
    (hcan : ∀ s p, R s (s.setSelf { s.self with canonicalBodyNameP := p }))
    (ext : Externals) (node : XMLConfigNode) (pose : Pose3d) (s : St) :
    R s (Load.afterType ext node pose s).st := by
  unfold Load.afterType
  refine Outcome.andThen_keeps q.trans
    (q.trans _ _ _ (q.setPose _ s) (q.controllers hctl ext node _)) (fun s2 => ?_)
  exact Outcome.andThen_keeps q.trans
    (q.trans _ _ _ (q.defaultBody hdef ext s2) (q.canonical hcan _)) q.pushModes

/-- A relation kept by the dispatch on the type is kept by all that `Load`
does after the parameters. -/
theorem Quiet.afterParameters {R : St → St → Prop} (q : Quiet R)
    (hctl : ∀ s c, R s (s.setSelf { s.self with controllers := c }))
    (hdef : ∀ s b p, R s (s.setSelf { s.self with bodies := b, canonicalBodyNameP := p }))
    (hcan : ∀ s p, R s (s.setSelf { s.self with canonicalBodyNameP := p }))
    (ext : Externals) (node : XMLConfigNode)
    (hbt : ∀ s, R (Load.setup node s) (Load.byType ext node (Load.setup node s)).st)
    (s : St) : R s (Load.afterParameters ext node s).st := by
  unfold Load.afterParameters
  exact Outcome.andThen_keeps q.trans (q.trans _ _ _ (q.setup node s) (hbt s))
    (q.afterType hctl hdef hcan ext node _)

namespace Model

theorem setup_type (node : XMLConfigNode) (s : St) :
    (Load.setup node s).self.type = node.GetName := by
  unfold Load.setup
  dsimp only
  split <;> rfl

theorem LoadBody_keeps {R : St → St → Prop} (hrefl : ∀ a, R a a)
    (htrans : ∀ a b c, R a b → R b c → R a c) (hrec : ∀ s e, R s (s.record e))
    (hset : ∀ s b, R s (s.setSelf { s.self with bodies := b }))
    (ext : Externals) (node : Option XMLConfigNode) (s : St) :
    R s (LoadBody ext node s).st := by
  unfold LoadBody CreateBody
  repeat' (first | split | dsimp only)
  all_goals simp only [Outcome.ok_st, Outcome.throw_st]
  all_goals repeat (first
    | exact hrefl _
    | refine htrans _ _ _ ?_ (hrec _ _)
    | refine htrans _ _ _ ?_ (hset _ _))

theorem LoadJoint_keeps {R : St → St → Prop} (hrefl : ∀ a, R a a)
    (htrans : ∀ a b c, R a b → R b c → R a c) (hrec : ∀ s e, R s (s.record e))
    (hset : ∀ s j, R s (s.setSelf { s.self with joints := j }))
    (ext : Externals) (node : Option XMLConfigNode) (s : St) :
    R s (LoadJoint ext node s).st := by
  unfold LoadJoint CreateJoint
  repeat' (first | split | dsimp only)
  all_goals simp only [Outcome.ok_st, Outcome.throw_st]
  all_goals repeat (first
    | exact hrefl _
    | refine htrans _ _ _ ?_ (hrec _ _)
    | refine htrans _ _ _ ?_ (hset _ _))

theorem LoadPhysical_keeps {R : St → St → Prop} (hrefl : ∀ a, R a a)
    (htrans : ∀ a b c, R a b → R b c → R a c) (hrec : ∀ s e, R s (s.record e))
    (hbodies : ∀ s b, R s (s.setSelf { s.self with bodies := b }))
    (hjoints : ∀ s j, R s (s.setSelf { s.self with joints := j }))
    (ext : Externals) (node : XMLConfigNode) (s : St) :
    R s (LoadPhysical ext node s).st := by
  unfold LoadPhysical
  refine Outcome.andThen_keeps htrans
    (forEachNode_keeps hrefl htrans
      (fun c s => LoadBody_keeps hrefl htrans hrec hbodies ext (some c) s) _ s) (fun s1 => ?_)
  refine forEachNode_keeps hrefl htrans (fun c s => ?_) _ s1
  rw [LoadJoint_caught_st]
  exact LoadJoint_keeps hrefl htrans hrec hjoints ext (some c) s

theorem LogExt.record_any (s : St) (e : Event) : LogExt (fun _ => True) s (s.record e) :=
  ⟨[e], rfl, fun _ _ => trivial⟩

theorem LoadPhysical_logExt (ext : Externals) (node : XMLConfigNode) (s : St) :
    LogExt (fun _ => True) s (LoadPhysical ext node s).st :=
  LoadPhysical_keeps (LogExt.log_refl _) (LogExt.log_trans _) LogExt.record_any
    (fun s _ => LogExt.setSelf _ s _) (fun s _ => LogExt.setSelf _ s _) ext node s

theorem byType_logExt (ext : Externals) (node : XMLConfigNode) (s : St) :
    LogExt (fun _ => True) s (Load.byType ext node s).st := by
  unfold Load.byType
  repeat' (first | split | dsimp only)
  · exact LoadPhysical_logExt ext node s
  · exact LogExt.log_refl _ s
  · exact LogExt.log_refl _ s

theorem afterParameters_logExt (ext : Externals) (node : XMLConfigNode) (s : St) :
    LogExt (fun _ => True) s (Load.afterParameters ext node s).st :=
  (LogExt.quiet (fun _ _ => trivial)).afterParameters (fun s _ => LogExt.setSelf _ s _)
    (fun s _ _ => LogExt.setSelf _ s _) (fun s _ => LogExt.setSelf _ s _) ext node
    (fun _ => byType_logExt ext node _) s

theorem name_log (node : XMLConfigNode) (s : St) :
    (Load.name node s).st.world.log = s.world.log ++ [.paramLoad s.self.nameP.key] := by
  unfold Load.name loadParam
  split <;> simp [noCallback]

theorem static_log (ext : Externals) (node : XMLConfigNode) (s : St) :
    (Load.static ext node s).st.world.log = s.world.log ++ [.paramLoad s.self.staticP.key] := by
  unfold Load.static loadParam
  split <;> simp [noCallback]

/-- The log of what `Load` does after the duplicate check starts with the
load of the static parameter. -/
theorem afterDuplicate_log (ext : Externals) (node : XMLConfigNode) (s : St) :
    ∃ rest, (Load.afterDuplicate ext node s).st.world.log
      = s.world.log ++ .paramLoad s.self.staticP.key :: rest := by
  have q := LogExt.quiet (Q := fun _ => True) (fun _ _ => trivial)
  have h : LogExt (fun _ => True) (Load.static ext node s).st
      (Load.afterDuplicate ext node s).st := by
    unfold Load.afterDuplicate Load.parameters
    cases hs : (Load.static ext node s).err with
    | some f =>
      rw [Outcome.andThen_of_err hs, Outcome.andThen_of_err hs]
      exact LogExt.log_refl _ _
    | none =>
      rw [Outcome.andThen_of_ok hs]
      refine Outcome.andThen_keeps q.trans
        (Outcome.andThen_keeps q.trans
          (q.canonicalBodyName (fun s _ => LogExt.setSelf _ s _) node _)
          (q.otherParameters ext node))
        (afterParameters_logExt ext node)
  obtain ⟨added, hadd, _⟩ := h
  exact ⟨added, by rw [hadd, static_log, List.append_assoc]; rfl⟩

end Model

namespace Model

/-! ## The duplicate check of `Load` -/

theorem name_world (node : XMLConfigNode) (s : St) :
    (Load.name node s).st.world.models = s.world.models ∧
    (Load.name node s).st.self.staticP = s.self.staticP := by
  unfold Load.name loadParam
  split <;> simp [noCallback]

theorem checkDuplicate_eq (removeDuplicate : Bool) (s : St) :
    Load.checkDuplicate removeDuplicate s =
      if s.world.GetModelByName s.self.GetScopedName = true ∧ removeDuplicate = false then
        .throw (gzthrow 174 ("Duplicate model name" ++ s.self.GetScopedName ++ "\n")) s
      else if s.world.GetModelByName s.self.GetScopedName = true then
        .ok (World.DeleteEntity s.self.GetScopedName s)
      else .ok s := by
  unfold Load.checkDuplicate
  cases h1 : s.world.GetModelByName s.self.GetScopedName <;> cases removeDuplicate <;> simp

/-- C4: `Load` raises the duplicate-name error of line 174, for the scoped
name resolved from the node, exactly when the name could be resolved, the
World holds a model of that scoped name and `removeDuplicate` is false.  When
the World holds such a model and `removeDuplicate` is true, `Load` is the run
of the rest of `Load` from the state `World::DeleteEntity` left, and the log
shows the deletion of that scoped name right after the load of the name and
before the load of the static parameter and everything that follows. -/
theorem Load_duplicate_name (ext : Externals) (node : XMLConfigNode) (removeDuplicate : Bool)
    (s : St) :
    ((Load ext node removeDuplicate s).err
        = some (.thrown (gzthrow 174
            ("Duplicate model name" ++ (Load.name node s).st.self.GetScopedName ++ "\n")))
      ↔ ((Load.name node s).err = none ∧
          s.world.GetModelByName (Load.name node s).st.self.GetScopedName = true ∧
          removeDuplicate = false)) ∧
    ((Load.name node s).err = none →
      s.world.GetModelByName (Load.name node s).st.self.GetScopedName = true →
      removeDuplicate = true →
      Load ext node removeDuplicate s
          = Load.afterDuplicate ext node
              (World.DeleteEntity (Load.name node s).st.self.GetScopedName
                (Load.name node s).st) ∧
        ∃ rest, (Load ext node removeDuplicate s).st.world.log
          = s.world.log ++ [.paramLoad s.self.nameP.key,
              .deleteEntity (Load.name node s).st.self.GetScopedName,
              .paramLoad s.self.staticP.key] ++ rest) := by
  have hget : (Load.name node s).st.world.GetModelByName
      (Load.name node s).st.self.GetScopedName
        = s.world.GetModelByName (Load.name node s).st.self.GetScopedName := by
    simp [World.GetModelByName, (name_world node s).1]
  constructor
  · constructor
    · intro herr
      cases hn : (Load.name node s).err with
      | some f =>
        exfalso
        unfold Load at herr
        rw [Outcome.andThen_of_err hn, hn] at herr
        have := name_err node s f hn
        cases herr
        simp [Failure.Foreign, gzthrow] at this
      | none =>
        refine ⟨rfl, ?_⟩
        unfold Load at herr
        rw [Outcome.andThen_of_ok hn, checkDuplicate_eq, hget] at herr
        by_cases hc : s.world.GetModelByName (Load.name node s).st.self.GetScopedName = true ∧
            removeDuplicate = false
        · exact hc
        · exfalso
          rw [if_neg hc] at herr
          have hnot : ∀ s1, (Load.afterDuplicate ext node s1).err ≠ some (.thrown (gzthrow 174
              ("Duplicate model name" ++ (Load.name node s).st.self.GetScopedName ++ "\n"))) := by
            intro s1 h
            rcases afterDuplicate_err ext node s1 _ h with h1 | ⟨h1, _⟩
            · simp [Failure.Foreign, gzthrow] at h1
            · simp [gzthrow] at h1
          split at herr
          · rw [Outcome.andThen_of_ok (by simp)] at herr
            exact hnot _ herr
          · rw [Outcome.andThen_of_ok (by simp)] at herr
            exact hnot _ herr
    · rintro ⟨hn, hdup, hrd⟩
      unfold Load
      rw [Outcome.andThen_of_ok hn, checkDuplicate_eq, hget, if_pos ⟨hdup, hrd⟩,
        Outcome.andThen_of_err (Outcome.throw_err _ _)]
      rfl
  · intro hn hdup hrd
    have hload : Load ext node removeDuplicate s
        = Load.afterDuplicate ext node
            (World.DeleteEntity (Load.name node s).st.self.GetScopedName
              (Load.name node s).st) := by
      unfold Load
      rw [Outcome.andThen_of_ok hn, checkDuplicate_eq, hget, if_neg (by simp [hrd]),
        if_pos hdup, Outcome.andThen_of_ok (by simp)]
      rfl
    refine ⟨hload, ?_⟩
    obtain ⟨rest, hrest⟩ := afterDuplicate_log ext node
      (World.DeleteEntity (Load.name node s).st.self.GetScopedName (Load.name node s).st)
    refine ⟨rest, ?_⟩
    rw [hload, hrest]
    simp [World.DeleteEntity, name_log, (name_world node s).2]

theorem Load_duplicate_name_witness :
    ((Load Sample.ext (.mk "physical" "model" [("name", "old")] []) false Sample.st).err
        = some (.thrown (gzthrow 174 "Duplicate model nameold\n"))) ∧
    (Load Sample.ext (.mk "physical" "model" [("name", "old")] []) true Sample.st
          = Load.afterDuplicate Sample.ext (.mk "physical" "model" [("name", "old")] [])
              (World.DeleteEntity "old"
                (Load.name (.mk "physical" "model" [("name", "old")] []) Sample.st).st) ∧
        ∃ rest, (Load Sample.ext (.mk "physical" "model" [("name", "old")] []) true
            Sample.st).st.world.log
          = [] ++ [.paramLoad "name", .deleteEntity "old", .paramLoad "static"] ++ rest) :=
  ⟨(Load_duplicate_name Sample.ext (.mk "physical" "model" [("name", "old")] []) false
      Sample.st).1.2 ⟨by decide, by decide, rfl⟩,
   (Load_duplicate_name Sample.ext (.mk "physical" "model" [("name", "old")] []) true
      Sample.st).2 (by decide) (by decide) rfl⟩

end Model

/-! ## Relations the quiet statements keep -/

theorem Outcome.andThen_assoc (o : Outcome) (f g : Step) :
    (o.andThen f).andThen g = o.andThen (fun s => (f s).andThen g) := by
  cases h : o.err with
  | none => rw [Outcome.andThen_of_ok h, Outcome.andThen_of_ok h]
  | some e =>
    rw [Outcome.andThen_of_err h, Outcome.andThen_of_err h, Outcome.andThen_of_err h]

theorem Quiet.and {R1 R2 : St → St → Prop} (q1 : Quiet R1) (q2 : Quiet R2) :
    Quiet (fun a b => R1 a b ∧ R2 a b) where
  refl := fun a => ⟨q1.refl a, q2.refl a⟩
  trans := fun a b c h1 h2 => ⟨q1.trans a b c h1.1 h2.1, q2.trans a b c h1.2 h2.2⟩
  record := fun s e he hb => ⟨q1.record s e he hb, q2.record s e he hb⟩
  delete := fun s n => ⟨q1.delete s n, q2.delete s n⟩
  change := fun s m h1 h2 h3 h4 h5 => ⟨q1.change s m h1 h2 h3 h4 h5, q2.change s m h1 h2 h3 h4 h5⟩
  bodies := fun s call => ⟨q1.bodies s call, q2.bodies s call⟩

theorem eachBody_keys (call : BodyCall) (m : StdMap (Option Body)) :
    StdMap.keys (eachBody call m).1 = StdMap.keys m := by
  induction m with
  | nil => rfl
  | cons x rest ih =>
    obtain ⟨k, ob⟩ := x
    cases ob with
    | none => rfl
    | some b =>
      simp only [StdMap.keys, eachBody, List.map_cons] at ih ⊢
      rw [ih]

/-- The joints are the same before and after. -/
theorem Quiet.sameJoints : Quiet (fun a b => b.self.joints = a.self.joints) where
  refl := fun _ => rfl
  trans := fun _ _ _ h1 h2 => h2.trans h1
  record := fun _ _ _ _ => rfl
  delete := fun _ _ => rfl
  change := fun _ _ _ h _ _ _ => h
  bodies := fun _ _ => rfl

/-- The name parameter is the same before and after. -/
theorem Quiet.sameName : Quiet (fun a b => b.self.nameP = a.self.nameP) where
  refl := fun _ => rfl
  trans := fun _ _ _ h1 h2 => h2.trans h1
  record := fun _ _ _ _ => rfl
  delete := fun _ _ => rfl
  change := fun _ _ _ _ _ h _ => h
  bodies := fun _ _ => rfl

/-- The canonical body name parameter is the same before and after. -/
theorem Quiet.sameCanonical :
    Quiet (fun a b => b.self.canonicalBodyNameP = a.self.canonicalBodyNameP) where
  refl := fun _ => rfl
  trans := fun _ _ _ h1 h2 => h2.trans h1
  record := fun _ _ _ _ => rfl
  delete := fun _ _ => rfl
  change := fun _ _ _ _ _ _ h => h
  bodies := fun _ _ => rfl

/-- The keys of the bodies map are the same before and after. -/
theorem Quiet.sameKeys :
    Quiet (fun a b => StdMap.keys b.self.bodies = StdMap.keys a.self.bodies) where
  refl := fun _ => rfl
  trans := fun _ _ _ h1 h2 => h2.trans h1
  record := fun _ _ _ _ => rfl
  delete := fun _ _ => rfl
  change := fun _ _ h _ _ _ _ => by simp [h]
  bodies := fun s call => eachBody_keys call s.self.bodies

theorem Quiet.prelude {R : St → St → Prop} (q : Quiet R)
    (hname : ∀ s p, R s (s.setSelf { s.self with nameP := p }))
    (hcan : ∀ s p, R s (s.setSelf { s.self with canonicalBodyNameP := p }))
    (ext : Externals) (node : XMLConfigNode) (removeDuplicate : Bool) (s : St) :
    R s (Load.prelude ext node removeDuplicate s).st := by
  unfold Load.prelude
  exact Outcome.andThen_keeps q.trans (q.name hname node s) (fun s1 =>
    Outcome.andThen_keeps q.trans (q.checkDuplicate removeDuplicate s1)
      (q.parameters hcan ext node))

namespace Model

theorem Load_eq_prelude (ext : Externals) (node : XMLConfigNode) (removeDuplicate : Bool)
    (s : St) :
    Load ext node removeDuplicate s
      = (Load.prelude ext node removeDuplicate s).andThen (Load.afterParameters ext node) := by
  unfold Load Load.prelude
  rw [Outcome.andThen_assoc]
  congr 1
  funext s1
  rw [Outcome.andThen_assoc]
  rfl

/-- No body or joint load is logged and the joints and the keys of the bodies
stay as they are. -/
theorem Quiet.nothingLoaded :
    Quiet (fun a b => LogExt (fun e => e.isLoad = false) a b ∧
      b.self.joints = a.self.joints ∧
      StdMap.keys b.self.bodies = StdMap.keys a.self.bodies) :=
  (LogExt.quiet (fun _ h => h)).and (Quiet.sameJoints.and Quiet.sameKeys)

theorem prelude_nothingLoaded (ext : Externals) (node : XMLConfigNode)
    (removeDuplicate : Bool) (s : St) :
    LogExt (fun e => e.isLoad = false) s (Load.prelude ext node removeDuplicate s).st ∧
      (Load.prelude ext node removeDuplicate s).st.self.joints = s.self.joints ∧
      StdMap.keys (Load.prelude ext node removeDuplicate s).st.self.bodies
        = StdMap.keys s.self.bodies :=
  Quiet.nothingLoaded.prelude (fun s _ => ⟨LogExt.setSelf _ s _, rfl, rfl⟩)
    (fun s _ => ⟨LogExt.setSelf _ s _, rfl, rfl⟩) ext node removeDuplicate s

end Model

namespace Model

/-! ## What `Load` loads, by type -/

theorem LogExt.filter_isLoad {a b : St} (h : LogExt (fun e => e.isLoad = false) a b) :
    b.world.log.filter Event.isLoad = a.world.log.filter Event.isLoad := by
  obtain ⟨added, hadd, hQ⟩ := h
  rw [hadd, List.filter_append]
  have : added.filter Event.isLoad = [] := by
    rw [List.filter_eq_nil_iff]
    intro e he
    simp [hQ e he]
  rw [this, List.append_nil]

theorem LoadBody_log (ext : Externals) (c : XMLConfigNode) (s : St) :
    (LoadBody ext (some c) s).st.world.log = s.world.log ++ [.createBody, .bodyLoad c] := by
  unfold LoadBody CreateBody
  dsimp only
  split <;> simp

theorem LoadJoint_log (ext : Externals) (c : XMLConfigNode) (s : St) :
    (LoadJoint ext (some c) s).st.world.log.filter Event.isLoad
      = s.world.log.filter Event.isLoad
        ++ if (jointTypeOfTag c.GetName).isSome then [.jointLoad c] else [] := by
  unfold LoadJoint CreateJoint
  dsimp only
  split
  · rename_i h; simp [h]
  · rename_i t h
    rw [h]
    simp only [Option.isSome_some, if_true]
    repeat' (first | split | dsimp only)
    all_goals simp [List.filter_append, List.filter_cons, Event.isLoad]

theorem bodyLoop_loads (ext : Externals) :
    ∀ (nodes : List XMLConfigNode) (s : St),
      (forEachNode (fun c => LoadBody ext (some c)) nodes s).err = none →
      (forEachNode (fun c => LoadBody ext (some c)) nodes s).st.world.log.filter Event.isLoad
        = s.world.log.filter Event.isLoad ++ nodes.map Event.bodyLoad
  | [], s, _ => by simp [forEachNode]
  | c :: rest, s, h => by
    simp only [forEachNode] at h ⊢
    obtain ⟨h1, h2⟩ := Outcome.andThen_err_none h
    rw [h2] at h ⊢
    rw [bodyLoop_loads ext rest _ h, LoadBody_log]
    simp [List.filter_append, List.filter_cons, Event.isLoad]

theorem jointLoop_loads (ext : Externals) :
    ∀ (nodes : List XMLConfigNode) (s : St),
      (nodes.foldl (fun st c => (LoadJoint ext (some c) st).st) s).world.log.filter Event.isLoad
        = s.world.log.filter Event.isLoad
          ++ (nodes.filter (fun c => (jointTypeOfTag c.GetName).isSome)).map Event.jointLoad
  | [], s => by simp
  | c :: rest, s => by
    simp only [List.foldl_cons]
    rw [jointLoop_loads ext rest, LoadJoint_log]
    by_cases hc : (jointTypeOfTag c.GetName).isSome = true
    · simp [hc, List.filter_cons]
    · simp [hc, List.filter_cons]

theorem LoadPhysical_loads (ext : Externals) (node : XMLConfigNode) (s : St)
    (h : (LoadPhysical ext node s).err = none) :
    (LoadPhysical ext node s).st.world.log.filter Event.isLoad
      = s.world.log.filter Event.isLoad
        ++ (XMLConfigNode.bodyChildNodes node.children).map Event.bodyLoad
        ++ ((node.childrenByNSPrefix "joint").filter
            (fun c => (jointTypeOfTag c.GetName).isSome)).map Event.jointLoad := by
  have hb : (forEachNode (fun c => LoadBody ext (some c))
      (XMLConfigNode.bodyChildNodes node.children) s).err = none := by
    unfold LoadPhysical at h
    exact (Outcome.andThen_err_none h).1
  rw [LoadPhysical_eq_fold ext node s hb]
  simp only []
  rw [jointLoop_loads, bodyLoop_loads ext _ s hb]

theorem prelude_err (ext : Externals) (node : XMLConfigNode) (removeDuplicate : Bool)
    (s : St) (f : Failure) (h : (Load.prelude ext node removeDuplicate s).err = some f) :
    f.Foreign ∨ ∃ msg, f = .thrown (gzthrow 174 msg) := by
  unfold Load.prelude at h
  refine Outcome.andThen_err (P := fun f => f.Foreign ∨ ∃ msg, f = .thrown (gzthrow 174 msg))
    (fun f h => Or.inl (name_err node s f h)) (fun f h => ?_) f h
  refine Outcome.andThen_err (P := fun f => f.Foreign ∨ ∃ msg, f = .thrown (gzthrow 174 msg))
    (fun f h => ?_) (fun f h => Or.inl (parameters_err ext node _ f h)) f h
  rw [checkDuplicate_eq] at h
  repeat' (first | split at h | dsimp only at h)
  · simp only [Outcome.throw_err, Option.some.injEq] at h
    exact Or.inr ⟨_, h.symm⟩
  · simp at h
  · simp at h

theorem byType_of_empty (ext : Externals) (node : XMLConfigNode) (s : St)
    (h : node.GetName = "empty") :
    Load.byType ext node (Load.setup node s) = .ok (Load.setup node s) := by
  unfold Load.byType
  rw [setup_type, h]
  simp

theorem byType_of_physical (ext : Externals) (node : XMLConfigNode) (s : St)
    (h : node.GetName = "physical") :
    Load.byType ext node (Load.setup node s) = LoadPhysical ext node (Load.setup node s) := by
  unfold Load.byType
  rw [setup_type, h]
  simp

theorem byType_of_other (ext : Externals) (node : XMLConfigNode) (s : St)
    (h1 : node.GetName ≠ "physical") (h2 : node.GetName ≠ "empty") :
    Load.byType ext node (Load.setup node s)
      = .throw (gzthrow 213 ("Invalid model type[" ++ node.GetName ++ "]\n"))
          (Load.setup node s) := by
  unfold Load.byType
  rw [setup_type]
  simp [h1, h2]

/-- C5, as the code has it: the type is looked at after the name, the duplicate
check and the parameters.  For a tag that is neither "physical" nor "empty"
`Load` always fails, with the invalid-type error of line 213 whenever that
first part passes, and no body or joint is loaded: no such load is logged, the
joints and the keys of the bodies are as before.  For the tag "physical" a
`Load` that succeeds has logged the load of every body child and of every
joint child with a known joint tag, once each, in document order.  For the tag
"empty" no body or joint load is logged, the joints are as before, and the
failure of `Load`, if any, is not the invalid-type error. -/
theorem Load_by_type (ext : Externals) (node : XMLConfigNode) (removeDuplicate : Bool)
    (s : St) :
    (node.GetName ≠ "physical" → node.GetName ≠ "empty" →
      (Load ext node removeDuplicate s).err ≠ none ∧
      ((Load.prelude ext node removeDuplicate s).err = none →
        (Load ext node removeDuplicate s).err
          = some (.thrown (gzthrow 213 ("Invalid model type[" ++ node.GetName ++ "]\n")))) ∧
      LogExt (fun e => e.isLoad = false) s (Load ext node removeDuplicate s).st ∧
      (Load ext node removeDuplicate s).st.self.joints = s.self.joints ∧
      StdMap.keys (Load ext node removeDuplicate s).st.self.bodies
        = StdMap.keys s.self.bodies) ∧
    (node.GetName = "physical" → (Load ext node removeDuplicate s).err = none →
      (Load ext node removeDuplicate s).st.world.log.filter Event.isLoad
        = s.world.log.filter Event.isLoad
          ++ (XMLConfigNode.bodyChildNodes node.children).map Event.bodyLoad
          ++ ((node.childrenByNSPrefix "joint").filter
              (fun c => (jointTypeOfTag c.GetName).isSome)).map Event.jointLoad) ∧
    (node.GetName = "empty" →
      LogExt (fun e => e.isLoad = false) s (Load ext node removeDuplicate s).st ∧
      (Load ext node removeDuplicate s).st.self.joints = s.self.joints ∧
      ∀ msg, (Load ext node removeDuplicate s).err ≠ some (.thrown (gzthrow 213 msg))) := by
  have hpre := prelude_nothingLoaded ext node removeDuplicate s
  refine ⟨?_, ?_, ?_⟩
  · intro h1 h2
    rw [Load_eq_prelude]
    cases hp : (Load.prelude ext node removeDuplicate s).err with
    | some f =>
      rw [Outcome.andThen_of_err hp]
      exact ⟨by simp [hp], fun h => by simp at h, hpre⟩
    | none =>
      have hq := Quiet.nothingLoaded.setup node (Load.prelude ext node removeDuplicate s).st
      rw [Outcome.andThen_of_ok hp]
      unfold Load.afterParameters
      rw [byType_of_other ext node _ h1 h2, Outcome.andThen_of_err (Outcome.throw_err _ _)]
      exact ⟨by simp, fun _ => rfl, Quiet.nothingLoaded.trans _ _ _ hpre hq⟩
  · intro hphys hok
    rw [Load_eq_prelude] at hok ⊢
    obtain ⟨hp, heq⟩ := Outcome.andThen_err_none hok
    rw [heq] at hok ⊢
    unfold Load.afterParameters at hok ⊢
    obtain ⟨hbt, heq2⟩ := Outcome.andThen_err_none hok
    rw [heq2]
    have htail := (LogExt.quiet (Q := fun e => e.isLoad = false) (fun _ h => h)).afterType
      (fun s _ => LogExt.setSelf _ s _) (fun s _ _ => LogExt.setSelf _ s _)
      (fun s _ => LogExt.setSelf _ s _) ext node
      (Load.pose (Load.setup node (Load.prelude ext node removeDuplicate s).st).self)
      (Load.byType ext node (Load.setup node (Load.prelude ext node removeDuplicate s).st)).st
    rw [LogExt.filter_isLoad htail]
    rw [byType_of_physical ext node _ hphys] at hbt ⊢
    rw [LoadPhysical_loads ext node _ hbt]
    have hsetup := (LogExt.quiet (Q := fun e => e.isLoad = false) (fun _ h => h)).setup node
      (Load.prelude ext node removeDuplicate s).st
    rw [LogExt.filter_isLoad hsetup, LogExt.filter_isLoad hpre.1]
  · intro hempty
    have hq : Quiet (fun a b => LogExt (fun e => e.isLoad = false) a b ∧
        b.self.joints = a.self.joints) :=
      (LogExt.quiet (fun _ h => h)).and Quiet.sameJoints
    have hall : LogExt (fun e => e.isLoad = false) s (Load ext node removeDuplicate s).st ∧
        (Load ext node removeDuplicate s).st.self.joints = s.self.joints := by
      rw [Load_eq_prelude]
      refine Outcome.andThen_keeps hq.trans ⟨hpre.1, hpre.2.1⟩ (fun s1 => ?_)
      refine hq.afterParameters (fun s _ => ⟨LogExt.setSelf _ s _, rfl⟩)
        (fun s _ _ => ⟨LogExt.setSelf _ s _, rfl⟩) (fun s _ => ⟨LogExt.setSelf _ s _, rfl⟩)
        ext node (fun s2 => ?_) s1
      rw [byType_of_empty ext node s2 hempty]
      exact hq.refl _
    refine ⟨hall.1, hall.2, ?_⟩
    intro msg herr
    rw [Load_eq_prelude] at herr
    have := Outcome.andThen_err (P := fun f => f.Foreign ∨ ∃ msg, f = .thrown (gzthrow 174 msg))
      (prelude_err ext node removeDuplicate s) (fun f h => by
        rcases afterParameters_err ext node _ f h with h1 | ⟨_, _, h3⟩
        · exact Or.inl h1
        · exact absurd hempty h3) _ herr
    rcases this with h | ⟨m, h⟩
    · simp [Failure.Foreign, gzthrow] at h
    · simp [gzthrow] at h

/-- C5, as stated, fails: a node with the tag "robot" whose name the World
already holds makes `Load` fail with the duplicate-name error, not with the
invalid-type error. -/
theorem Load_by_type_counterexample :
    (XMLConfigNode.mk "robot" "model" [("name", "old")] []).GetName ≠ "physical" ∧
    (XMLConfigNode.mk "robot" "model" [("name", "old")] []).GetName ≠ "empty" ∧
    (Load Sample.ext (.mk "robot" "model" [("name", "old")] []) false Sample.st).err
      = some (.thrown (gzthrow 174 "Duplicate model nameold\n")) ∧
    (Load Sample.ext (.mk "robot" "model" [("name", "old")] []) false Sample.st).err
      ≠ some (.thrown (gzthrow 213 "Invalid model type[robot]\n")) := by
  decide

theorem Load_by_type_witness :
    ((Load Sample.ext (.mk "robot" "model" [("name", "new")] []) false Sample.st).err
        = some (.thrown (gzthrow 213 "Invalid model type[robot]\n"))) ∧
    ((Load Sample.ext (.mk "physical" "model" [("name", "new")]
        [Sample.leaf "body" "box" "b", Sample.leaf "joint" "hinge" "j",
         Sample.leaf "joint" "wheel" "w"]) false Sample.st).st.world.log.filter Event.isLoad
      = [] ++ [.bodyLoad (Sample.leaf "body" "box" "b")]
          ++ [.jointLoad (Sample.leaf "joint" "hinge" "j")]) ∧
    (∀ msg, (Load Sample.ext (.mk "empty" "model" [("name", "new")]
        [Sample.leaf "body" "box" "b"]) false Sample.st).err
          ≠ some (.thrown (gzthrow 213 msg))) :=
  ⟨((Load_by_type Sample.ext (.mk "robot" "model" [("name", "new")] []) false Sample.st).1
      (by decide) (by decide)).2.1 (by decide),
   (Load_by_type Sample.ext (.mk "physical" "model" [("name", "new")]
        [Sample.leaf "body" "box" "b", Sample.leaf "joint" "hinge" "j",
         Sample.leaf "joint" "wheel" "w"]) false Sample.st).2.1 (by decide) (by decide),
   ((Load_by_type Sample.ext (.mk "empty" "model" [("name", "new")]
        [Sample.leaf "body" "box" "b"]) false Sample.st).2.2 (by decide)).2.2⟩

end Model

/-! ## Bodies under setter calls -/

theorem BodyCall.apply_name (call : BodyCall) (b : Body) : (call.apply b).name = b.name := by
  cases call <;> rfl

theorem applyCalls_name (calls : List BodyCall) (b : Body) :
    (applyCalls calls b).name = b.name := by
  induction calls generalizing b with
  | nil => rfl
  | cons c rest ih =>
    simp only [applyCalls, List.foldl_cons] at ih ⊢
    rw [ih, BodyCall.apply_name]

theorem applyCalls_append (c1 c2 : List BodyCall) (b : Body) :
    applyCalls (c1 ++ c2) b = applyCalls c2 (applyCalls c1 b) := by
  simp [applyCalls, List.foldl_append]

theorem BodiesEvolve.bodies_refl (m : StdMap (Option Body)) : BodiesEvolve m m := by
  induction m with
  | nil => exact List.Forall₂.nil
  | cons e rest ih =>
    refine List.Forall₂.cons ⟨rfl, [], ?_⟩ ih
    cases e.2 <;> rfl

theorem BodiesEvolve.bodies_trans {a b c : StdMap (Option Body)} (h1 : BodiesEvolve a b)
    (h2 : BodiesEvolve b c) : BodiesEvolve a c := by
  induction h1 generalizing c with
  | nil => cases h2; exact List.Forall₂.nil
  | cons hab _ ih =>
    cases h2 with
    | cons hbc hrest =>
      refine List.Forall₂.cons ⟨hbc.1.trans hab.1, ?_⟩ (ih hrest)
      obtain ⟨c1, hc1⟩ := hab.2
      obtain ⟨c2, hc2⟩ := hbc.2
      refine ⟨c1 ++ c2, ?_⟩
      rw [hc2, hc1, Option.map_map]
      congr 1
      funext x
      exact (applyCalls_append c1 c2 x).symm

theorem eachBody_evolve (call : BodyCall) (m : StdMap (Option Body)) :
    BodiesEvolve m (eachBody call m).1 := by
  induction m with
  | nil => exact List.Forall₂.nil
  | cons x rest ih =>
    obtain ⟨k, ob⟩ := x
    cases ob with
    | none => exact BodiesEvolve.bodies_refl _
    | some b => exact List.Forall₂.cons ⟨rfl, [call], rfl⟩ ih

/-- The bodies after are the bodies before, up to setter calls. -/
theorem Quiet.bodiesEvolve : Quiet (fun a b => BodiesEvolve a.self.bodies b.self.bodies) where
  refl := fun a => BodiesEvolve.bodies_refl _
  trans := fun _ _ _ h1 h2 => h1.bodies_trans h2
  record := fun _ _ _ _ => BodiesEvolve.bodies_refl _
  delete := fun _ _ => BodiesEvolve.bodies_refl _
  change := fun s m h _ _ _ _ => by
    show BodiesEvolve s.self.bodies m.bodies
    rw [h]; exact BodiesEvolve.bodies_refl _
  bodies := fun s call => eachBody_evolve call s.self.bodies

theorem BodiesEvolve.of_nil {m : StdMap (Option Body)} (h : BodiesEvolve [] m) : m = [] := by
  cases h; rfl

theorem BodiesEvolve.keys {m m2 : StdMap (Option Body)} (h : BodiesEvolve m m2) :
    StdMap.keys m2 = StdMap.keys m := by
  induction h with
  | nil => rfl
  | cons hab _ ih =>
    simp only [StdMap.keys, List.map_cons] at ih ⊢
    rw [ih, hab.1]

theorem BodiesEvolve.find_eq {m m2 : StdMap (Option Body)} (h : BodiesEvolve m m2) (k : String) :
    ∃ calls, StdMap.find k m2 = (StdMap.find k m).map (Option.map (applyCalls calls)) := by
  induction h with
  | nil => exact ⟨[], rfl⟩
  | @cons e e2 _ _ hab _ ih =>
    obtain ⟨k1, v1⟩ := e
    obtain ⟨k2, v2⟩ := e2
    obtain ⟨hk, calls, hv⟩ := hab
    simp only at hk hv
    subst hk
    by_cases hkk : k2 = k
    · exact ⟨calls, by simp [StdMap.find, hkk, hv]⟩
    · obtain ⟨c, hc⟩ := ih
      exact ⟨c, by simp [StdMap.find, hkk, hc]⟩

theorem BodiesEvolve.wellNamed {m m2 : StdMap (Option Body)} (h : BodiesEvolve m m2)
    (hw : WellNamed m) : WellNamed m2 := by
  induction h with
  | nil => exact hw
  | @cons e e2 _ _ hab _ ih =>
    intro x hx
    rcases List.mem_cons.mp hx with hx | hx
    · obtain ⟨b, hb, hn⟩ := hw e (List.mem_cons_self _ _)
      obtain ⟨hk, calls, hv⟩ := hab
      subst hx
      exact ⟨applyCalls calls b, by rw [hv, hb]; rfl, by rw [applyCalls_name, hn, hk]⟩
    · exact ih (fun y hy => hw y (List.mem_cons_of_mem _ hy)) x hx

/-! ## Keys of a map -/

namespace StdMap

theorem mem_keys_assign {β : Type} (k k2 : String) (v : β) (m : StdMap β) :
    k2 ∈ keys (assign k v m) ↔ k2 = k ∨ k2 ∈ keys m := by
  induction m with
  | nil => simp [assign, keys]
  | cons e rest ih =>
    obtain ⟨k1, v1⟩ := e
    simp only [keys] at ih
    simp only [assign]
    by_cases h1 : strLess k k1 = true
    · simp [h1, keys]
    · by_cases h2 : strLess k1 k = true
      · simp only [h1, h2, keys, List.map_cons, List.mem_cons, if_true, if_false, ih,
          Bool.false_eq_true]
        tauto
      · have hk : k = k1 := strLess_total (by simpa using h1) (by simpa using h2)
        subst hk
        simp [h1, keys]

theorem find_isSome_iff {β : Type} (k : String) (m : StdMap β) :
    (find k m).isSome = true ↔ k ∈ keys m := by
  induction m with
  | nil => simp [find, keys]
  | cons e rest ih =>
    obtain ⟨k1, v1⟩ := e
    simp only [keys] at ih
    by_cases h : k1 = k
    · simp [find, keys, h]
    · simp [find, keys, h, ih, Ne.symm h]

theorem find_mem {β : Type} {k : String} {m : StdMap β} {v : β} (h : find k m = some v) :
    (k, v) ∈ m := by
  induction m with
  | nil => simp [find] at h
  | cons e rest ih =>
    obtain ⟨k1, v1⟩ := e
    by_cases hk : k1 = k
    · simp only [find, hk, if_true, Option.some.injEq] at h
      rw [hk, h]; exact List.mem_cons_self _ _
    · simp only [find, hk, if_false] at h
      exact List.mem_cons_of_mem _ (ih h)

theorem ascending_assign {β : Type} (k : String) (v : β) (m : StdMap β) (h : Ascending m) :
    Ascending (assign k v m) := by
  induction m with
  | nil => simp [assign, Ascending]
  | cons e rest ih =>
    obtain ⟨k1, v1⟩ := e
    unfold Ascending at h ih ⊢
    rw [List.pairwise_cons] at h
    simp only [assign]
    by_cases h1 : strLess k k1 = true
    · simp only [h1, if_true]
      rw [List.pairwise_cons, List.pairwise_cons]
      refine ⟨?_, h⟩
      intro x hx
      rcases List.mem_cons.mp hx with hx | hx
      · rw [hx]; exact h1
      · exact strLess_trans h1 (h.1 x hx)
    · by_cases h2 : strLess k1 k = true
      · simp only [h1, h2, if_true, if_false, Bool.false_eq_true]
        rw [List.pairwise_cons]
        refine ⟨?_, ih h.2⟩
        intro x hx
        have hx2 : x.1 ∈ keys (assign k v rest) := List.mem_map.mpr ⟨x, hx, rfl⟩
        rcases (mem_keys_assign k x.1 v rest).mp hx2 with hk | hk
        · rw [hk]; exact h2
        · obtain ⟨y, hy, hyx⟩ := List.mem_map.mp hk
          rw [← hyx]; exact h.1 y hy
      · have hk : k = k1 := strLess_total (by simpa using h1) (by simpa using h2)
        subst hk
        simp only [h1, if_false, Bool.false_eq_true]
        rw [List.pairwise_cons]
        exact ⟨h.1, h.2⟩

end StdMap

theorem WellNamed.assign {m : StdMap (Option Body)} (hw : WellNamed m) (b : Body) :
    WellNamed (StdMap.assign b.name (some b) m) := by
  induction m with
  | nil =>
    intro x hx
    simp only [StdMap.assign, List.mem_singleton] at hx
    exact ⟨b, by rw [hx], by rw [hx]⟩
  | cons e rest ih =>
    obtain ⟨k1, v1⟩ := e
    have hrest : WellNamed rest := fun y hy => hw y (List.mem_cons_of_mem _ hy)
    have hhead := hw (k1, v1) (List.mem_cons_self _ _)
    intro x hx
    simp only [StdMap.assign] at hx
    split at hx
    · rcases List.mem_cons.mp hx with hx | hx
      · exact ⟨b, by rw [hx], by rw [hx]⟩
      · exact hw x hx
    · split at hx
      · rcases List.mem_cons.mp hx with hx | hx
        · rw [hx]; exact hhead
        · exact ih hrest x hx
      · rcases List.mem_cons.mp hx with hx | hx
        · exact ⟨b, by rw [hx], by rw [hx]⟩
        · exact hrest x hx

theorem WellNamed.find_some {m : StdMap (Option Body)} (hw : WellNamed m) {k : String}
    (hk : k ∈ StdMap.keys m) : ∃ b, StdMap.find k m = some (some b) ∧ b.name = k := by
  rw [← StdMap.find_isSome_iff] at hk
  cases hf : StdMap.find k m with
  | none => rw [hf] at hk; cases hk
  | some v =>
    obtain ⟨b, hb, hn⟩ := hw (k, v) (StdMap.find_mem hf)
    simp only at hb hn
    exact ⟨b, by rw [hb], hn⟩

namespace Model

/-! ## The bodies a physical model loads -/

theorem assign_index (k : String) (b : Body) (m : StdMap (Option Body)) :
    StdMap.assign k (some b) (StdMap.index k m).1 = StdMap.assign k (some b) m := by
  unfold StdMap.index
  split
  · rfl
  · exact StdMap.assign_assign k (some b) none m

/-- A `LoadBody` that returns has stored the loaded body under its name. -/
theorem LoadBody_ok (ext : Externals) (c : XMLConfigNode) (s : St)
    (h : (LoadBody ext (some c) s).err = none) :
    ∃ b0, ext.BodyLoad s.self (ext.CreateBody s.self) c = .ok b0 ∧
      (LoadBody ext (some c) s).st.self
        = { s.self with bodies := StdMap.assign b0.name (some b0) s.self.bodies } := by
  unfold LoadBody CreateBody at h ⊢
  dsimp only at h ⊢
  simp only [St.record_self] at h ⊢
  cases hb : ext.BodyLoad s.self (ext.CreateBody s.self) c with
  | error e => rw [hb] at h; simp at h
  | ok b0 =>
    refine ⟨b0, rfl, ?_⟩
    simp only [Outcome.ok_st, St.setSelf_self]
    rw [assign_index]

/-- The loop of `LoadPhysical` over the body nodes, when no body fails to
load and `bodyName` tells the name a body takes from its node. -/
theorem bodyLoop_spec (ext : Externals) (bodyName : XMLConfigNode → String)
    (hname : ∀ mdl b c b0, ext.BodyLoad mdl b c = .ok b0 → b0.name = bodyName c) :
    ∀ (nodes : List XMLConfigNode) (s : St),
      (forEachNode (fun c => LoadBody ext (some c)) nodes s).err = none →
      (WellNamed s.self.bodies →
        WellNamed (forEachNode (fun c => LoadBody ext (some c)) nodes s).st.self.bodies) ∧
      (Ascending s.self.bodies →
        Ascending (forEachNode (fun c => LoadBody ext (some c)) nodes s).st.self.bodies) ∧
      (∀ k, k ∈ StdMap.keys (forEachNode (fun c => LoadBody ext (some c)) nodes s).st.self.bodies
        ↔ k ∈ StdMap.keys s.self.bodies ∨ k ∈ nodes.map bodyName) ∧
      (∀ k, k ∉ nodes.map bodyName →
        StdMap.find k (forEachNode (fun c => LoadBody ext (some c)) nodes s).st.self.bodies
          = StdMap.find k s.self.bodies) ∧
      ((nodes.map bodyName).Nodup → ∀ c ∈ nodes, ∃ mdl b0,
        ext.BodyLoad mdl (ext.CreateBody mdl) c = .ok b0 ∧
        StdMap.find (bodyName c)
          (forEachNode (fun c => LoadBody ext (some c)) nodes s).st.self.bodies
            = some (some b0))
  | [], s, _ => by
    simp [forEachNode]
  | c :: rest, s, h => by
    simp only [forEachNode] at h ⊢
    obtain ⟨h1, h2⟩ := Outcome.andThen_err_none h
    rw [h2] at h ⊢
    obtain ⟨b0, hb0, hst⟩ := LoadBody_ok ext c s h1
    have hn : b0.name = bodyName c := hname _ _ _ _ hb0
    have hbodies : (LoadBody ext (some c) s).st.self.bodies
        = StdMap.assign (bodyName c) (some b0) s.self.bodies := by
      rw [hst, hn]
    obtain ⟨ih1, ih2, ih3, ih4, ih5⟩ := bodyLoop_spec ext bodyName hname rest _ h
    refine ⟨?_, ?_, ?_, ?_, ?_⟩
    · intro hw
      refine ih1 ?_
      rw [hbodies, ← hn]
      exact hw.assign b0
    · intro ha
      refine ih2 ?_
      rw [hbodies]
      exact StdMap.ascending_assign _ _ _ ha
    · intro k
      rw [ih3 k, hbodies, StdMap.mem_keys_assign]
      simp only [List.map_cons, List.mem_cons]
      tauto
    · intro k hk
      simp only [List.map_cons, List.mem_cons, not_or] at hk
      rw [ih4 k hk.2, hbodies, StdMap.find_assign_ne _ _ _ _ hk.1]
    · intro hnd x hx
      simp only [List.map_cons, List.nodup_cons] at hnd
      rcases List.mem_cons.mp hx with hx | hx
      · subst hx
        refine ⟨s.self, b0, hb0, ?_⟩
        rw [ih4 _ hnd.1, hbodies, StdMap.find_assign_self]
      · exact ih5 hnd.2 x hx

theorem jointFold_self (ext : Externals) :
    ∀ (nodes : List XMLConfigNode) (s : St),
      (nodes.foldl (fun st c => (LoadJoint ext (some c) st).st) s).self.bodies = s.self.bodies
  | [], _ => rfl
  | c :: rest, s => by
    simp only [List.foldl_cons]
    rw [jointFold_self ext rest]
    exact LoadJoint_keeps (R := fun a b => b.self.bodies = a.self.bodies) (fun _ => rfl)
      (fun _ _ _ h1 h2 => h2.trans h1) (fun _ _ => rfl) (fun _ _ => rfl) ext (some c) s

/-- The bodies after a `LoadPhysical` that returns are those the loop over
the body nodes left. -/
theorem LoadPhysical_bodies (ext : Externals) (node : XMLConfigNode) (s : St)
    (h : (LoadPhysical ext node s).err = none) :
    (forEachNode (fun c => LoadBody ext (some c))
        (XMLConfigNode.bodyChildNodes node.children) s).err = none ∧
    (LoadPhysical ext node s).st.self.bodies
      = (forEachNode (fun c => LoadBody ext (some c))
          (XMLConfigNode.bodyChildNodes node.children) s).st.self.bodies := by
  have hb : (forEachNode (fun c => LoadBody ext (some c))
      (XMLConfigNode.bodyChildNodes node.children) s).err = none := by
    unfold LoadPhysical at h
    exact (Outcome.andThen_err_none h).1
  refine ⟨hb, ?_⟩
  rw [LoadPhysical_eq_fold ext node s hb]
  exact jointFold_self ext _ _

theorem LoadPhysical_params (ext : Externals) (node : XMLConfigNode) (s : St) :
    (LoadPhysical ext node s).st.self.canonicalBodyNameP = s.self.canonicalBodyNameP ∧
    (LoadPhysical ext node s).st.self.nameP = s.self.nameP :=
  LoadPhysical_keeps
    (R := fun a b => b.self.canonicalBodyNameP = a.self.canonicalBodyNameP ∧
      b.self.nameP = a.self.nameP)
    (fun _ => ⟨rfl, rfl⟩) (fun _ _ _ h1 h2 => ⟨h2.1.trans h1.1, h2.2.trans h1.2⟩)
    (fun _ _ => ⟨rfl, rfl⟩) (fun _ _ => ⟨rfl, rfl⟩) (fun _ _ => ⟨rfl, rfl⟩) ext node s

end Model

namespace Model

/-! ## The shape of a `Load` that succeeds -/

theorem append_body_ne_empty (n : String) : n ++ "_body" ≠ "" := by
  intro h
  have := congrArg String.data h
  simp at this

theorem strLess_empty (a : String) : strLess a "" = false := by
  unfold strLess
  cases h : a.data with
  | nil => rfl
  | cons x xs => rfl

theorem canonicalBodyName_value (node : XMLConfigNode) (s : St)
    (h : (Load.canonicalBodyName node s).err = none) :
    (Load.canonicalBodyName node s).st.self.canonicalBodyNameP.value
      = match XMLConfigNode.lookup s.self.canonicalBodyNameP.key node.attrs with
        | some v => v
        | none => s.self.canonicalBodyNameP.defaultValue := by
  unfold Load.canonicalBodyName loadParam ParamT.Load at h ⊢
  cases hg : node.GetString s.self.canonicalBodyNameP.key "" s.self.canonicalBodyNameP.required with
  | error e => rw [hg] at h; simp at h
  | ok v =>
    simp only [hg]
    cases hl : XMLConfigNode.lookup s.self.canonicalBodyNameP.key node.attrs <;>
      simp [noCallback]

theorem prelude_canonical (ext : Externals) (node : XMLConfigNode) (removeDuplicate : Bool)
    (s : St) (h : (Load.prelude ext node removeDuplicate s).err = none) :
    (Load.prelude ext node removeDuplicate s).st.self.canonicalBodyNameP.value
      = match XMLConfigNode.lookup s.self.canonicalBodyNameP.key node.attrs with
        | some v => v
        | none => s.self.canonicalBodyNameP.defaultValue := by
  unfold Load.prelude at h ⊢
  obtain ⟨_, e1⟩ := Outcome.andThen_err_none h
  rw [e1] at h ⊢
  obtain ⟨_, e2⟩ := Outcome.andThen_err_none h
  rw [e2] at h ⊢
  unfold Load.parameters at h ⊢
  obtain ⟨_, e3⟩ := Outcome.andThen_err_none h
  rw [e3] at h ⊢
  obtain ⟨hc, e4⟩ := Outcome.andThen_err_none h
  rw [e4]
  have h1 := Quiet.sameCanonical.name (fun _ _ => rfl) node s
  have h2 := Quiet.sameCanonical.checkDuplicate removeDuplicate (Load.name node s).st
  have h3 := Quiet.sameCanonical.static ext node
    (Load.checkDuplicate removeDuplicate (Load.name node s).st).st
  have h4 := Quiet.sameCanonical.otherParameters ext node
    (Load.canonicalBodyName node (Load.static ext node
      (Load.checkDuplicate removeDuplicate (Load.name node s).st).st).st).st
  simp only at h1 h2 h3 h4
  rw [h4, canonicalBodyName_value node _ hc, h3, h2, h1]

/-- A `Load` that succeeds on a freshly constructed model: the state in which
the type is looked at has no body yet and holds the canonical body name the
node gave, or the empty name; the dispatch on the type returned, and `Load`
is what follows the dispatch. -/
theorem Load_fresh (ext : Externals) (entity : Entity) (world : World) (node : XMLConfigNode)
    (removeDuplicate : Bool)
    (h : (Load ext node removeDuplicate ⟨Model.new entity, world⟩).err = none) :
    ∃ s4 : St, ∃ pose : Pose3d,
      s4.self.bodies = [] ∧
      s4.self.type = node.GetName ∧
      s4.self.canonicalBodyNameP.value
        = (match XMLConfigNode.lookup "canonicalBody" node.attrs with
          | some v => v
          | none => "") ∧
      (Load.byType ext node s4).err = none ∧
      Load ext node removeDuplicate ⟨Model.new entity, world⟩
        = Load.afterType ext node pose (Load.byType ext node s4).st := by
  rw [Load_eq_prelude] at h ⊢
  obtain ⟨hp, e1⟩ := Outcome.andThen_err_none h
  rw [e1] at h ⊢
  unfold Load.afterParameters at h ⊢
  obtain ⟨hb, e2⟩ := Outcome.andThen_err_none h
  have hq := Quiet.bodiesEvolve.and Quiet.sameCanonical
  have h3 := Quiet.bodiesEvolve.prelude (fun _ _ => BodiesEvolve.bodies_refl _)
    (fun _ _ => BodiesEvolve.bodies_refl _) ext node removeDuplicate ⟨Model.new entity, world⟩
  have h4 := hq.setup node (Load.prelude ext node removeDuplicate ⟨Model.new entity, world⟩).st
  refine ⟨Load.setup node (Load.prelude ext node removeDuplicate ⟨Model.new entity, world⟩).st,
    _, ?_, setup_type _ _, ?_, hb, e2⟩
  · exact BodiesEvolve.of_nil (h3.bodies_trans h4.1)
  · rw [h4.2, prelude_canonical ext node removeDuplicate _ hp]
    rfl

end Model

namespace Model

/-- What follows the dispatch on the type, when it succeeds: the name is
kept; a model without bodies gets the default body, named after the model,
as its only and canonical body; a model with bodies keeps them, up to setter
calls, and its canonical body name, an empty one replaced by the first key. -/
theorem afterType_shape (ext : Externals) (node : XMLConfigNode) (pose : Pose3d) (s : St)
    (h : (Load.afterType ext node pose s).err = none) :
    (Load.afterType ext node pose s).st.self.nameP = s.self.nameP ∧
    ((s.self.bodies = [] ∧ ∃ b : Body, b.name = s.self.GetName ++ "_body" ∧
        BodiesEvolve [(s.self.GetName ++ "_body", some b)]
          (Load.afterType ext node pose s).st.self.bodies ∧
        (Load.afterType ext node pose s).st.self.canonicalBodyNameP.value
          = s.self.GetName ++ "_body") ∨
     (∃ k v rest, s.self.bodies = (k, v) :: rest ∧
        BodiesEvolve s.self.bodies (Load.afterType ext node pose s).st.self.bodies ∧
        (Load.afterType ext node pose s).st.self.canonicalBodyNameP.value
          = if s.self.canonicalBodyNameP.value = "" then k
            else s.self.canonicalBodyNameP.value)) := by
  have q := Quiet.bodiesEvolve.and (Quiet.sameCanonical.and Quiet.sameName)
  unfold Load.afterType at h ⊢
  obtain ⟨_, e1⟩ := Outcome.andThen_err_none h
  rw [e1] at h ⊢
  obtain ⟨hc, e2⟩ := Outcome.andThen_err_none h
  rw [e2]
  have h7 := q.trans _ _ _ (q.setPose pose s)
    (q.controllers (fun _ _ => ⟨BodiesEvolve.bodies_refl _, rfl, rfl⟩) ext node (Load.setPose pose s))
  have h10 := q.pushModes
    (Load.canonical (Load.defaultBody ext (Load.controllers ext node
      (Load.setPose pose s)).st)).st
  generalize (Load.controllers ext node (Load.setPose pose s)).st = s7 at h7 h10 hc ⊢
  obtain ⟨hev7, hcan7, hname7⟩ := h7
  cases hb : s.self.bodies with
  | nil =>
    rw [hb] at hev7
    have hb7 : s7.self.bodies = [] := hev7.of_nil
    have hd : Load.defaultBody ext s7
        = (s7.record .createBody).setSelf { s7.self with
            bodies := [(s7.self.GetName ++ "_body",
              some { ext.CreateBody s7.self with name := s7.self.GetName ++ "_body" })]
            canonicalBodyNameP := s7.self.canonicalBodyNameP.SetValue
              (s7.self.GetName ++ "_body") } := by
      unfold Load.defaultBody CreateBody
      simp [hb7, StdMap.assign]
    have hgn : s7.self.GetName = s.self.GetName := by
      simp [GetName, hname7]
    have hcanon : Load.canonical (Load.defaultBody ext s7) = .ok (Load.defaultBody ext s7) := by
      unfold Load.canonical
      rw [hd]
      simp [ParamT.SetValue, ParamT.GetValue, append_body_ne_empty]
    rw [hcanon] at h10 ⊢
    simp only [Outcome.ok_st] at h10 ⊢
    rw [hd, hgn] at h10 ⊢
    obtain ⟨hev, hcan, hname⟩ := h10
    refine ⟨?_, Or.inl ⟨by simp, { ext.CreateBody s7.self with name := s.self.GetName ++ "_body" },
      rfl, hev, ?_⟩⟩
    · rw [hname]; exact hname7
    · rw [hcan]; rfl
  | cons e rest =>
    obtain ⟨k, v⟩ := e
    rw [hb] at hev7
    obtain ⟨e7, rest7, he7, _, hb7⟩ := List.forall₂_cons_left_iff.mp hev7
    obtain ⟨k7, v7⟩ := e7
    have hk7 : k7 = k := he7.1
    subst hk7
    have hd : Load.defaultBody ext s7 = s7 := by
      unfold Load.defaultBody
      simp [hb7]
    rw [hd] at h10 hc ⊢
    have hcanon : (Load.canonical s7).st.self.bodies = s7.self.bodies ∧
        (Load.canonical s7).st.self.nameP = s7.self.nameP ∧
        (Load.canonical s7).st.self.canonicalBodyNameP.value
          = if s7.self.canonicalBodyNameP.value = "" then k7
            else s7.self.canonicalBodyNameP.value := by
      unfold Load.canonical
      rw [hb7]
      by_cases hv : s7.self.canonicalBodyNameP.value = ""
      · simp [ParamT.GetValue, ParamT.SetValue, hv, hb7]
      · simp [ParamT.GetValue, hv, hb7]
    obtain ⟨hev, hcan, hname⟩ := h10
    refine ⟨by rw [hname, hcanon.2.1, hname7], Or.inr ⟨k7, v, rest, rfl, ?_, ?_⟩⟩
    · rw [hcanon.1] at hev
      exact hev7.bodies_trans hev
    · rw [hcan, hcanon.2.2, hcan7]

end Model

namespace Model

/-! ## The canonical body after `Load` -/

theorem GetCanonicalBody_of_find (m : gazebo.Model) (v : Option Body)
    (h : StdMap.find m.canonicalBodyNameP.GetValue m.bodies = some v) :
    m.GetCanonicalBody = (m, v) := by
  unfold GetCanonicalBody StdMap.index
  rw [h]

theorem byType_ok_cases (ext : Externals) (node : XMLConfigNode) (s : St)
    (htype : s.self.type = node.GetName) (h : (Load.byType ext node s).err = none) :
    (node.GetName = "physical" ∧ Load.byType ext node s = LoadPhysical ext node s) ∨
    (node.GetName = "empty" ∧ Load.byType ext node s = .ok s) := by
  unfold Load.byType at h ⊢
  rw [htype] at h ⊢
  by_cases hp : node.GetName = "physical"
  · exact Or.inl ⟨hp, by simp [hp]⟩
  · by_cases he : node.GetName = "empty"
    · exact Or.inr ⟨he, by simp [he]⟩
    · simp [hp, he] at h

/-- A model that reaches the end of `Load` without a body of its own has
exactly the default body, named after the model and canonical. -/
theorem afterType_default (ext : Externals) (node : XMLConfigNode) (pose : Pose3d) (s : St)
    (hb : s.self.bodies = []) (h : (Load.afterType ext node pose s).err = none) :
    ∃ b : Body,
      (Load.afterType ext node pose s).st.self.bodies
        = [((Load.afterType ext node pose s).st.self.GetName ++ "_body", some b)] ∧
      b.name = (Load.afterType ext node pose s).st.self.GetName ++ "_body" ∧
      (Load.afterType ext node pose s).st.self.canonicalBodyNameP.GetValue
        = (Load.afterType ext node pose s).st.self.GetName ++ "_body" := by
  obtain ⟨hname, hcase⟩ := afterType_shape ext node pose s h
  have hgn : (Load.afterType ext node pose s).st.self.GetName = s.self.GetName := by
    simp [GetName, hname]
  rcases hcase with ⟨_, b, hbn, hev, hcan⟩ | ⟨k, v, rest, hcons, _⟩
  · obtain ⟨e2, rest2, he2, hrest, hbodies⟩ := List.forall₂_cons_left_iff.mp hev
    cases hrest
    obtain ⟨k2, v2⟩ := e2
    obtain ⟨hk, calls, hv⟩ := he2
    simp only at hk hv
    refine ⟨applyCalls calls b, ?_, ?_, ?_⟩
    · rw [hbodies, hgn, hk, hv]; rfl
    · rw [applyCalls_name, hbn, hgn]
    · rw [hgn]; exact hcan
  · rw [hb] at hcons; cases hcons

/-- C1: after a successful `Load` of a freshly constructed model from a node
that declares no body (its tag is "empty", or the loop over body nodes visits
none), the bodies mapping has exactly one entry, whose key and whose body's
name are the model name followed by "_body", and the canonical body name is
that key, whatever the node says about `canonicalBody`. -/
theorem Load_default_body (ext : Externals) (entity : Entity) (world : World)
    (node : XMLConfigNode) (removeDuplicate : Bool)
    (hno : node.GetName = "empty" ∨ XMLConfigNode.bodyChildNodes node.children = [])
    (hok : (Load ext node removeDuplicate ⟨Model.new entity, world⟩).err = none) :
    ∃ b : Body,
      (Load ext node removeDuplicate ⟨Model.new entity, world⟩).st.self.bodies
        = [((Load ext node removeDuplicate ⟨Model.new entity, world⟩).st.self.GetName
            ++ "_body", some b)] ∧
      b.name = (Load ext node removeDuplicate ⟨Model.new entity, world⟩).st.self.GetName
        ++ "_body" ∧
      (Load ext node removeDuplicate ⟨Model.new entity, world⟩).st.self.canonicalBodyNameP.GetValue
        = (Load ext node removeDuplicate ⟨Model.new entity, world⟩).st.self.GetName
          ++ "_body" := by
  obtain ⟨s4, pose, hb4, htype, _, hbt, heq⟩ := Load_fresh ext entity world node removeDuplicate hok
  rw [heq] at hok ⊢
  refine afterType_default ext node pose _ ?_ hok
  rcases byType_ok_cases ext node s4 htype hbt with ⟨hp, hby⟩ | ⟨_, hby⟩
  · rw [hby] at hbt ⊢
    rw [(LoadPhysical_bodies ext node s4 hbt).2]
    rcases hno with he | hnil
    · rw [hp] at he; exact absurd he (by decide)
    · rw [hnil]; exact hb4
  · rw [hby]; exact hb4

theorem Load_default_body_witness :
    ∃ b : Body,
      (Load Sample.ext (.mk "empty" "model" [("name", "m"), ("canonicalBody", "zzz")]
          [Sample.leaf "body" "box" "b"]) false ⟨Model.new Sample.entity, Sample.world⟩).st.self.bodies
        = [((Load Sample.ext (.mk "empty" "model" [("name", "m"), ("canonicalBody", "zzz")]
            [Sample.leaf "body" "box" "b"]) false
              ⟨Model.new Sample.entity, Sample.world⟩).st.self.GetName ++ "_body", some b)] ∧
      b.name = (Load Sample.ext (.mk "empty" "model" [("name", "m"), ("canonicalBody", "zzz")]
            [Sample.leaf "body" "box" "b"]) false
              ⟨Model.new Sample.entity, Sample.world⟩).st.self.GetName ++ "_body" ∧
      (Load Sample.ext (.mk "empty" "model" [("name", "m"), ("canonicalBody", "zzz")]
          [Sample.leaf "body" "box" "b"]) false
            ⟨Model.new Sample.entity, Sample.world⟩).st.self.canonicalBodyNameP.GetValue
        = (Load Sample.ext (.mk "empty" "model" [("name", "m"), ("canonicalBody", "zzz")]
            [Sample.leaf "body" "box" "b"]) false
              ⟨Model.new Sample.entity, Sample.world⟩).st.self.GetName ++ "_body" :=
  Load_default_body Sample.ext Sample.entity Sample.world
    (.mk "empty" "model" [("name", "m"), ("canonicalBody", "zzz")]
      [Sample.leaf "body" "box" "b"]) false (by decide) (by decide)

end Model

namespace Model

/-- A successful `Load` of a freshly constructed physical model, `bodyName`
telling the name a body takes from its node: the bodies the loop over the
body nodes left are stored under their names in ascending key order, one key
per declared name; and either there is none and the model ends with the
default body, or the model ends with these bodies, up to setter calls, and
with the canonical body name of the node, an absent or empty one replaced by
the first key. -/
theorem Load_physical (ext : Externals) (entity : Entity) (world : World)
    (node : XMLConfigNode) (removeDuplicate : Bool) (bodyName : XMLConfigNode → String)
    (hname : ∀ mdl b c b0, ext.BodyLoad mdl b c = .ok b0 → b0.name = bodyName c)
    (hphys : node.GetName = "physical")
    (hok : (Load ext node removeDuplicate ⟨Model.new entity, world⟩).err = none) :
    ∃ M : StdMap (Option Body),
      WellNamed M ∧ Ascending M ∧
      (∀ k, k ∈ StdMap.keys M ↔ k ∈ (XMLConfigNode.bodyChildNodes node.children).map bodyName) ∧
      (((XMLConfigNode.bodyChildNodes node.children).map bodyName).Nodup →
        ∀ c ∈ XMLConfigNode.bodyChildNodes node.children, ∃ mdl b0,
          ext.BodyLoad mdl (ext.CreateBody mdl) c = .ok b0 ∧
          StdMap.find (bodyName c) M = some (some b0)) ∧
      ((M = [] ∧ ∃ b : Body,
          (Load ext node removeDuplicate ⟨Model.new entity, world⟩).st.self.bodies
            = [((Load ext node removeDuplicate ⟨Model.new entity, world⟩).st.self.GetName
                ++ "_body", some b)] ∧
          b.name = (Load ext node removeDuplicate ⟨Model.new entity, world⟩).st.self.GetName
            ++ "_body" ∧
          (Load ext node removeDuplicate
              ⟨Model.new entity, world⟩).st.self.canonicalBodyNameP.GetValue
            = (Load ext node removeDuplicate ⟨Model.new entity, world⟩).st.self.GetName
              ++ "_body") ∨
       (∃ k v rest, M = (k, v) :: rest ∧
          BodiesEvolve M
            (Load ext node removeDuplicate ⟨Model.new entity, world⟩).st.self.bodies ∧
          (Load ext node removeDuplicate
              ⟨Model.new entity, world⟩).st.self.canonicalBodyNameP.GetValue
            = if (match XMLConfigNode.lookup "canonicalBody" node.attrs with
                  | some v => v
                  | none => "") = "" then k
              else (match XMLConfigNode.lookup "canonicalBody" node.attrs with
                  | some v => v
                  | none => ""))) := by
  obtain ⟨s4, pose, hb4, htype, hcan4, hbt, heq⟩ :=
    Load_fresh ext entity world node removeDuplicate hok
  rw [heq] at hok ⊢
  rcases byType_ok_cases ext node s4 htype hbt with ⟨_, hby⟩ | ⟨he, _⟩
  · rw [hby] at hbt hok ⊢
    obtain ⟨hloop, hbodies⟩ := LoadPhysical_bodies ext node s4 hbt
    obtain ⟨hw, ha, hkeys, _, hfind⟩ := bodyLoop_spec ext bodyName hname _ s4 hloop
    rw [← hbodies] at hw ha hkeys hfind
    have hcan5 := (LoadPhysical_params ext node s4).1
    refine ⟨(LoadPhysical ext node s4).st.self.bodies, ?_, ?_, ?_, hfind, ?_⟩
    · exact hw (by rw [hb4]; intro e he; cases he)
    · exact ha (by rw [hb4]; exact List.Pairwise.nil)
    · intro k
      rw [hkeys k, hb4]
      simp [StdMap.keys]
    · cases hM : (LoadPhysical ext node s4).st.self.bodies with
      | nil => exact Or.inl ⟨rfl, afterType_default ext node pose _ hM hok⟩
      | cons e rest =>
        right
        obtain ⟨_, hcase⟩ := afterType_shape ext node pose _ hok
        rcases hcase with ⟨hnil, _⟩ | ⟨k, v, rest2, hcons, hev, hcan⟩
        · rw [hM] at hnil; cases hnil
        · rw [hM] at hcons hev
          refine ⟨k, v, rest2, hcons, hev, ?_⟩
          rw [hcan5, hcan4] at hcan
          exact hcan
  · rw [hphys] at he; exact absurd he (by decide)

theorem Ascending.head_le {β : Type} {k : String} {v : β} {rest : StdMap β}
    (h : Ascending ((k, v) :: rest)) {k2 : String} (hk : k2 ∈ StdMap.keys ((k, v) :: rest)) :
    strLess k2 k = false := by
  unfold Ascending at h
  rw [List.pairwise_cons] at h
  simp only [StdMap.keys, List.map_cons, List.mem_cons] at hk
  rcases hk with hk | hk
  · rw [hk]; exact strLess_irrefl k
  · obtain ⟨y, hy, hyk⟩ := List.mem_map.mp hk
    rw [← hyk]
    exact strLess_asymm (h.1 y hy)

/-- C2, as the code has it: after a successful `Load` of a freshly constructed
physical model with at least one declared body, the declared names pairwise
distinct, `GetCanonicalBody` returns, up to the setter calls `Load` made on
it, the body loaded from the node that the `canonicalBody` attribute names;
and without the attribute it returns the body of the declared node whose name
comes first in the key order of the bodies map, no declared name being less.
It leaves the model as it is. -/
theorem Load_canonical_body (ext : Externals) (entity : Entity) (world : World)
    (node : XMLConfigNode) (removeDuplicate : Bool) (bodyName : XMLConfigNode → String)
    (hname : ∀ mdl b c b0, ext.BodyLoad mdl b c = .ok b0 → b0.name = bodyName c)
    (hphys : node.GetName = "physical")
    (hN : XMLConfigNode.bodyChildNodes node.children ≠ [])
    (hdistinct : ((XMLConfigNode.bodyChildNodes node.children).map bodyName).Nodup)
    (hok : (Load ext node removeDuplicate ⟨Model.new entity, world⟩).err = none) :
    (∀ c ∈ XMLConfigNode.bodyChildNodes node.children,
      XMLConfigNode.lookup "canonicalBody" node.attrs = some (bodyName c) →
      ∃ mdl b0 calls, ext.BodyLoad mdl (ext.CreateBody mdl) c = .ok b0 ∧
        (Load ext node removeDuplicate ⟨Model.new entity, world⟩).st.self.GetCanonicalBody
          = ((Load ext node removeDuplicate ⟨Model.new entity, world⟩).st.self,
              some (applyCalls calls b0))) ∧
    (XMLConfigNode.lookup "canonicalBody" node.attrs = none →
      ∃ c ∈ XMLConfigNode.bodyChildNodes node.children,
        (∀ c2 ∈ XMLConfigNode.bodyChildNodes node.children,
          strLess (bodyName c2) (bodyName c) = false) ∧
        ∃ mdl b0 calls, ext.BodyLoad mdl (ext.CreateBody mdl) c = .ok b0 ∧
          (Load ext node removeDuplicate ⟨Model.new entity, world⟩).st.self.GetCanonicalBody
            = ((Load ext node removeDuplicate ⟨Model.new entity, world⟩).st.self,
                some (applyCalls calls b0))) := by
  obtain ⟨M, _, ha, hkeys, hfind, hcase⟩ :=
    Load_physical ext entity world node removeDuplicate bodyName hname hphys hok
  have hfind := hfind hdistinct
  rcases hcase with ⟨hnil, _⟩ | ⟨k, v, rest, hM, hev, hcan⟩
  · exfalso
    obtain ⟨c, hc⟩ := List.exists_mem_of_ne_nil _ hN
    have := (hkeys (bodyName c)).mpr (List.mem_map.mpr ⟨c, hc, rfl⟩)
    rw [hnil] at this
    simp [StdMap.keys] at this
  · have hret : ∀ c ∈ XMLConfigNode.bodyChildNodes node.children,
        (Load ext node removeDuplicate
          ⟨Model.new entity, world⟩).st.self.canonicalBodyNameP.GetValue = bodyName c →
        ∃ mdl b0 calls, ext.BodyLoad mdl (ext.CreateBody mdl) c = .ok b0 ∧
          (Load ext node removeDuplicate ⟨Model.new entity, world⟩).st.self.GetCanonicalBody
            = ((Load ext node removeDuplicate ⟨Model.new entity, world⟩).st.self,
                some (applyCalls calls b0)) := by
      intro c hc hval
      obtain ⟨mdl, b0, hload, hf⟩ := hfind c hc
      obtain ⟨calls, hcalls⟩ := hev.find_eq (bodyName c)
      rw [hf] at hcalls
      refine ⟨mdl, b0, calls, hload, GetCanonicalBody_of_find _ _ ?_⟩
      rw [hval, hcalls]; rfl
    constructor
    · intro c hc hattr
      refine hret c hc ?_
      rw [hcan, hattr]
      by_cases hempty : bodyName c = ""
      · simp only [hempty, if_true]
        have hin : bodyName c ∈ StdMap.keys M := (hkeys _).mpr (List.mem_map.mpr ⟨c, hc, rfl⟩)
        rw [hM] at ha hin
        have h1 : strLess (bodyName c) k = false := Ascending.head_le ha hin
        have h2 : strLess k (bodyName c) = false := by rw [hempty]; exact strLess_empty k
        rw [← hempty]
        exact (strLess_total h1 h2).symm
      · simp [hempty]
    · intro hattr
      have hk : k ∈ StdMap.keys M := by rw [hM]; simp [StdMap.keys]
      obtain ⟨c, hc, hck⟩ := List.mem_map.mp ((hkeys k).mp hk)
      refine ⟨c, hc, ?_, hret c hc ?_⟩
      · intro c2 hc2
        have hin : bodyName c2 ∈ StdMap.keys M := (hkeys _).mpr (List.mem_map.mpr ⟨c2, hc2, rfl⟩)
        rw [hM] at ha hin
        rw [hck]
        exact Ascending.head_le ha hin
      · rw [hcan, hattr, hck]
        simp

end Model

theorem Sample.bodyLoad_name (mdl : Model) (b : Body) (c : XMLConfigNode) (b0 : Body)
    (h : Sample.ext.BodyLoad mdl b c = .ok b0) : b0.name = Sample.nameOf c := by
  unfold Sample.ext Sample.nameOf at *
  simp only at h
  split at h
  · cases h
    rfl
  · cases h

namespace Model

/-- C2, as stated, fails: the node declares the bodies "b" and "a", in this
order, and no canonical body; `Load` succeeds and `GetCanonicalBody` returns
the body named "a", which is not the first body child. -/
theorem Load_canonical_body_counterexample :
    (Load Sample.ext (Sample.robot none) false ⟨Model.new Sample.entity, Sample.world⟩).err
      = none ∧
    (XMLConfigNode.bodyChildNodes (Sample.robot none).children).map Sample.nameOf
      = ["b", "a"] ∧
    XMLConfigNode.lookup "canonicalBody" (Sample.robot none).attrs = none ∧
    ((Load Sample.ext (Sample.robot none) false
        ⟨Model.new Sample.entity, Sample.world⟩).st.self.GetCanonicalBody).2.map
          (fun b => b.name) = some "a" ∧
    ((Load Sample.ext (Sample.robot none) false
        ⟨Model.new Sample.entity, Sample.world⟩).st.self.GetCanonicalBody).2.map
          (fun b => b.name)
      ≠ (XMLConfigNode.bodyChildNodes (Sample.robot none).children).head?.map
          Sample.nameOf := by
  decide

theorem Load_canonical_body_witness :
    (∃ mdl b0 calls,
      Sample.ext.BodyLoad mdl (Sample.ext.CreateBody mdl) (Sample.leaf "body" "box" "b")
        = .ok b0 ∧
      (Load Sample.ext (Sample.robot (some "b")) false
          ⟨Model.new Sample.entity, Sample.world⟩).st.self.GetCanonicalBody
        = ((Load Sample.ext (Sample.robot (some "b")) false
            ⟨Model.new Sample.entity, Sample.world⟩).st.self, some (applyCalls calls b0))) ∧
    (∃ c ∈ XMLConfigNode.bodyChildNodes (Sample.robot none).children,
      (∀ c2 ∈ XMLConfigNode.bodyChildNodes (Sample.robot none).children,
        strLess (Sample.nameOf c2) (Sample.nameOf c) = false) ∧
      ∃ mdl b0 calls, Sample.ext.BodyLoad mdl (Sample.ext.CreateBody mdl) c = .ok b0 ∧
        (Load Sample.ext (Sample.robot none) false
            ⟨Model.new Sample.entity, Sample.world⟩).st.self.GetCanonicalBody
          = ((Load Sample.ext (Sample.robot none) false
              ⟨Model.new Sample.entity, Sample.world⟩).st.self,
                some (applyCalls calls b0))) :=
  ⟨(Load_canonical_body Sample.ext Sample.entity Sample.world (Sample.robot (some "b")) false
      Sample.nameOf Sample.bodyLoad_name (by decide) (by decide) (by decide) (by decide)).1
      (Sample.leaf "body" "box" "b") (by decide) (by decide),
   (Load_canonical_body Sample.ext Sample.entity Sample.world (Sample.robot none) false
      Sample.nameOf Sample.bodyLoad_name (by decide) (by decide) (by decide) (by decide)).2
      (by decide)⟩

/-- C3, as the code has it: `Load` does not check the `canonicalBody`
attribute against the bodies.  After a successful `Load` of a freshly
constructed model from a node whose `canonicalBody` attribute, if it has a
non-empty one and declares bodies, names one of them, the canonical body name
is the key of a body in the bodies mapping, stored under its own name, and
`GetCanonicalBody` returns that body and leaves the model as it is; the name
is non-empty when no declared body has the empty name. -/
theorem Load_canonical_in_bodies (ext : Externals) (entity : Entity) (world : World)
    (node : XMLConfigNode) (removeDuplicate : Bool) (bodyName : XMLConfigNode → String)
    (hname : ∀ mdl b c b0, ext.BodyLoad mdl b c = .ok b0 → b0.name = bodyName c)
    (hattr : ∀ n, XMLConfigNode.lookup "canonicalBody" node.attrs = some n → n ≠ "" →
      node.GetName = "physical" → XMLConfigNode.bodyChildNodes node.children ≠ [] →
      n ∈ (XMLConfigNode.bodyChildNodes node.children).map bodyName)
    (hok : (Load ext node removeDuplicate ⟨Model.new entity, world⟩).err = none) :
    (∃ b : Body,
      StdMap.find
          (Load ext node removeDuplicate
            ⟨Model.new entity, world⟩).st.self.canonicalBodyNameP.GetValue
          (Load ext node removeDuplicate ⟨Model.new entity, world⟩).st.self.bodies
        = some (some b) ∧
      b.name = (Load ext node removeDuplicate
        ⟨Model.new entity, world⟩).st.self.canonicalBodyNameP.GetValue ∧
      (Load ext node removeDuplicate ⟨Model.new entity, world⟩).st.self.GetCanonicalBody
        = ((Load ext node removeDuplicate ⟨Model.new entity, world⟩).st.self, some b)) ∧
    ((∀ c ∈ XMLConfigNode.bodyChildNodes node.children, bodyName c ≠ "") →
      (Load ext node removeDuplicate
        ⟨Model.new entity, world⟩).st.self.canonicalBodyNameP.GetValue ≠ "") := by
  have hdefault : (∃ b : Body,
      (Load ext node removeDuplicate ⟨Model.new entity, world⟩).st.self.bodies
        = [((Load ext node removeDuplicate ⟨Model.new entity, world⟩).st.self.GetName
            ++ "_body", some b)] ∧
      b.name = (Load ext node removeDuplicate ⟨Model.new entity, world⟩).st.self.GetName
        ++ "_body" ∧
      (Load ext node removeDuplicate
          ⟨Model.new entity, world⟩).st.self.canonicalBodyNameP.GetValue
        = (Load ext node removeDuplicate ⟨Model.new entity, world⟩).st.self.GetName
          ++ "_body") →
      (∃ b : Body,
        StdMap.find
            (Load ext node removeDuplicate
              ⟨Model.new entity, world⟩).st.self.canonicalBodyNameP.GetValue
            (Load ext node removeDuplicate ⟨Model.new entity, world⟩).st.self.bodies
          = some (some b) ∧
        b.name = (Load ext node removeDuplicate
          ⟨Model.new entity, world⟩).st.self.canonicalBodyNameP.GetValue ∧
        (Load ext node removeDuplicate ⟨Model.new entity, world⟩).st.self.GetCanonicalBody
          = ((Load ext node removeDuplicate ⟨Model.new entity, world⟩).st.self, some b)) ∧
      ((∀ c ∈ XMLConfigNode.bodyChildNodes node.children, bodyName c ≠ "") →
        (Load ext node removeDuplicate
          ⟨Model.new entity, world⟩).st.self.canonicalBodyNameP.GetValue ≠ "") := by
    rintro ⟨b, hbodies, hbn, hcan⟩
    have hf : StdMap.find
        (Load ext node removeDuplicate
          ⟨Model.new entity, world⟩).st.self.canonicalBodyNameP.GetValue
        (Load ext node removeDuplicate ⟨Model.new entity, world⟩).st.self.bodies
          = some (some b) := by
      rw [hbodies, hcan]
      simp [StdMap.find]
    exact ⟨⟨b, hf, by rw [hbn, hcan], GetCanonicalBody_of_find _ _ hf⟩,
      fun _ => by rw [hcan]; exact append_body_ne_empty _⟩
  by_cases hphys : node.GetName = "physical"
  · obtain ⟨M, hw, _, hkeys, _, hcase⟩ :=
      Load_physical ext entity world node removeDuplicate bodyName hname hphys hok
    rcases hcase with ⟨_, hd⟩ | ⟨k, v, rest, hM, hev, hcan⟩
    · exact hdefault hd
    · have hnodes : XMLConfigNode.bodyChildNodes node.children ≠ [] := by
        intro hnil
        have := (hkeys k).mp (by rw [hM]; simp [StdMap.keys])
        rw [hnil] at this
        simp at this
      have hin : (Load ext node removeDuplicate
          ⟨Model.new entity, world⟩).st.self.canonicalBodyNameP.GetValue ∈ StdMap.keys M := by
        rw [hcan]
        cases ha : XMLConfigNode.lookup "canonicalBody" node.attrs with
        | none => simp [hM, StdMap.keys]
        | some n =>
          by_cases hn : n = ""
          · simp [hn, hM, StdMap.keys]
          · simp only [hn, if_false]
            exact (hkeys n).mpr (hattr n ha hn hphys hnodes)
      constructor
      · obtain ⟨b, hb, hbn⟩ := (hev.wellNamed hw).find_some (by rw [hev.keys]; exact hin)
        exact ⟨b, hb, hbn, GetCanonicalBody_of_find _ _ hb⟩
      · intro hne
        obtain ⟨c, hc, hck⟩ := List.mem_map.mp ((hkeys _).mp hin)
        rw [← hck]
        exact hne c hc
  · obtain ⟨s4, pose, hb4, htype, _, hbt, heq⟩ :=
      Load_fresh ext entity world node removeDuplicate hok
    rcases byType_ok_cases ext node s4 htype hbt with ⟨hp, _⟩ | ⟨_, hby⟩
    · exact absurd hp hphys
    · refine hdefault ?_
      rw [heq] at hok ⊢
      refine afterType_default ext node pose _ ?_ hok
      rw [hby]; exact hb4

/-- C3, as stated, fails: the node declares the bodies "b" and "a" and the
canonical body "zzz"; `Load` succeeds, the canonical body name is "zzz", no
key of the bodies mapping, and `GetCanonicalBody` returns no body. -/
theorem Load_canonical_in_bodies_counterexample :
    (Load Sample.ext (Sample.robot (some "zzz")) false
      ⟨Model.new Sample.entity, Sample.world⟩).err = none ∧
    (Load Sample.ext (Sample.robot (some "zzz")) false
      ⟨Model.new Sample.entity, Sample.world⟩).st.self.canonicalBodyNameP.GetValue = "zzz" ∧
    StdMap.keys (Load Sample.ext (Sample.robot (some "zzz")) false
      ⟨Model.new Sample.entity, Sample.world⟩).st.self.bodies = ["a", "b"] ∧
    StdMap.find "zzz" (Load Sample.ext (Sample.robot (some "zzz")) false
      ⟨Model.new Sample.entity, Sample.world⟩).st.self.bodies = none ∧
    ((Load Sample.ext (Sample.robot (some "zzz")) false
      ⟨Model.new Sample.entity, Sample.world⟩).st.self.GetCanonicalBody).2 = none := by
  decide

theorem Load_canonical_in_bodies_witness :
    (∃ b : Body,
      StdMap.find
          (Load Sample.ext (Sample.robot (some "b")) false
            ⟨Model.new Sample.entity, Sample.world⟩).st.self.canonicalBodyNameP.GetValue
          (Load Sample.ext (Sample.robot (some "b")) false
            ⟨Model.new Sample.entity, Sample.world⟩).st.self.bodies
        = some (some b) ∧
      b.name = (Load Sample.ext (Sample.robot (some "b")) false
        ⟨Model.new Sample.entity, Sample.world⟩).st.self.canonicalBodyNameP.GetValue ∧
      (Load Sample.ext (Sample.robot (some "b")) false
          ⟨Model.new Sample.entity, Sample.world⟩).st.self.GetCanonicalBody
        = ((Load Sample.ext (Sample.robot (some "b")) false
            ⟨Model.new Sample.entity, Sample.world⟩).st.self, some b)) ∧
    (Load Sample.ext (Sample.robot (some "b")) false
      ⟨Model.new Sample.entity, Sample.world⟩).st.self.canonicalBodyNameP.GetValue ≠ "" :=
  ⟨(Load_canonical_in_bodies Sample.ext Sample.entity Sample.world (Sample.robot (some "b"))
      false Sample.nameOf Sample.bodyLoad_name
      (fun n h _ _ _ => by
        have hn : n = "b" := by
          have h2 : XMLConfigNode.lookup "canonicalBody" (Sample.robot (some "b")).attrs
              = some "b" := by decide
          rw [h2] at h
          exact (Option.some.inj h).symm
        rw [hn]; decide)
      (by decide)).1,
   (Load_canonical_in_bodies Sample.ext Sample.entity Sample.world (Sample.robot (some "b"))
      false Sample.nameOf Sample.bodyLoad_name
      (fun n h _ _ _ => by
        have hn : n = "b" := by
          have h2 : XMLConfigNode.lookup "canonicalBody" (Sample.robot (some "b")).attrs
              = some "b" := by decide
          rw [h2] at h
          exact (Option.some.inj h).symm
        rw [hn]; decide)
      (by decide)).2 (by decide)⟩

end Model

/-! ## The walks over child nodes -/

namespace XMLConfigNode

theorem walkByNSPrefix_eq_filter (p : String) :
    ∀ (cs : List XMLConfigNode) (fuel : Nat), cs.length ≤ fuel →
      walkByNSPrefix p fuel (firstByNSPrefix p cs) = cs.filter (fun c => c.GetNSPrefix = p)
  | [], fuel, _ => by cases fuel <;> simp [firstByNSPrefix, walkByNSPrefix]
  | c :: rest, fuel, h => by
    simp only [List.length_cons] at h
    by_cases hc : c.GetNSPrefix = p
    · obtain ⟨m, rfl⟩ : ∃ m, fuel = m + 1 := ⟨fuel - 1, by omega⟩
      simp only [firstByNSPrefix, hc, if_true, walkByNSPrefix, GetNextByNSPrefix,
        List.filter_cons, decide_True]
      rw [walkByNSPrefix_eq_filter p rest m (by omega)]
    · simp only [firstByNSPrefix, hc, if_false, List.filter_cons, decide_False]
      exact walkByNSPrefix_eq_filter p rest fuel (by omega)

/-- The first/next walk by namespace prefix from the first child visits the
children with that prefix, in document order: every round moves on by at least
one sibling, so as many rounds as there are children suffice. -/
theorem childrenByNSPrefix_eq_walk (p : String) (node : XMLConfigNode) :
    node.childrenByNSPrefix p
      = walkByNSPrefix p node.children.length (node.GetChildByNSPrefix p) := by
  unfold childrenByNSPrefix GetChildByNSPrefix
  exact (walkByNSPrefix_eq_filter p node.children _ (Nat.le_refl _)).symm

theorem firstByNSPrefix_isSome (p : String) (cs : List XMLConfigNode) :
    (firstByNSPrefix p cs).isSome = cs.any (fun d => d.GetNSPrefix = p) := by
  induction cs with
  | nil => rfl
  | cons c rest ih =>
    by_cases hc : c.GetNSPrefix = p
    · simp [firstByNSPrefix, hc]
    · simp [firstByNSPrefix, hc, ih]

theorem walkBodies_eq (cs : List XMLConfigNode) :
    ∀ (fuel : Nat), cs.length ≤ fuel →
      walkBodies fuel
          (if (firstByNSPrefix "body" cs).isSome then firstByNSPrefix "body" cs
           else firstByName "body" cs)
        = bodyChildNodes cs := by
  induction cs with
  | nil => intro fuel _; cases fuel <;> simp [firstByNSPrefix, firstByName, walkBodies, bodyChildNodes]
  | cons c rest ih =>
    intro fuel h
    simp only [List.length_cons] at h
    by_cases hc : c.GetNSPrefix = "body"
    · obtain ⟨m, rfl⟩ : ∃ m, fuel = m + 1 := ⟨fuel - 1, by omega⟩
      simp only [firstByNSPrefix, hc, if_true, Option.isSome_some, walkBodies, bodyChildNodes,
        GetNextByNSPrefix, GetNext]
      rw [ih m (by omega)]
    · by_cases hany : rest.any (fun d => d.GetNSPrefix = "body") = true
      · have hs : (firstByNSPrefix "body" rest).isSome = true := by
          rw [firstByNSPrefix_isSome]; exact hany
        have := ih fuel (by omega)
        rw [if_pos hs] at this
        simp only [firstByNSPrefix, hc, if_false, hs, if_true, bodyChildNodes, hany]
        exact this
      · have hs : (firstByNSPrefix "body" rest).isSome = false := by
          rw [firstByNSPrefix_isSome]; simpa using hany
        by_cases hn : c.GetName = "body"
        · obtain ⟨m, rfl⟩ : ∃ m, fuel = m + 1 := ⟨fuel - 1, by omega⟩
          have := ih m (by omega)
          rw [hs] at this
          simp only [firstByNSPrefix, hc, if_false, hs, firstByName, hn, if_true, walkBodies,
            bodyChildNodes, hany, GetNextByNSPrefix, GetNext, Bool.false_eq_true]
          simpa using this
        · have := ih fuel (by omega)
          rw [hs] at this
          simp only [firstByNSPrefix, hc, if_false, hs, firstByName, hn, bodyChildNodes, hany,
            Bool.false_eq_true]
          simpa using this

/-- The walk of `Model::LoadPhysical` over the body nodes, from
`GetChildByNSPrefix("body")` or else `GetChild("body")`, visits the nodes of
`bodyChildNodes`, in order; as many rounds as there are children suffice. -/
theorem bodyChildNodes_eq_walk (node : XMLConfigNode) :
    bodyChildNodes node.children
      = walkBodies node.children.length
          (if (node.GetChildByNSPrefix "body").isSome then node.GetChildByNSPrefix "body"
           else node.GetChild "body") := by
  unfold GetChildByNSPrefix GetChild
  exact (walkBodies_eq node.children _ (Nat.le_refl _)).symm

end XMLConfigNode

/-! ## Joints by index -/

namespace Model

theorem GetJoint_eq (m : gazebo.Model) (i : Nat) :
    m.GetJoint i = match m.joints[i]? with
      | some j => .ok j
      | none => .error (gzthrow 714 ("Invalid joint index[" ++ toString i ++ "]\n")) := by
  unfold GetJoint
  split
  · rename_i h
    rw [List.getElem?_eq_none (by simpa using h)]
  · rename_i h
    rw [List.getElem?_eq_getElem (Nat.lt_of_not_le h)]
    rfl

/-- C18: on a model whose joints are few enough for `unsigned int`,
`GetJoint(i)` raises a `GazeboError` exactly when `i >= GetJointCount()`, the
error of line 714 of Model.cc that names the index, and otherwise returns the
joint at position `i` of the joints; `GetJointCount()` is the number of joints;
a `LoadJoint` that succeeds registers its joint at the next index and leaves
the joints at the earlier indices, one that fails leaves every index as it was.
`GetJoint` is a function of the model alone and hands back no model: a lookup
changes nothing. -/
theorem GetJoint_by_index (ext : Externals) (s : St) (i : Nat)
    (hsize : s.self.joints.length < 2 ^ 32) :
    ((∃ e, s.self.GetJoint i = .error e) ↔ i ≥ s.self.GetJointCount) ∧
    (i ≥ s.self.GetJointCount → s.self.GetJoint i
      = .error (gzthrow 714 ("Invalid joint index[" ++ toString i ++ "]\n"))) ∧
    (∀ h : i < s.self.joints.length, s.self.GetJoint i = .ok (s.self.joints.get ⟨i, h⟩)) ∧
    s.self.GetJointCount = s.self.joints.length ∧
    (∀ node : Option XMLConfigNode,
      ((LoadJoint ext node s).err = none →
        (∃ j, (LoadJoint ext node s).st.self.GetJoint s.self.joints.length = .ok j) ∧
        (i < s.self.GetJointCount →
          (LoadJoint ext node s).st.self.GetJoint i = s.self.GetJoint i)) ∧
      ((LoadJoint ext node s).err ≠ none →
        (LoadJoint ext node s).st.self.GetJoint i = s.self.GetJoint i)) := by
  have hcount : s.self.GetJointCount = s.self.joints.length := by
    rw [GetJointCount, Nat.mod_eq_of_lt hsize]
  simp only [hcount]
  refine ⟨?_, ?_, ?_, trivial, ?_⟩
  · rw [GetJoint_eq]
    constructor
    · rintro ⟨e, he⟩
      by_contra hlt
      rw [List.getElem?_eq_getElem (Nat.lt_of_not_le hlt)] at he
      cases he
    · intro h
      rw [List.getElem?_eq_none h]
      exact ⟨_, rfl⟩
  · intro h
    rw [GetJoint_eq, List.getElem?_eq_none h]
  · intro h
    rw [GetJoint_eq, List.getElem?_eq_getElem h]
    rfl
  · intro node
    rcases LoadJoint_joints ext node s with ⟨hok, j, hj, _⟩ | ⟨⟨e, he⟩, hj⟩
    · refine ⟨fun _ => ⟨⟨j, ?_⟩, fun hi => ?_⟩, fun h => absurd hok h⟩
      · rw [GetJoint_eq, hj]
        simp
      · rw [GetJoint_eq, GetJoint_eq, hj, List.getElem?_append_left hi]
    · refine ⟨fun h => ?_, fun _ => ?_⟩
      · rw [he] at h; cases h
      · rw [GetJoint_eq, GetJoint_eq, hj]

theorem GetJoint_by_index_witness :
    (LoadJoint Sample.ext (some (Sample.leaf "joint" "hinge" "j")) Sample.st).st.self.joints.length
        < 2 ^ 32 ∧
    (LoadJoint Sample.ext (some (Sample.leaf "joint" "hinge" "j")) Sample.st).st.self.GetJoint 1
      = .error (gzthrow 714 "Invalid joint index[1]\n") ∧
    (LoadJoint Sample.ext (some (Sample.leaf "joint" "hinge" "j")) Sample.st).st.self.GetJointCount
      = 1 :=
  ⟨by decide,
   (GetJoint_by_index Sample.ext
      (LoadJoint Sample.ext (some (Sample.leaf "joint" "hinge" "j")) Sample.st).st 1
      (by decide)).2.1 (by decide),
   (GetJoint_by_index Sample.ext
      (LoadJoint Sample.ext (some (Sample.leaf "joint" "hinge" "j")) Sample.st).st 1
      (by decide)).2.2.2.1⟩

end Model

/-! ## Reset -/

namespace Model

theorem resetControllers_ok (ext : Externals) (m : StdMap (Option Controller))
    (h : ∀ e ∈ m, e.2 ≠ none) :
    (resetControllers ext m).2.2 = none ∧
    (resetControllers ext m).2.1 = m.map (fun e => Event.controllerReset e.1) ∧
    (resetControllers ext m).1 = m.map (fun e => (e.1, e.2.map ext.ControllerReset)) := by
  induction m with
  | nil => simp [resetControllers]
  | cons x rest ih =>
    obtain ⟨k, oc⟩ := x
    cases oc with
    | none => exact absurd rfl (h (k, none) (List.mem_cons_self _ _))
    | some c =>
      have := ih (fun e he => h e (List.mem_cons_of_mem _ he))
      simp [resetControllers, this]

theorem resetBodies_ok (m : StdMap (Option Body)) (h : ∀ e ∈ m, e.2 ≠ none) :
    (resetBodies ⟨0, 0, 0⟩ m).2.2 = none ∧
    (resetBodies ⟨0, 0, 0⟩ m).2.1 = (m.map (fun e => Reset.calls e.1)).flatten ∧
    (resetBodies ⟨0, 0, 0⟩ m).1 = m.map (fun e => (e.1, e.2.map (fun b =>
      { b with linearVel := ⟨0, 0, 0⟩, angularVel := ⟨0, 0, 0⟩, force := ⟨0, 0, 0⟩,
               torque := ⟨0, 0, 0⟩ }))) := by
  induction m with
  | nil => simp [resetBodies]
  | cons x rest ih =>
    obtain ⟨k, ob⟩ := x
    cases ob with
    | none => exact absurd rfl (h (k, none) (List.mem_cons_self _ _))
    | some b =>
      have := ih (fun e he => h e (List.mem_cons_of_mem _ he))
      simp [resetBodies, this, Reset.calls, BodyCall.apply]

/-- On a model whose bodies and controllers maps hold no NULL, `Model::Reset`
returns; the calls it makes are, in this order, `Reset()` on
every controller, `Reset()` on every joint, and then on every body in turn
`SetLinearVel`, `SetAngularVel`, `SetForce` and `SetTorque` with the vector
(0,0,0); afterwards the bodies map has the keys it had and every body in it
has linear velocity, angular velocity, force and torque (0,0,0), whatever
they were before. -/
theorem Reset_zeroes_bodies (ext : Externals) (s : St)
    (hc : ∀ e ∈ s.self.controllers, e.2 ≠ none) (hb : ∀ e ∈ s.self.bodies, e.2 ≠ none) :
    (Reset ext s).err = none ∧
    (Reset ext s).st.world.log
      = s.world.log ++ s.self.controllers.map (fun e => Event.controllerReset e.1)
        ++ s.self.joints.map Event.jointReset
        ++ (s.self.bodies.map (fun e => Reset.calls e.1)).flatten ∧
    StdMap.keys (Reset ext s).st.self.bodies = StdMap.keys s.self.bodies ∧
    (∀ e ∈ (Reset ext s).st.self.bodies, ∃ b, e.2 = some b ∧ b.linearVel = ⟨0, 0, 0⟩ ∧
      b.angularVel = ⟨0, 0, 0⟩ ∧ b.force = ⟨0, 0, 0⟩ ∧ b.torque = ⟨0, 0, 0⟩) := by
  obtain ⟨hc1, hc2, hc3⟩ := resetControllers_ok ext s.self.controllers hc
  obtain ⟨hb1, hb2, hb3⟩ := resetBodies_ok s.self.bodies hb
  have hrun : Reset ext s = ⟨⟨{ s.self with
        controllers := (resetControllers ext s.self.controllers).1
        joints := s.self.joints.map ext.JointReset
        bodies := (resetBodies ⟨0, 0, 0⟩ s.self.bodies).1 },
      { s.world with log := s.world.log ++ (resetControllers ext s.self.controllers).2.1
          ++ s.self.joints.map Event.jointReset
          ++ (resetBodies ⟨0, 0, 0⟩ s.self.bodies).2.1 }⟩, none⟩ := by
    simp [Reset, Reset.controllers, Reset.joints, Reset.bodies, Outcome.andThen, Outcome.ok,
      hc1, hb1]
  rw [hrun]
  refine ⟨rfl, ?_, ?_, ?_⟩
  · simp only [hc2, hb2]
  · simp only [hb3, StdMap.keys, List.map_map]
    rfl
  · intro e he
    simp only [hb3, List.mem_map] at he
    obtain ⟨e0, he0, rfl⟩ := he
    cases h0 : e0.2 with
    | none => exact absurd h0 (hb e0 he0)
    | some b =>
      exact ⟨{ b with linearVel := ⟨0, 0, 0⟩, angularVel := ⟨0, 0, 0⟩, force := ⟨0, 0, 0⟩,
                      torque := ⟨0, 0, 0⟩ }, by simp [h0], rfl, rfl, rfl, rfl⟩

theorem Reset_zeroes_bodies_witness :
    (∀ e ∈ Sample.loaded.self.controllers, e.2 ≠ none) ∧
    (∀ e ∈ Sample.loaded.self.bodies, e.2 ≠ none) ∧
    (Reset Sample.ext Sample.loaded).err = none ∧
    StdMap.keys (Reset Sample.ext Sample.loaded).st.self.bodies = ["a", "b"] :=
  ⟨by decide, by decide,
   (Reset_zeroes_bodies Sample.ext Sample.loaded (by decide) (by decide)).1,
   (Reset_zeroes_bodies Sample.ext Sample.loaded (by decide) (by decide)).2.2.1⟩

end Model

/-! ## Update -/

namespace Model

theorem updateBodies_eq (ext : Externals) (m : StdMap (Option Body)) :
    updateBodies ext m = (m.map (fun e => (e.1, e.2.map ext.BodyUpdate)),
      (m.filter (fun e => e.2.isSome)).map (fun e => Event.bodyUpdate e.1)) := by
  induction m with
  | nil => rfl
  | cons x rest ih =>
    obtain ⟨k, ob⟩ := x
    cases ob <;> simp [updateBodies, ih]

theorem updateControllers_eq (ext : Externals) (m : StdMap (Option Controller)) :
    updateControllers ext m = (m.map (fun e => (e.1, e.2.map ext.ControllerUpdate)),
      (m.filter (fun e => e.2.isSome)).map (fun e => Event.controllerUpdate e.1)) := by
  induction m with
  | nil => rfl
  | cons x rest ih =>
    obtain ⟨k, oc⟩ := x
    cases oc <;> simp [updateControllers, ih]

theorem StdMap.find_map {β : Type} (f : β → β) (k : String) (m : StdMap β) :
    StdMap.find k (m.map (fun e => (e.1, f e.2))) = (StdMap.find k m).map f := by
  induction m with
  | nil => rfl
  | cons x rest ih =>
    obtain ⟨k1, v1⟩ := x
    simp only [List.map_cons, StdMap.find]
    split
    · rfl
    · exact ih

/-- The state of `Model::Update` after its two loops. -/
theorem Update_loops (ext : Externals) (s : St) :
    Update.controllers ext (Update.bodies ext s)
      = ⟨{ s.self with
            bodies := s.self.bodies.map (fun e => (e.1, e.2.map ext.BodyUpdate))
            controllers := s.self.controllers.map (fun e => (e.1, e.2.map ext.ControllerUpdate)) },
         { s.world with
            log := (s.world.log
              ++ (s.self.bodies.filter (fun e => e.2.isSome)).map (fun e => Event.bodyUpdate e.1)
              ++ (s.self.controllers.filter (fun e => e.2.isSome)).map
                  (fun e => Event.controllerUpdate e.1)) }⟩ := by
  simp [Update.controllers, Update.bodies, updateBodies_eq, updateControllers_eq]

theorem Update_pose_log (s : St) :
    ∃ tail, (Update.pose s).st.world.log = s.world.log ++ tail ∧
      (∀ e ∈ tail, ∃ p, e = Event.setAbsPose p) ∧
      (Update.pose s).st.self.controllers = s.self.controllers ∧
      (Update.pose s).st.self.bodies
        = if s.self.canonicalBodyNameP.GetValue = "" then s.self.bodies
          else (StdMap.index s.self.canonicalBodyNameP.GetValue s.self.bodies).1 := by
  unfold Update.pose
  repeat' (first | split | dsimp only)
  · exact ⟨[], by simp, by simp, rfl, rfl⟩
  · exact ⟨[], by simp, by simp, rfl, rfl⟩
  · rename_i b _
    exact ⟨[.setAbsPose b.absPose], by simp [SetAbsPose], by simp, rfl, rfl⟩

theorem Update_run (ext : Externals) (s : St)
    (hrun : ¬(s.self.controllers = [] ∧ s.self.IsStatic = true)) :
    Update ext s
      = (Update.pose (Update.controllers ext (Update.bodies ext s))).andThen Update.child := by
  unfold Update
  rw [if_neg]
  simpa using hrun

/-- C13: `Model::Update` returns without having made any call (no body update,
no controller update, no `SetAbsPose`, no `UpdateChild`) exactly when the
controllers map is empty and the model is static, and then the state is as it
was.  In every other case the calls it makes are `Update()` on each body that
is not NULL, once each in the order of the map, then `Update()` on each
controller that is not NULL, once each, then nothing but at most one
`SetAbsPose` and, when it returns, `UpdateChild`; every controller stored is
the controller after one `Update()` and every body stored the body after one
`Update()`, the read `bodies[canonical body name]` having added its key with
NULL if the map lacked it. -/
theorem Update_skips_iff (ext : Externals) (s : St) :
    (((Update ext s).err = none ∧ (Update ext s).st.world.log = s.world.log) ↔
      (s.self.controllers = [] ∧ s.self.IsStatic = true)) ∧
    ((s.self.controllers = [] ∧ s.self.IsStatic = true) → Update ext s = .ok s) ∧
    (¬(s.self.controllers = [] ∧ s.self.IsStatic = true) →
      (∃ tail, (Update ext s).st.world.log = s.world.log
          ++ (s.self.bodies.filter (fun e => e.2.isSome)).map (fun e => Event.bodyUpdate e.1)
          ++ (s.self.controllers.filter (fun e => e.2.isSome)).map
              (fun e => Event.controllerUpdate e.1)
          ++ tail ∧
        (∀ e ∈ tail, e = Event.updateChild ∨ ∃ p, e = Event.setAbsPose p) ∧
        ((Update ext s).err = none → Event.updateChild ∈ tail)) ∧
      (Update ext s).st.self.controllers
        = s.self.controllers.map (fun e => (e.1, e.2.map ext.ControllerUpdate)) ∧
      (Update ext s).st.self.bodies
        = if s.self.canonicalBodyNameP.GetValue = ""
          then s.self.bodies.map (fun e => (e.1, e.2.map ext.BodyUpdate))
          else (StdMap.index s.self.canonicalBodyNameP.GetValue
            (s.self.bodies.map (fun e => (e.1, e.2.map ext.BodyUpdate)))).1) := by
  have hskip : (s.self.controllers = [] ∧ s.self.IsStatic = true) → Update ext s = .ok s := by
    intro h
    unfold Update
    rw [if_pos]
    simpa using h
  have hrun : ¬(s.self.controllers = [] ∧ s.self.IsStatic = true) →
      (∃ tail, (Update ext s).st.world.log = s.world.log
          ++ (s.self.bodies.filter (fun e => e.2.isSome)).map (fun e => Event.bodyUpdate e.1)
          ++ (s.self.controllers.filter (fun e => e.2.isSome)).map
              (fun e => Event.controllerUpdate e.1)
          ++ tail ∧
        (∀ e ∈ tail, e = Event.updateChild ∨ ∃ p, e = Event.setAbsPose p) ∧
        ((Update ext s).err = none → Event.updateChild ∈ tail)) ∧
      (Update ext s).st.self.controllers
        = s.self.controllers.map (fun e => (e.1, e.2.map ext.ControllerUpdate)) ∧
      (Update ext s).st.self.bodies
        = if s.self.canonicalBodyNameP.GetValue = ""
          then s.self.bodies.map (fun e => (e.1, e.2.map ext.BodyUpdate))
          else (StdMap.index s.self.canonicalBodyNameP.GetValue
            (s.self.bodies.map (fun e => (e.1, e.2.map ext.BodyUpdate)))).1 := by
    intro h
    rw [Update_run ext s h]
    obtain ⟨tail, hlog, htail, hctl, hbod⟩ :=
      Update_pose_log (Update.controllers ext (Update.bodies ext s))
    have hb2 : (Update.controllers ext (Update.bodies ext s)).self.bodies
        = s.self.bodies.map (fun e => (e.1, e.2.map ext.BodyUpdate)) := by
      rw [Update_loops]
    have hn2 : (Update.controllers ext (Update.bodies ext s)).self.canonicalBodyNameP
        = s.self.canonicalBodyNameP := by
      rw [Update_loops]
    rw [hb2, hn2] at hbod
    have hl2 : (Update.controllers ext (Update.bodies ext s)).world.log = s.world.log
          ++ (s.self.bodies.filter (fun e => e.2.isSome)).map (fun e => Event.bodyUpdate e.1)
          ++ (s.self.controllers.filter (fun e => e.2.isSome)).map
              (fun e => Event.controllerUpdate e.1) := by
      rw [Update_loops]
    have hc2 : (Update.controllers ext (Update.bodies ext s)).self.controllers
        = s.self.controllers.map (fun e => (e.1, e.2.map ext.ControllerUpdate)) := by
      rw [Update_loops]
    rw [hl2] at hlog
    rw [hc2] at hctl
    cases herr : (Update.pose (Update.controllers ext (Update.bodies ext s))).err with
    | none =>
      rw [Outcome.andThen_of_ok herr]
      refine ⟨⟨tail ++ [.updateChild], ?_, ?_, fun _ => by simp⟩, ?_⟩
      · simp only [Update.child, Outcome.ok_st, St.record_log, hlog, List.append_assoc]
      · intro e he
        rcases List.mem_append.mp he with h1 | h1
        · exact Or.inr (htail e h1)
        · exact Or.inl (by simpa using h1)
      · exact ⟨by simpa [Update.child] using hctl, by simpa [Update.child] using hbod⟩
    | some f =>
      rw [Outcome.andThen_of_err herr]
      refine ⟨⟨tail, hlog, fun e he => Or.inr (htail e he), fun h => ?_⟩, hctl, hbod⟩
      rw [herr] at h
      cases h
  refine ⟨⟨fun h => ?_, fun h => ?_⟩, hskip, hrun⟩
  · by_contra hn
    obtain ⟨⟨tail, hlog, _, hchild⟩, _, _⟩ := hrun hn
    have hmem := hchild h.1
    rw [h.2] at hlog
    have hnil : tail = [] := by
      have := congrArg List.length hlog
      simp only [List.length_append] at this
      exact List.eq_nil_of_length_eq_zero (by omega)
    rw [hnil] at hmem
    cases hmem
  · rw [hskip h]
    exact ⟨rfl, rfl⟩

theorem Update_skips_iff_witness :
    Update Sample.ext Sample.still = .ok Sample.still ∧
    (Update Sample.ext Sample.loaded).st.self.controllers
      = Sample.loaded.self.controllers.map (fun e => (e.1, e.2.map Sample.ext.ControllerUpdate)) :=
  ⟨(Update_skips_iff Sample.ext Sample.still).2.1 ⟨by decide, by decide⟩,
   ((Update_skips_iff Sample.ext Sample.loaded).2.2 (by decide)).2.1⟩

/-- The order of a `Model::Update`, compiled without thread pool, that is not
skipped: with an empty canonical body name it returns after `Update()` on the bodies,
then `Update()` on the controllers, then `UpdateChild`, and the absolute pose
of the model is as before; with a canonical body name under which the map
holds a body it returns after `Update()` on the bodies, then `Update()` on the
controllers, then `SetAbsPose` with the absolute pose that body has after its
update, then `UpdateChild`, and that pose is the absolute pose of the model;
with a canonical body name under which the map holds no body the read
`bodies[name]` yields NULL, which is dereferenced. -/
theorem Update_order (ext : Externals) (s : St)
    (hrun : ¬(s.self.controllers = [] ∧ s.self.IsStatic = true)) :
    (s.self.canonicalBodyNameP.GetValue = "" →
      Update ext s = .ok ⟨{ s.self with
          bodies := s.self.bodies.map (fun e => (e.1, e.2.map ext.BodyUpdate))
          controllers := s.self.controllers.map (fun e => (e.1, e.2.map ext.ControllerUpdate)) },
        { s.world with
          log := (s.world.log
            ++ (s.self.bodies.filter (fun e => e.2.isSome)).map (fun e => Event.bodyUpdate e.1)
            ++ (s.self.controllers.filter (fun e => e.2.isSome)).map
                (fun e => Event.controllerUpdate e.1)
            ++ [.updateChild]) }⟩) ∧
    (∀ b, s.self.canonicalBodyNameP.GetValue ≠ "" →
      StdMap.find s.self.canonicalBodyNameP.GetValue s.self.bodies = some (some b) →
      Update ext s = .ok ⟨{ s.self with
          absPose := (ext.BodyUpdate b).absPose
          bodies := s.self.bodies.map (fun e => (e.1, e.2.map ext.BodyUpdate))
          controllers := s.self.controllers.map (fun e => (e.1, e.2.map ext.ControllerUpdate)) },
        { s.world with
          log := (s.world.log
            ++ (s.self.bodies.filter (fun e => e.2.isSome)).map (fun e => Event.bodyUpdate e.1)
            ++ (s.self.controllers.filter (fun e => e.2.isSome)).map
                (fun e => Event.controllerUpdate e.1)
            ++ [.setAbsPose (ext.BodyUpdate b).absPose, .updateChild]) }⟩) ∧
    (s.self.canonicalBodyNameP.GetValue ≠ "" →
      (StdMap.find s.self.canonicalBodyNameP.GetValue s.self.bodies = none ∨
        StdMap.find s.self.canonicalBodyNameP.GetValue s.self.bodies = some none) →
      (Update ext s).err = some .nullDeref ∧
      (Update ext s).st.self.absPose = s.self.absPose ∧
      (Update ext s).st.world.log = s.world.log
        ++ (s.self.bodies.filter (fun e => e.2.isSome)).map (fun e => Event.bodyUpdate e.1)
        ++ (s.self.controllers.filter (fun e => e.2.isSome)).map
            (fun e => Event.controllerUpdate e.1)) := by
  rw [Update_run ext s hrun, Update_loops]
  refine ⟨fun h => ?_, fun b hne hfind => ?_, fun hne hfind => ?_⟩
  · simp [Update.pose, h, Outcome.andThen, Outcome.ok, Update.child, St.record]
  · have hidx : StdMap.index s.self.canonicalBodyNameP.GetValue
        (s.self.bodies.map (fun e => (e.1, e.2.map ext.BodyUpdate)))
        = (s.self.bodies.map (fun e => (e.1, e.2.map ext.BodyUpdate)),
            some (ext.BodyUpdate b)) := by
      unfold StdMap.index
      rw [StdMap.find_map, hfind]
      rfl
    simp [Update.pose, hne, hidx, Outcome.andThen, Outcome.ok, Update.child, St.record,
      SetAbsPose, St.setSelf]
  · have hidx : (StdMap.index s.self.canonicalBodyNameP.GetValue
        (s.self.bodies.map (fun e => (e.1, e.2.map ext.BodyUpdate)))).2 = none := by
      unfold StdMap.index
      rw [StdMap.find_map]
      rcases hfind with h | h <;> rw [h] <;> rfl
    simp [Update.pose, hne, hidx, Outcome.andThen, St.setSelf]

theorem Update_order_witness :
    (Update Sample.ext Sample.loaded).st.self.absPose = ⟨⟨1, 0, 0⟩, ⟨1, 0, 0, 0⟩⟩ ∧
    (Update Sample.ext Sample.loaded).st.world.log
      = Sample.loaded.world.log ++ [.bodyUpdate "a", .bodyUpdate "b", .controllerUpdate "c",
          .setAbsPose ⟨⟨1, 0, 0⟩, ⟨1, 0, 0, 0⟩⟩, .updateChild] := by
  have h := (Update_order Sample.ext Sample.loaded (by decide)).2.1
    { Sample.body with name := "a" } (by decide) (by decide)
  rw [h]
  exact ⟨by decide, by decide⟩

end Model

/-! ## Attach -/

namespace Model

theorem Attach_parameters_spec (node : Option XMLConfigNode) (s : St) :
    ∃ pre, (∀ e ∈ pre, ∃ k, e = Event.paramLoad k) ∧
      (Attach.parameters node s).st.world.log = s.world.log ++ pre ∧
      (node = none → pre = []) ∧
      (Attach.parameters node s).st.self.bodies = s.self.bodies ∧
      (Attach.parameters node s).st.self.canonicalBodyNameP = s.self.canonicalBodyNameP ∧
      (Attach.parameters node s).st.self.joint = s.self.joint ∧
      ((Attach.parameters node s).err = none →
        ∃ p my, (Attach.parameters node s).st.self.parentBodyNameP = some p ∧
          (Attach.parameters node s).st.self.myBodyNameP = some my ∧
          (node = none → p = ParamT.new "parentBody" "canonical" true ∧
            my = ParamT.new "myBody" s.self.canonicalBodyNameP.GetValue true)) := by
  unfold Attach.parameters Attach.loadParentBody Attach.loadMyBody Outcome.andThen
  repeat' (first | split | dsimp only)
  all_goals simp_all

theorem GetBody_congr (m m2 : gazebo.Model) (name : String) (hb : m2.bodies = m.bodies)
    (hc : m2.canonicalBodyNameP = m.canonicalBodyNameP) :
    (m2.GetBody name).2 = (m.GetBody name).2 ∧
    (m2.GetBody name).1.bodies = (m.GetBody name).1.bodies := by
  unfold GetBody GetCanonicalBody
  rw [hb, hc]
  repeat' (first | split | dsimp only)
  all_goals simp_all

theorem Attach_connect_spec (parent : gazebo.Model) (s : St) (p my : ParamT String)
    (hp : s.self.parentBodyNameP = some p) (hmy : s.self.myBodyNameP = some my) :
    (Attach.connect parent s).1.st.self.joint = s.self.joint ∧
    (Attach.connect parent s).2 = some (parent.GetBody p.GetValue).1 ∧
    ((s.self.GetBody my.GetValue).2 = none →
      (Attach.connect parent s).1.err
          = some (.thrown (gzthrow 932 "No canonical body set.")) ∧
        (Attach.connect parent s).1.st.world.log = s.world.log) ∧
    (∀ myBody, (s.self.GetBody my.GetValue).2 = some myBody →
      (parent.GetBody p.GetValue).2 = none →
      (Attach.connect parent s).1.err
          = some (.thrown (gzthrow 935 "Parent has no canonical body")) ∧
        (Attach.connect parent s).1.st.world.log = s.world.log) ∧
    (∀ myBody pBody, (s.self.GetBody my.GetValue).2 = some myBody →
      (parent.GetBody p.GetValue).2 = some pBody →
      (Attach.connect parent s).1.err = none ∧
        (Attach.connect parent s).1.st.world.log = s.world.log ++
          [.joint (.Attach myBody pBody),
           .joint (.SetAnchor 0 myBody.absPose.pos), .joint (.SetAxis 0 ⟨0, 1, 0⟩),
           .joint (.SetHighStop 0 0), .joint (.SetLowStop 0 0)]) := by
  have hj : ∀ n, (s.self.GetBody n).1.joint = s.self.joint := by
    intro n
    unfold GetBody GetCanonicalBody
    repeat' (first | split | dsimp only)
  simp only [Attach.connect, hp, hmy]
  refine ⟨?_, ?_, ?_, ?_, ?_⟩
  · repeat' (first | split | dsimp only)
    all_goals simp [hj]
  · repeat' (first | split | dsimp only)
  · intro h
    simp [h]
  · intro myBody h1 h2
    simp [h1, h2]
  · intro myBody pBody h1 h2
    simp [h1, h2, Attach.calls, Outcome.ok]

theorem Attach_create_spec (s : St) :
    (Attach.create s).self.joint = some ⟨.HINGE, "", none⟩ ∧
    (Attach.create s).world.log = s.world.log ++ [.createJoint .HINGE] ∧
    (Attach.create s).self.bodies = s.self.bodies ∧
    (Attach.create s).self.canonicalBodyNameP = s.self.canonicalBodyNameP ∧
    (Attach.create s).self.parentBodyNameP = s.self.parentBodyNameP ∧
    (Attach.create s).self.myBodyNameP = s.self.myBodyNameP :=
  ⟨rfl, rfl, rfl, rfl, rfl, rfl⟩

/-- The body a model finds under a name after `Attach.parameters` and
`Attach.create` is the body it found before. -/
theorem Attach_GetBody (node : Option XMLConfigNode) (s : St) (name : String) :
    ((Attach.create (Attach.parameters node s).st).self.GetBody name).2
      = (s.self.GetBody name).2 := by
  obtain ⟨_, _, _, _, hb, hc, _, _⟩ := Attach_parameters_spec node s
  exact (GetBody_congr s.self _ name
    (((Attach_create_spec _).2.2.1).trans hb) (((Attach_create_spec _).2.2.2.1).trans hc)).1

/-- C11, as stated, fails: the sample model, attached without node to a parent
model that has no body at all, fails with "Parent has no canonical body", and
at that point the hinge joint has been created through the physics engine and
is stored as the attachment joint. -/
theorem Attach_parent_without_body_counterexample :
    ((Model.new Sample.entity).GetBody "canonical").2 = none ∧
    (Attach none (some (Model.new Sample.entity)) Sample.loaded).1.err
      = some (.thrown (gzthrow 935 "Parent has no canonical body")) ∧
    (Attach none (some (Model.new Sample.entity)) Sample.loaded).1.st.self.joint
      = some ⟨.HINGE, "", none⟩ ∧
    Sample.loaded.self.joint = none ∧
    (Attach none (some (Model.new Sample.entity)) Sample.loaded).1.st.world.log
      = Sample.loaded.world.log ++ [.createJoint .HINGE] := by
  decide

/-- C11: let the parent model find no body under the parent body name.  When
the two parameters of `Attach` load (no node given, or a node that has both
required attributes), `Attach` fails with "No canonical body set." if the model
finds no body of its own, else with "Parent has no canonical body"; by then
the hinge joint has been created through the physics engine and is stored as
the attachment joint, and the calls made are the parameter loads followed by
that creation alone: no call was made on the joint.  When a parameter fails to
load, `Attach` fails with that failure before any joint is created. -/
theorem Attach_parent_without_body (node : Option XMLConfigNode) (parent : gazebo.Model)
    (s : St)
    (hparent : ∀ p, (Attach.parameters node s).st.self.parentBodyNameP = some p →
      (parent.GetBody p.GetValue).2 = none) :
    ((Attach.parameters node s).err = none →
      (∃ my, (Attach.parameters node s).st.self.myBodyNameP = some my ∧
        ((s.self.GetBody my.GetValue).2 = none →
          (Attach node (some parent) s).1.err
            = some (.thrown (gzthrow 932 "No canonical body set."))) ∧
        ((s.self.GetBody my.GetValue).2 ≠ none →
          (Attach node (some parent) s).1.err
            = some (.thrown (gzthrow 935 "Parent has no canonical body")))) ∧
      (Attach node (some parent) s).1.st.self.joint = some ⟨.HINGE, "", none⟩ ∧
      (∃ pre, (∀ e ∈ pre, ∃ k, e = Event.paramLoad k) ∧
        (Attach node (some parent) s).1.st.world.log
          = s.world.log ++ pre ++ [.createJoint .HINGE])) ∧
    (∀ f, (Attach.parameters node s).err = some f →
      (Attach node (some parent) s).1.err = some f ∧
      (Attach node (some parent) s).1.st.self.joint = s.self.joint ∧
      ∃ pre, (∀ e ∈ pre, ∃ k, e = Event.paramLoad k) ∧
        (Attach node (some parent) s).1.st.world.log = s.world.log ++ pre) := by
  obtain ⟨pre, hpre, hlog, _, _, _, hj0, hnames⟩ := Attach_parameters_spec node s
  constructor
  · intro hok
    obtain ⟨p, my, hp, hmy, _⟩ := hnames hok
    have hrun : Attach node (some parent) s
        = Attach.connect parent (Attach.create (Attach.parameters node s).st) := by
      simp [Attach, hok, Attach.join]
    obtain ⟨hjoint, _, hnone, hsome, _⟩ :=
      Attach_connect_spec parent (Attach.create (Attach.parameters node s).st) p my hp hmy
    rw [Attach_GetBody] at hnone hsome
    rw [hrun]
    refine ⟨⟨my, hmy, fun h => (hnone h).1, fun h => ?_⟩, hjoint, pre, hpre, ?_⟩
    · cases hb : (s.self.GetBody my.GetValue).2 with
      | none => exact absurd hb h
      | some b => exact (hsome b hb (hparent p hp)).1
    · cases hb : (s.self.GetBody my.GetValue).2 with
      | none => rw [(hnone hb).2, (Attach_create_spec _).2.1, hlog]
      | some b => rw [(hsome b hb (hparent p hp)).2, (Attach_create_spec _).2.1, hlog]
  · intro f hf
    have hrun : Attach node (some parent) s
        = (⟨(Attach.parameters node s).st, some f⟩, some parent) := by
      simp [Attach, hf]
    rw [hrun]
    exact ⟨rfl, hj0, pre, hpre, hlog⟩

theorem Attach_parent_without_body_witness :
    (Attach none (some (Model.new Sample.entity)) Sample.loaded).1.st.self.joint
      = some ⟨.HINGE, "", none⟩ ∧
    (∃ pre, (∀ e ∈ pre, ∃ k, e = Event.paramLoad k) ∧
      (Attach none (some (Model.new Sample.entity)) Sample.loaded).1.st.world.log
        = Sample.loaded.world.log ++ pre ++ [.createJoint .HINGE]) :=
  ((Attach_parent_without_body none (Model.new Sample.entity) Sample.loaded
    (by decide)).1 (by decide)).2

/-- C12: an `Attach` that succeeds has a parent model, in which the parent
body name finds a body, and a body of its own under the my-body name; the
calls it makes are the parameter loads and then, on the physics engine and on
the joint it hands out, exactly these six in this order: `CreateJoint(HINGE)`,
`Attach(myBody, parentBody)`, `SetAnchor(0, position of myBody)`,
`SetAxis(0, (0,1,0))`, `SetHighStop(0, 0)`, `SetLowStop(0, 0)`; the joint is
stored as the attachment joint. -/
theorem Attach_joint_calls (node : Option XMLConfigNode) (parentModel : Option gazebo.Model)
    (s : St) (hok : (Attach node parentModel s).1.err = none) :
    ∃ parent p my myBody pBody pre,
      parentModel = some parent ∧
      (Attach.parameters node s).st.self.parentBodyNameP = some p ∧
      (Attach.parameters node s).st.self.myBodyNameP = some my ∧
      (s.self.GetBody my.GetValue).2 = some myBody ∧
      (parent.GetBody p.GetValue).2 = some pBody ∧
      (∀ e ∈ pre, ∃ k, e = Event.paramLoad k) ∧
      (Attach node parentModel s).1.st.world.log = s.world.log ++ pre ++
        [.createJoint .HINGE, .joint (.Attach myBody pBody),
         .joint (.SetAnchor 0 myBody.absPose.pos), .joint (.SetAxis 0 ⟨0, 1, 0⟩),
         .joint (.SetHighStop 0 0), .joint (.SetLowStop 0 0)] ∧
      (Attach node parentModel s).1.st.self.joint = some ⟨.HINGE, "", none⟩ := by
  obtain ⟨pre, hpre, hlog, _, _, _, hj0, hnames⟩ := Attach_parameters_spec node s
  cases hperr : (Attach.parameters node s).err with
  | some f =>
    simp [Attach, hperr] at hok
  | none =>
    obtain ⟨p, my, hp, hmy, _⟩ := hnames hperr
    cases parentModel with
    | none => simp [Attach, hperr, Attach.join] at hok
    | some parent =>
      have hrun : Attach node (some parent) s
          = Attach.connect parent (Attach.create (Attach.parameters node s).st) := by
        simp [Attach, hperr, Attach.join]
      rw [hrun] at hok ⊢
      obtain ⟨hjoint, _, hnone, hsome, hboth⟩ :=
        Attach_connect_spec parent (Attach.create (Attach.parameters node s).st) p my hp hmy
      rw [Attach_GetBody] at hnone hsome hboth
      cases hb : (s.self.GetBody my.GetValue).2 with
      | none =>
        rw [(hnone hb).1] at hok
        cases hok
      | some myBody =>
        cases hpb : (parent.GetBody p.GetValue).2 with
        | none =>
          rw [(hsome myBody hb hpb).1] at hok
          cases hok
        | some pBody =>
          refine ⟨parent, p, my, myBody, pBody, pre, rfl, hp, hmy, hb, hpb, hpre, ?_, hjoint⟩
          rw [(hboth myBody pBody hb hpb).2, (Attach_create_spec _).2.1, hlog]
          simp

theorem Attach_joint_calls_witness :
    (Attach none (some Sample.still.self) Sample.loaded).1.err = none ∧
    ∃ parent p my myBody pBody pre,
      some Sample.still.self = some parent ∧
      (Attach.parameters none Sample.loaded).st.self.parentBodyNameP = some p ∧
      (Attach.parameters none Sample.loaded).st.self.myBodyNameP = some my ∧
      (Sample.loaded.self.GetBody my.GetValue).2 = some myBody ∧
      (parent.GetBody p.GetValue).2 = some pBody ∧
      (∀ e ∈ pre, ∃ k, e = Event.paramLoad k) ∧
      (Attach none (some Sample.still.self) Sample.loaded).1.st.world.log
        = Sample.loaded.world.log ++ pre ++
          [.createJoint .HINGE, .joint (.Attach myBody pBody),
           .joint (.SetAnchor 0 myBody.absPose.pos), .joint (.SetAxis 0 ⟨0, 1, 0⟩),
           .joint (.SetHighStop 0 0), .joint (.SetLowStop 0 0)] ∧
      (Attach none (some Sample.still.self) Sample.loaded).1.st.self.joint
        = some ⟨.HINGE, "", none⟩ :=
  ⟨by decide, Attach_joint_calls none (some Sample.still.self) Sample.loaded (by decide)⟩

end Model

/-! ## The gravity mode during Load -/

/-- While the bodies map is empty it stays empty and no call on a body is
logged: the setter callbacks of the parameters find no body. -/
theorem Quiet.noBodies :
    Quiet (fun a b => a.self.bodies = [] →
      b.self.bodies = [] ∧ LogExt (fun e => e.isBodyCall = false) a b) where
  refl := fun a h => ⟨h, LogExt.log_refl _ a⟩
  trans := fun a b c h1 h2 h =>
    ⟨(h2 (h1 h).1).1, LogExt.log_trans _ a b c (h1 h).2 (h2 (h1 h).1).2⟩
  record := fun s e _ hb h => ⟨h, [e], rfl, by simpa using hb⟩
  delete := fun s n h => ⟨h, [.deleteEntity n], rfl, by simp [Event.isBodyCall]⟩
  change := fun s m hm _ _ _ _ h => ⟨hm.trans h, [], by simp, by simp⟩
  bodies := fun s call h => ⟨by simp [Model.callBodies, h, eachBody],
    [], by simp [Model.callBodies, h, eachBody], by simp⟩

namespace Model

theorem LoadBody_calm {R : St → St → Prop} (hrefl : ∀ a, R a a)
    (htrans : ∀ a b c, R a b → R b c → R a c)
    (hrec : ∀ s e, e.isBodyCall = false → R s (s.record e))
    (hset : ∀ s m, R s (s.setSelf m))
    (ext : Externals) (node : Option XMLConfigNode) (s : St) :
    R s (LoadBody ext node s).st := by
  unfold LoadBody CreateBody
  repeat' (first | split | dsimp only)
  all_goals simp only [Outcome.ok_st, Outcome.throw_st]
  all_goals repeat (first
    | exact hrefl _
    | refine htrans _ _ _ ?_ (hrec _ _ (by rfl))
    | refine htrans _ _ _ ?_ (hset _ _))

theorem LoadJoint_calm {R : St → St → Prop} (hrefl : ∀ a, R a a)
    (htrans : ∀ a b c, R a b → R b c → R a c)
    (hrec : ∀ s e, e.isBodyCall = false → R s (s.record e))
    (hset : ∀ s m, R s (s.setSelf m))
    (ext : Externals) (node : Option XMLConfigNode) (s : St) :
    R s (LoadJoint ext node s).st := by
  unfold LoadJoint CreateJoint
  repeat' (first | split | dsimp only)
  all_goals simp only [Outcome.ok_st, Outcome.throw_st]
  all_goals repeat (first
    | exact hrefl _
    | refine htrans _ _ _ ?_ (hrec _ _ (by rfl))
    | refine htrans _ _ _ ?_ (hset _ _))

theorem LoadController_calm {R : St → St → Prop} (hrefl : ∀ a, R a a)
    (htrans : ∀ a b c, R a b → R b c → R a c)
    (hrec : ∀ s e, e.isBodyCall = false → R s (s.record e))
    (hset : ∀ s m, R s (s.setSelf m))
    (ext : Externals) (node : Option XMLConfigNode) (s : St) :
    R s (LoadController ext node s).st := by
  unfold LoadController
  repeat' (first | split | dsimp only)
  all_goals simp only [Outcome.ok_st, Outcome.throw_st]
  all_goals repeat (first
    | exact hrefl _
    | refine htrans _ _ _ ?_ (hrec _ _ (by rfl))
    | refine htrans _ _ _ ?_ (hset _ _))

/-- What `Load` does between the parameters and the setter calls at its end
keeps every relation that allows logging a call that is no call on a body and
changing the model. -/
theorem beforePush_calm {R : St → St → Prop} (hrefl : ∀ a, R a a)
    (htrans : ∀ a b c, R a b → R b c → R a c)
    (hrec : ∀ s e, e.isBodyCall = false → R s (s.record e))
    (hset : ∀ s m, R s (s.setSelf m))
    (ext : Externals) (node : XMLConfigNode) (pose : Pose3d) (s : St) :
    R s (Load.byType ext node s).st ∧
    R s (Load.controllers ext node (Load.setPose pose s)).st ∧
    R s (Load.canonical (Load.defaultBody ext s)).st := by
  refine ⟨?_, ?_, ?_⟩
  · unfold Load.byType
    repeat' (first | split | dsimp only)
    · unfold LoadPhysical
      refine Outcome.andThen_keeps htrans
        (forEachNode_keeps hrefl htrans
          (fun c s => LoadBody_calm hrefl htrans hrec hset ext (some c) s) _ s) (fun s1 => ?_)
      refine forEachNode_keeps hrefl htrans (fun c s => ?_) _ s1
      rw [LoadJoint_caught_st]
      exact LoadJoint_calm hrefl htrans hrec hset ext (some c) s
    · exact hrefl s
    · exact hrefl s
  · refine htrans _ _ _ ?_ (forEachNode_keeps hrefl htrans
      (fun c s => LoadController_calm hrefl htrans hrec hset ext (some c) s) _ _)
    unfold Load.setPose
    dsimp only
    split
    · exact hset s _
    · exact hset s _
  · refine htrans _ (Load.defaultBody ext s) _ ?_ ?_
    · unfold Load.defaultBody CreateBody
      split
      · exact htrans _ _ _ (hrec s .createBody rfl) (hset _ _)
      · exact hrefl s
    · unfold Load.canonical
      repeat' (first | split | dsimp only)
      · exact hrefl _
      · exact hset _ _
      · exact hrefl _

theorem eachBody_ok (call : BodyCall) (m : StdMap (Option Body))
    (h : (eachBody call m).2.2 = none) :
    (eachBody call m).2.1 = (StdMap.keys m).map (fun k => Event.body k call) := by
  induction m with
  | nil => rfl
  | cons x rest ih =>
    obtain ⟨k, ob⟩ := x
    cases ob with
    | none => simp [eachBody] at h
    | some b =>
      simp only [eachBody] at h ⊢
      simp [StdMap.keys] at ih ⊢
      exact ih h

theorem callIf_spec (c : Prop) [Decidable c] (call : BodyCall) (s : St)
    (h : (if c then callBodies call s else Outcome.ok s).err = none) :
    (if c then callBodies call s else Outcome.ok s).st.world.log
      = s.world.log ++ (if c then (StdMap.keys s.self.bodies).map (fun k => Event.body k call)
          else []) ∧
    StdMap.keys (if c then callBodies call s else Outcome.ok s).st.self.bodies
      = StdMap.keys s.self.bodies ∧
    (if c then callBodies call s else Outcome.ok s).st.self.staticP = s.self.staticP ∧
    (if c then callBodies call s else Outcome.ok s).st.self.enableGravityP
      = s.self.enableGravityP ∧
    (if c then callBodies call s else Outcome.ok s).st.self.laserFiducialP
      = s.self.laserFiducialP ∧
    (if c then callBodies call s else Outcome.ok s).st.self.laserRetroP
      = s.self.laserRetroP := by
  by_cases hc : c
  · simp only [if_pos hc] at h ⊢
    refine ⟨?_, eachBody_keys call _, rfl, rfl, rfl, rfl⟩
    simp only [callBodies] at h ⊢
    rw [eachBody_ok call _ h]
  · simp only [if_neg hc]
    exact ⟨by simp, rfl, rfl, rfl, rfl, rfl⟩

/-- The setter calls at the end of a `Load` that succeeds: `SetGravityMode`
with the value of `enableGravity` on every body when the model is not static,
none when it is, and after them calls on bodies that are no `SetGravityMode`. -/
theorem pushModes_spec (s : St) (h : (Load.pushModes s).err = none) :
    ∃ post, (Load.pushModes s).st.world.log = s.world.log
        ++ (if s.self.staticP.GetValue = false
            then (StdMap.keys s.self.bodies).map
              (fun k => Event.body k (.SetGravityMode s.self.enableGravityP.GetValue))
            else [])
        ++ post ∧
      (∀ e ∈ post, e.isBodyCall = true ∧ e.isGravity = false) ∧
      StdMap.keys (Load.pushModes s).st.self.bodies = StdMap.keys s.self.bodies ∧
      (Load.pushModes s).st.self.staticP = s.self.staticP ∧
      (Load.pushModes s).st.self.enableGravityP = s.self.enableGravityP := by
  unfold Load.pushModes at h ⊢
  obtain ⟨h12, e3⟩ := Outcome.andThen_err_none h
  rw [e3] at h ⊢
  obtain ⟨h1, e2⟩ := Outcome.andThen_err_none h12
  rw [e2] at h h12 ⊢
  unfold SetGravityMode at h1 h12 h ⊢
  unfold SetLaserFiducialId at h12 h ⊢
  unfold SetLaserRetro at h ⊢
  obtain ⟨l1, k1, s1, g1, f1, r1⟩ := callIf_spec _ _ s h1
  generalize (if s.self.staticP.GetValue = false then
    callBodies (.SetGravityMode s.self.enableGravityP.GetValue) s else Outcome.ok s).st = sa
    at l1 k1 s1 g1 f1 r1 h12 h ⊢
  obtain ⟨l2, k2, s2, g2, f2, r2⟩ := callIf_spec _ _ sa h12
  generalize (if sa.self.laserFiducialP.GetValue ≠ -1 then
    callBodies (.SetLaserFiducialId sa.self.laserFiducialP.GetValue) sa else Outcome.ok sa).st
    = sb at l2 k2 s2 g2 f2 r2 h ⊢
  obtain ⟨l3, k3, s3, g3, f3, r3⟩ := callIf_spec _ _ sb h
  refine ⟨(if sa.self.laserFiducialP.GetValue ≠ -1 then (StdMap.keys sa.self.bodies).map
      (fun k => Event.body k (.SetLaserFiducialId sa.self.laserFiducialP.GetValue)) else [])
    ++ (if sb.self.laserRetroP.GetValue ≠ -1 then (StdMap.keys sb.self.bodies).map
      (fun k => Event.body k (.SetLaserRetro sb.self.laserRetroP.GetValue)) else []),
    ?_, ?_, ?_, ?_, ?_⟩
  · rw [l3, l2, l1]
    simp only [List.append_assoc]
  · intro e he
    rcases List.mem_append.mp he with h1 | h1
    · split at h1
      · obtain ⟨k, _, rfl⟩ := List.mem_map.mp h1
        exact ⟨rfl, rfl⟩
      · cases h1
    · split at h1
      · obtain ⟨k, _, rfl⟩ := List.mem_map.mp h1
        exact ⟨rfl, rfl⟩
      · cases h1
  · rw [k3, k2, k1]
  · rw [s3, s2, s1]
  · rw [g3, g2, g1]

theorem LogExt.calm :
    (∀ a, LogExt (fun e => e.isBodyCall = false) a a) ∧
    (∀ a b c, LogExt (fun e => e.isBodyCall = false) a b →
      LogExt (fun e => e.isBodyCall = false) b c →
      LogExt (fun e => e.isBodyCall = false) a c) ∧
    (∀ s e, e.isBodyCall = false → LogExt (fun e => e.isBodyCall = false) s (s.record e)) ∧
    (∀ s m, LogExt (fun e => e.isBodyCall = false) s (s.setSelf m)) :=
  ⟨LogExt.log_refl _, LogExt.log_trans _, fun s e he => ⟨[e], rfl, by simpa using he⟩,
   fun s m => LogExt.setSelf _ s m⟩

/-- C20: in a `Load` of a freshly constructed model that succeeds, the calls
logged on top of the log before are, in this order: calls none of which is a
call on a body (among them every body creation and every body load); then,
when the static parameter is false, `SetGravityMode` with the value of
`enableGravity` on every body of the bodies map, once each, and when the
static parameter is true nothing; then calls on bodies none of which is a
`SetGravityMode`.  So the `SetGravityMode` calls of the whole `Load` are those
on every body for a model that is not static, and none at all for a static
model, whatever `enableGravity` is. -/
theorem Load_gravity_mode (ext : Externals) (entity : Entity) (world : World)
    (node : XMLConfigNode) (removeDuplicate : Bool)
    (hok : (Load ext node removeDuplicate ⟨Model.new entity, world⟩).err = none) :
    (∃ added post,
      (Load ext node removeDuplicate ⟨Model.new entity, world⟩).st.world.log
        = world.log ++ added
          ++ (if (Load ext node removeDuplicate ⟨Model.new entity, world⟩).st.self.staticP.GetValue
                = false
              then (StdMap.keys
                  (Load ext node removeDuplicate ⟨Model.new entity, world⟩).st.self.bodies).map
                (fun k => Event.body k (.SetGravityMode
                  (Load ext node removeDuplicate
                    ⟨Model.new entity, world⟩).st.self.enableGravityP.GetValue))
              else [])
          ++ post ∧
      (∀ e ∈ added, e.isBodyCall = false) ∧
      (∀ e ∈ post, e.isBodyCall = true ∧ e.isGravity = false)) ∧
    ((Load ext node removeDuplicate ⟨Model.new entity, world⟩).st.self.staticP.GetValue = true →
      (Load ext node removeDuplicate ⟨Model.new entity, world⟩).st.world.log.filter
          Event.isGravity
        = world.log.filter Event.isGravity) ∧
    ((Load ext node removeDuplicate ⟨Model.new entity, world⟩).st.self.staticP.GetValue = false →
      (Load ext node removeDuplicate ⟨Model.new entity, world⟩).st.world.log.filter
          Event.isGravity
        = world.log.filter Event.isGravity
          ++ (StdMap.keys
              (Load ext node removeDuplicate ⟨Model.new entity, world⟩).st.self.bodies).map
            (fun k => Event.body k (.SetGravityMode
              (Load ext node removeDuplicate
                ⟨Model.new entity, world⟩).st.self.enableGravityP.GetValue))) := by
  have hmain : ∃ added post,
      (Load ext node removeDuplicate ⟨Model.new entity, world⟩).st.world.log
        = world.log ++ added
          ++ (if (Load ext node removeDuplicate ⟨Model.new entity, world⟩).st.self.staticP.GetValue
                = false
              then (StdMap.keys
                  (Load ext node removeDuplicate ⟨Model.new entity, world⟩).st.self.bodies).map
                (fun k => Event.body k (.SetGravityMode
                  (Load ext node removeDuplicate
                    ⟨Model.new entity, world⟩).st.self.enableGravityP.GetValue))
              else [])
          ++ post ∧
      (∀ e ∈ added, e.isBodyCall = false) ∧
      (∀ e ∈ post, e.isBodyCall = true ∧ e.isGravity = false) := by
    obtain ⟨crefl, ctrans, crec, cset⟩ := LogExt.calm
    rw [Load_eq_prelude] at hok ⊢
    obtain ⟨_, e1⟩ := Outcome.andThen_err_none hok
    rw [e1] at hok ⊢
    have h3 := Quiet.noBodies.prelude (fun s p h => ⟨h, LogExt.setSelf _ s _⟩)
      (fun s p h => ⟨h, LogExt.setSelf _ s _⟩) ext node removeDuplicate
      ⟨Model.new entity, world⟩ rfl
    generalize (Load.prelude ext node removeDuplicate ⟨Model.new entity, world⟩).st = s3
      at h3 hok ⊢
    have h4 := (Quiet.noBodies.setup node s3 h3.1).2
    have h04 := ctrans _ _ _ h3.2 h4
    unfold Load.afterParameters at hok ⊢
    obtain ⟨_, e2⟩ := Outcome.andThen_err_none hok
    rw [e2] at hok ⊢
    have h5 := (beforePush_calm crefl ctrans crec cset ext node Pose3d.Reset
      (Load.setup node s3)).1
    have h05 := ctrans _ _ _ h04 h5
    generalize (Load.byType ext node (Load.setup node s3)).st = s5 at h05 hok ⊢
    generalize Load.pose (Load.setup node s3).self = pose at hok ⊢
    unfold Load.afterType at hok ⊢
    obtain ⟨_, e3⟩ := Outcome.andThen_err_none hok
    rw [e3] at hok ⊢
    have h7 := (beforePush_calm crefl ctrans crec cset ext node pose s5).2.1
    have h07 := ctrans _ _ _ h05 h7
    generalize (Load.controllers ext node (Load.setPose pose s5)).st = s7 at h07 hok ⊢
    obtain ⟨_, e4⟩ := Outcome.andThen_err_none hok
    rw [e4] at hok ⊢
    have h9 := (beforePush_calm crefl ctrans crec cset ext node pose s7).2.2
    have h09 := ctrans _ _ _ h07 h9
    generalize (Load.canonical (Load.defaultBody ext s7)).st = s9 at h09 hok ⊢
    obtain ⟨post, hlog, hpost, hkeys, hstatic, hgrav⟩ := pushModes_spec s9 hok
    obtain ⟨added, hadded, hnone⟩ := h09
    refine ⟨added, post, ?_, hnone, hpost⟩
    rw [hlog, hkeys, hstatic, hgrav, hadded]
  obtain ⟨added, post, hlog, hadded, hpost⟩ := hmain
  have hfa : added.filter Event.isGravity = [] := by
    rw [List.filter_eq_nil_iff]
    intro e he
    have := hadded e he
    cases e <;> simp_all [Event.isBodyCall, Event.isGravity]
  have hfp : post.filter Event.isGravity = [] := by
    rw [List.filter_eq_nil_iff]
    intro e he
    simp [(hpost e he).2]
  refine ⟨⟨added, post, hlog, hadded, hpost⟩, fun hs => ?_, fun hs => ?_⟩
  · rw [hlog, hs]
    simp [List.filter_append, hfa, hfp]
  · rw [hlog, hs]
    simp only [if_true, List.filter_append, hfa, hfp, List.append_nil]
    congr 1
    rw [List.filter_eq_self]
    intro e he
    obtain ⟨k, _, rfl⟩ := List.mem_map.mp he
    rfl

theorem Load_gravity_mode_witness :
    (Load Sample.ext (Sample.robot none) false ⟨Model.new Sample.entity, Sample.world⟩).err
      = none ∧
    (Load Sample.ext (Sample.robot none) false
        ⟨Model.new Sample.entity, Sample.world⟩).st.world.log.filter Event.isGravity
      = Sample.world.log.filter Event.isGravity
        ++ (StdMap.keys (Load Sample.ext (Sample.robot none) false
              ⟨Model.new Sample.entity, Sample.world⟩).st.self.bodies).map
            (fun k => Event.body k (.SetGravityMode
              (Load Sample.ext (Sample.robot none) false
                ⟨Model.new Sample.entity, Sample.world⟩).st.self.enableGravityP.GetValue)) :=
  ⟨by decide,
   (Load_gravity_mode Sample.ext Sample.entity Sample.world (Sample.robot none) false
     (by decide)).2.2 (by decide)⟩

end Model

/-! ## Save -/

namespace Model

theorem SaveChildren_eq (ext : Externals) (p : String) (children : List ModelTree) :
    SaveChildren ext p children = (children.map (Save ext p)).foldr (fun a b => a ++ b) "" := by
  induction children with
  | nil => simp [SaveChildren]
  | cons c rest ih =>
    rw [SaveChildren, ih]
    simp

/-- C16: the text `Model::Save` writes does not depend on the canonical body
name, the laser fiducial id, the laser retro value, the self id or the team of
the model, nor, for a model whose type is not "physical", on its static
parameter: two models that differ in these alone are saved as the same text, so
no loader can read them back from it.  The sample model loaded with canonical
body "b", self id 0 and team "blue" is saved as a text without these three, and
a load from a node that carries every parameter written yields the canonical
body "a", the self id -1 and the empty team. -/
theorem Save_drops_parameters :
    (∀ (ext : Externals) (pfx : String) (m : gazebo.Model) (children : List ModelTree)
        (canonical : ParamT String) (fiducial : ParamT Int) (retro : ParamT ℚ)
        (selfID : ParamT Int) (team : ParamT String),
      Save ext pfx (.mk { m with
          canonicalBodyNameP := canonical
          laserFiducialP := fiducial
          laserRetroP := retro
          selfID := selfID
          team := team } children)
        = Save ext pfx (.mk m children)) ∧
    (∀ (ext : Externals) (pfx : String) (m : gazebo.Model) (children : List ModelTree)
        (static : ParamT Bool), m.type ≠ "physical" →
      Save ext pfx (.mk { m with staticP := static } children)
        = Save ext pfx (.mk m children)) ∧
    (Sample.numbered.self.canonicalBodyNameP.GetValue = "b" ∧
      Sample.numbered.self.selfID.GetValue = 0 ∧
      Sample.numbered.self.team.GetValue = "blue") ∧
    Save Sample.ext "" (.mk Sample.numbered.self [])
      = "<model:physical name=\"m\">\n  xyz=\"0 0 0\"\n  rpy=\"0 0 0\"\n" ++
        "  enableGravity=\"true\"\n  enableFriction=\"true\"\n  collide=\"all\"\n" ++
        "  static=\"false\"\n\n  <body name=\"a\"/>\n\n  <body name=\"b\"/>\n" ++
        "  <joint name=\"j\"/>\n  <controller name=\"c\"/>\n</model:physical>\n" ∧
    ((Load Sample.ext Sample.rewritten false Sample.st).err = none ∧
      (Load Sample.ext Sample.rewritten false Sample.st).st.self.canonicalBodyNameP.GetValue
        = "a" ∧
      (Load Sample.ext Sample.rewritten false Sample.st).st.self.selfID.GetValue = -1 ∧
      (Load Sample.ext Sample.rewritten false Sample.st).st.self.team.GetValue = "") := by
  refine ⟨?_, ?_, by decide, by rfl, by decide⟩
  · intro ext pfx m children canonical fiducial retro selfID team
    rw [Save, Save]
    rfl
  · intro ext pfx m children static h
    rw [Save, Save]
    simp [Save.head, Save.core, Save.physical, Save.attach, Save.foot, Save.typeName, Save.sync,
      ParamT.SetValue, ParamT.GetValue, h]

/-- C17, as stated, fails: the sample model of type "empty" that is attached to
a parent and has one child model is saved with its attachment record and with
the block of the child model. -/
theorem Save_blocks_counterexample :
    Sample.attached.self.type = "empty" ∧
    Save Sample.ext "" (.mk Sample.attached.self [.mk Sample.still.self []])
      = "<model:empty name=\"e\">\n"
        ++ Save.core Sample.ext "" (Save.sync Sample.attached.self)
        ++ Save.attach Sample.ext "" (Save.sync Sample.attached.self)
        ++ SaveChildren Sample.ext "  " [.mk Sample.still.self []]
        ++ "</model:empty>\n" ∧
    Save.attach Sample.ext "" (Save.sync Sample.attached.self)
      = "  <attach>\n    parentBody=\"canonical\"\n    myBody=\"e_body\"\n  </attach>\n" ∧
    SaveChildren Sample.ext "  " [.mk Sample.still.self []]
      = "  <model:physical name=\"s\">\n    xyz=\"0 0 0\"\n    rpy=\"0 0 0\"\n" ++
        "    enableGravity=\"true\"\n    enableFriction=\"true\"\n    collide=\"all\"\n" ++
        "    static=\"true\"\n\n    <body name=\"b\"/>\n  </model:physical>\n" := by
  refine ⟨by decide, ?_, by rfl, by rfl⟩
  rw [Save]
  have hp : Save.physical Sample.ext "" (Save.sync Sample.attached.self) = "" := by decide
  have hh : Save.head "" (Save.sync Sample.attached.self) = "<model:empty name=\"e\">\n" := by
    decide
  have hf : Save.foot "" (Save.sync Sample.attached.self) = "</model:empty>\n" := by decide
  rw [hp, hh, hf]
  rfl

/-- C17: `Model::Save` writes, in this order: the opening line with the type
name and the name; the lines of xyz, rpy, enableGravity, enableFriction and
collide; for the type "physical" alone the line of static and the texts of the
bodies, the joints and the controllers that are not NULL, with the prefix
extended by two blanks; whatever the type, the attachment record when both
parameters of `Attach` exist and nothing when one is missing; whatever the
type, every child model saved with the prefix extended by two blanks; and the
closing line with the type name.  For the types "physical" and "empty" the
type name written is the type. -/
theorem Save_blocks (ext : Externals) (pfx : String) (m : gazebo.Model)
    (children : List ModelTree) :
    Save ext pfx (.mk m children)
      = pfx ++ "<model:" ++ Save.typeName m ++ " name=\"" ++ m.nameP.GetValue ++ "\">\n"
        ++ Save.core ext pfx (Save.sync m)
        ++ Save.physical ext pfx (Save.sync m)
        ++ Save.attach ext pfx (Save.sync m)
        ++ (children.map (Save ext (pfx ++ "  "))).foldr (fun a b => a ++ b) ""
        ++ (pfx ++ "</model:" ++ Save.typeName m ++ ">\n") ∧
    (m.type = "physical" →
      Save.typeName m = "physical" ∧
      Save.physical ext pfx (Save.sync m)
        = pfx ++ "  " ++ Save.param ext ext.showBool m.staticP ++ "\n"
          ++ Save.bodies ext (pfx ++ "  ") m.bodies
          ++ Save.joints ext (pfx ++ "  ") m.joints
          ++ Save.controllers ext (pfx ++ "  ") m.controllers) ∧
    (m.type ≠ "physical" → Save.physical ext pfx (Save.sync m) = "") ∧
    (m.type = "empty" → Save.typeName m = "empty") ∧
    (∀ parentBody myBody, m.parentBodyNameP = some parentBody → m.myBodyNameP = some myBody →
      Save.attach ext pfx (Save.sync m)
        = pfx ++ "  <attach>\n" ++ pfx ++ "    " ++ Save.param ext id parentBody ++ "\n"
          ++ pfx ++ "    " ++ Save.param ext id myBody ++ "\n" ++ pfx ++ "  </attach>\n") ∧
    ((m.parentBodyNameP = none ∨ m.myBodyNameP = none) →
      Save.attach ext pfx (Save.sync m) = "") := by
  refine ⟨?_, ?_, ?_, ?_, ?_, ?_⟩
  · rw [Save, SaveChildren_eq]
    rfl
  · intro h
    refine ⟨?_, ?_⟩
    · simp only [Save.typeName, h]
      decide
    · have : (Save.sync m).type = "physical" := h
      simp only [Save.physical, this, if_true]
      rfl
  · intro h
    have : (Save.sync m).type ≠ "physical" := h
    simp only [Save.physical, if_neg this]
  · intro h
    simp only [Save.typeName, h, if_true]
  · intro parentBody myBody h1 h2
    have e1 : (Save.sync m).parentBodyNameP = some parentBody := h1
    have e2 : (Save.sync m).myBodyNameP = some myBody := h2
    simp only [Save.attach, e1, e2]
  · intro h
    have e1 : (Save.sync m).parentBodyNameP = m.parentBodyNameP := rfl
    have e2 : (Save.sync m).myBodyNameP = m.myBodyNameP := rfl
    unfold Save.attach
    rw [e1, e2]
    rcases h with h | h
    · rw [h]
    · rw [h]
      cases m.parentBodyNameP <;> rfl

theorem Save_blocks_witness :
    Sample.attached.self.type ≠ "physical" ∧
    Save.physical Sample.ext "" (Save.sync Sample.attached.self) = "" ∧
    Sample.loaded.self.type = "physical" ∧
    Save.typeName Sample.loaded.self = "physical" :=
  ⟨by decide,
   (Save_blocks Sample.ext "" Sample.attached.self []).2.2.1 (by decide),
   by decide,
   ((Save_blocks Sample.ext "" Sample.loaded.self []).2.1 (by decide)).1⟩

end Model

/-! ## ODEHingeJoint -/

namespace ODEHingeJoint

/-- C19, as stated, fails: on the sample joint, to which `SetForce(0, 9)` has
applied the torque 9, `Load` returns with `GetMaxForce(0)` at 0 and the torque
applied to the joint still 9; the sample ODE library reads `dParamFMax` back as
it was set and its `dJointAddHingeTorque` adds to the torque. -/
theorem Load_zeroes_max_force_counterexample :
    Sample.driven.solver.torque = 9 ∧
    (∀ w id t, (Sample.ode.dJointAddHingeTorque w id t).torque = w.torque + t) ∧
    ∃ j2, Load Sample.ode none Sample.driven = .ok j2 ∧
      (j2.GetMaxForce Sample.ode 0).1 = 0 ∧
      j2.solver.torque = 9 ∧
      j2.solver.torque ≠ 0 := by
  have h9 : Sample.driven.solver.torque = 9 := by
    norm_num [Sample.driven, SetForce, LockMutex, UnlockMutex, odeCall, Sample.ode]
  refine ⟨h9, fun _ _ _ => rfl, (Sample.driven.SetParam Sample.ode Sample.ode.dParamFMax 0).SetForce
    Sample.ode 0 0, rfl, ?_, ?_, ?_⟩
  · simp [GetMaxForce, GetParam, SetForce, SetParam, LockMutex, UnlockMutex, odeCall, Sample.ode,
      Sample.Solver.param]
  · have : ((Sample.driven.SetParam Sample.ode Sample.ode.dParamFMax 0).SetForce
        Sample.ode 0 0).solver.torque = Sample.driven.solver.torque + 0 := rfl
    rw [this, h9]
    norm_num
  · have : ((Sample.driven.SetParam Sample.ode Sample.ode.dParamFMax 0).SetForce
        Sample.ode 0 0).solver.torque = Sample.driven.solver.torque + 0 := rfl
    rw [this, h9]
    norm_num

/-- C19: when `Load` of the base class returns, `ODEHingeJoint::Load` returns
after it with exactly two further settings, each between `LockMutex` and
`UnlockMutex`: `dJointSetHingeParam(jointId, dParamFMax, 0)` and then
`dJointAddHingeTorque(jointId, 0)`, the torque `Load` applies to the joint being
0.  With an ODE library that reads `dParamFMax` back as 0 once it was set to 0
and whose `dJointAddHingeTorque` of 0 leaves that parameter alone,
`GetMaxForce(0)` returns 0 afterwards, whatever the node and the joint were.
And whatever quantity of the solver grows by the torque handed to
`dJointAddHingeTorque` and is left alone by `dJointSetHingeParam`, it is after
`Load` what it was after `Load` of the base class: the torque applied before
is kept, not cleared. -/
theorem Load_zeroes_max_force {W : Type} (x : OdeExternals W) (node : Option XMLConfigNode)
    (j j1 : ODEHingeJoint W) (hbase : x.HingeJointLoad node j = .ok j1)
    (hset : ∀ w id,
      x.dJointGetHingeParam (x.dJointSetHingeParam w id x.dParamFMax 0) id x.dParamFMax = 0)
    (hadd : ∀ w id, x.dJointGetHingeParam (x.dJointAddHingeTorque w id 0) id x.dParamFMax
      = x.dJointGetHingeParam w id x.dParamFMax) :
    ∃ j2, Load x node j = .ok j2 ∧
      (j2.GetMaxForce x 0).1 = 0 ∧
      j2.trace = j1.trace ++
        [.LockMutex, .call j1.jointId (.dJointSetHingeParam x.dParamFMax 0), .UnlockMutex,
         .LockMutex, .call j1.jointId (.dJointAddHingeTorque 0), .UnlockMutex] ∧
      j2.solver = x.dJointAddHingeTorque
        (x.dJointSetHingeParam j1.solver j1.jointId x.dParamFMax 0) j1.jointId 0 ∧
      j2.jointId = j1.jointId ∧
      (∀ torque : W → ℚ,
        (∀ w id t, torque (x.dJointAddHingeTorque w id t) = torque w + t) →
        (∀ w id p v, torque (x.dJointSetHingeParam w id p v) = torque w) →
        torque j2.solver = torque j1.solver) := by
  refine ⟨(j1.SetParam x x.dParamFMax 0).SetForce x 0 0, ?_, ?_, ?_, rfl, rfl, ?_⟩
  · simp [Load, hbase]
  · simp [GetMaxForce, GetParam, SetForce, SetParam, LockMutex, UnlockMutex, odeCall, hset, hadd]
  · simp [SetForce, SetParam, LockMutex, UnlockMutex, odeCall]
  · intro torque hA hS
    simp [SetForce, SetParam, LockMutex, UnlockMutex, odeCall, hA, hS]

theorem Load_zeroes_max_force_witness :
    ∃ j2, Load Sample.ode none Sample.driven = .ok j2 ∧
      (j2.GetMaxForce Sample.ode 0).1 = 0 ∧
      j2.trace = Sample.driven.trace ++
        [.LockMutex, .call Sample.driven.jointId (.dJointSetHingeParam Sample.ode.dParamFMax 0),
         .UnlockMutex,
         .LockMutex, .call Sample.driven.jointId (.dJointAddHingeTorque 0), .UnlockMutex] ∧
      j2.solver = Sample.ode.dJointAddHingeTorque
        (Sample.ode.dJointSetHingeParam Sample.driven.solver Sample.driven.jointId
          Sample.ode.dParamFMax 0) Sample.driven.jointId 0 ∧
      j2.jointId = Sample.driven.jointId ∧
      (∀ torque : Sample.Solver → ℚ,
        (∀ w id t, torque (Sample.ode.dJointAddHingeTorque w id t) = torque w + t) →
        (∀ w id p v, torque (Sample.ode.dJointSetHingeParam w id p v) = torque w) →
        torque j2.solver = torque Sample.driven.solver) :=
  Load_zeroes_max_force Sample.ode none Sample.driven Sample.driven rfl
    (by intro w id; simp [Sample.ode, Sample.Solver.param])
    (by intro w id; rfl)

end ODEHingeJoint

/-! ## The lock discipline of ODEHingeJoint -/

theorem disciplinedFrom_append (a b : List OdeEvent) :
    ∀ held, disciplinedFrom held a = true →
      disciplinedFrom held (a ++ b) = disciplinedFrom none b := by
  induction a with
  | nil =>
    intro held h
    cases held with
    | none => rfl
    | some n => simp [disciplinedFrom] at h
  | cons e rest ih =>
    intro held h
    cases e with
    | LockMutex =>
      cases held with
      | none => simpa [disciplinedFrom] using ih (some 0) (by simpa [disciplinedFrom] using h)
      | some n => simp [disciplinedFrom] at h
    | UnlockMutex =>
      rcases held with _ | _ | _ | n
      · simp [disciplinedFrom] at h
      · simp [disciplinedFrom] at h
      · simpa [disciplinedFrom] using ih none (by simpa [disciplinedFrom] using h)
      · simp [disciplinedFrom] at h
    | call id c =>
      rcases held with _ | _ | n
      · simp [disciplinedFrom] at h
      · simpa [disciplinedFrom] using ih (some 1) (by simpa [disciplinedFrom] using h)
      · simp [disciplinedFrom] at h

theorem disciplined_append (a b : List OdeEvent) (ha : disciplined a = true)
    (hb : disciplined b = true) : disciplined (a ++ b) = true := by
  unfold disciplined at ha hb ⊢
  rw [disciplinedFrom_append a b none ha, hb]

namespace ODEHingeJoint

/-- C21: each of `GetAnchor`, `SetAnchor`, `GetAxis`, `SetAxis`, `GetAngle`,
`GetVelocity`, `SetVelocity`, `SetMaxForce`, `GetMaxForce`, `SetForce`,
`GetParam` and `SetParam` adds to the trace exactly `LockMutex`, its one call of
the ODE library on the joint, `UnlockMutex`; the two settings of `Load`, made after
`Load` of the base class, add exactly that twice over.  What each adds keeps
the lock discipline: every solver call lies between a `LockMutex` and the next
`UnlockMutex`, one solver call per acquisition, no acquisition inside another,
the lock free at the return; and a trace that kept the discipline before the
operation keeps it after. -/
theorem lock_discipline {W : Type} (x : OdeExternals W) (index : Int) (v : Vector3) (t : ℚ)
    (parameter : Int) (j : ODEHingeJoint W) :
    (∀ op ∈ operations x index v t parameter,
      (op.1 j).trace = j.trace ++ [.LockMutex, .call j.jointId op.2, .UnlockMutex] ∧
      disciplined [.LockMutex, .call j.jointId op.2, .UnlockMutex] = true ∧
      (disciplined j.trace = true → disciplined (op.1 j).trace = true)) ∧
    (∀ node j1, x.HingeJointLoad node j = .ok j1 →
      ∃ j2, Load x node j = .ok j2 ∧
        j2.trace = j1.trace ++
          [.LockMutex, .call j1.jointId (.dJointSetHingeParam x.dParamFMax 0), .UnlockMutex,
           .LockMutex, .call j1.jointId (.dJointAddHingeTorque 0), .UnlockMutex] ∧
        disciplined
          [.LockMutex, .call j1.jointId (.dJointSetHingeParam x.dParamFMax 0), .UnlockMutex,
           .LockMutex, .call j1.jointId (.dJointAddHingeTorque 0), .UnlockMutex] = true ∧
        (disciplined j1.trace = true → disciplined j2.trace = true)) := by
  have hops : ∀ op ∈ operations x index v t parameter,
      (op.1 j).trace = j.trace ++ [.LockMutex, .call j.jointId op.2, .UnlockMutex] := by
    intro op hop
    simp only [operations, List.mem_cons, List.mem_singleton, List.not_mem_nil, or_false] at hop
    rcases hop with h | h | h | h | h | h | h | h | h | h | h | h
    all_goals subst h
    all_goals simp [GetAnchor, SetAnchor, GetAxis, SetAxis, GetAngle, GetVelocity,
      SetVelocity, SetMaxForce, GetMaxForce, SetForce, GetParam, SetParam, LockMutex,
      UnlockMutex, odeCall]
  constructor
  · intro op hop
    have hc := hops op hop
    refine ⟨hc, rfl, fun hd => ?_⟩
    rw [hc]
    exact disciplined_append _ _ hd rfl
  · intro node j1 hbase
    refine ⟨(j1.SetParam x x.dParamFMax 0).SetForce x 0 0, ?_, ?_, rfl, fun hd => ?_⟩
    · simp [Load, hbase]
    · simp [SetForce, SetParam, LockMutex, UnlockMutex, odeCall]
    · have : ((j1.SetParam x x.dParamFMax 0).SetForce x 0 0).trace = j1.trace ++
          [.LockMutex, .call j1.jointId (.dJointSetHingeParam x.dParamFMax 0), .UnlockMutex,
           .LockMutex, .call j1.jointId (.dJointAddHingeTorque 0), .UnlockMutex] := by
        simp [SetForce, SetParam, LockMutex, UnlockMutex, odeCall]
      rw [this]
      exact disciplined_append _ _ hd rfl

theorem lock_discipline_witness :
    disciplined ([] : List OdeEvent) = true ∧
    disciplined ((⟨7, ⟨[], 0⟩, []⟩ : ODEHingeJoint Sample.Solver).SetAnchor Sample.ode 0
      ⟨1, 2, 3⟩).trace = true :=
  ⟨rfl,
   ((lock_discipline Sample.ode 0 ⟨1, 2, 3⟩ 0 3 ⟨7, ⟨[], 0⟩, []⟩).1
     (fun j => j.SetAnchor Sample.ode 0 ⟨1, 2, 3⟩, .dJointSetHingeAnchor 1 2 3)
     (by simp [operations])).2.2 rfl⟩

end ODEHingeJoint

/-! ## The bodies Attach resolves, the frame of Reset, and the body lookups -/

namespace Model

theorem GetBody_canonical_name (m : gazebo.Model) :
    (m.GetBody m.canonicalBodyNameP.GetValue).2 = m.GetCanonicalBody.2 := by
  unfold GetBody GetCanonicalBody StdMap.index
  cases h : StdMap.find m.canonicalBodyNameP.GetValue m.bodies with
  | some v => simp
  | none =>
    by_cases hc : m.canonicalBodyNameP.GetValue = "canonical" <;> simp [hc, h]

theorem GetBody_alias (m : gazebo.Model) :
    (m.GetBody "canonical").2 = match StdMap.find "canonical" m.bodies with
      | some v => v
      | none => m.GetCanonicalBody.2 := by
  unfold GetBody StdMap.index
  cases h : StdMap.find "canonical" m.bodies with
  | some v => simp
  | none => simp

theorem Attach_parameters_missing (node : XMLConfigNode) (s : St)
    (h : XMLConfigNode.lookup "parentBody" node.attrs = none ∨
      XMLConfigNode.lookup "myBody" node.attrs = none) :
    ∃ key, (key = "parentBody" ∨ key = "myBody") ∧
      (Attach.parameters (some node) s).err
        = some (.thrown ⟨"XMLConfig.cc", 0, "missing required parameter[" ++ key ++ "]"⟩) := by
  cases hp : XMLConfigNode.lookup "parentBody" node.attrs with
  | none =>
    refine ⟨"parentBody", Or.inl rfl, ?_⟩
    simp [Attach.parameters, Attach.loadParentBody, Outcome.andThen, ParamT.Load, ParamT.new,
      XMLConfigNode.GetString, hp, Outcome.throw]
  | some v =>
    have hm : XMLConfigNode.lookup "myBody" node.attrs = none := by
      rcases h with h | h
      · rw [hp] at h; cases h
      · exact h
    refine ⟨"myBody", Or.inr rfl, ?_⟩
    simp [Attach.parameters, Attach.loadParentBody, Attach.loadMyBody, Outcome.andThen,
      ParamT.Load, ParamT.new, XMLConfigNode.GetString, hp, hm, Outcome.throw, Outcome.ok]

/-- C23, as stated, fails twice.  The sample parent has the bodies "canonical"
and "a", its canonical body being "a": an `Attach` without node joins the
body "a" of the sample model to the parent body "canonical", not to the
canonical body of the parent.  And an `Attach` with a node that has neither
attribute fails on the required parameter `parentBody`. -/
theorem Attach_default_bodies_counterexample :
    Sample.aliased.self.GetCanonicalBody.2 = some { Sample.body with name := "a" } ∧
    (Attach none (some Sample.aliased.self) Sample.loaded).1.err = none ∧
    (Attach none (some Sample.aliased.self) Sample.loaded).1.st.world.log
      = Sample.loaded.world.log ++
        [.createJoint .HINGE,
         .joint (.Attach { Sample.body with name := "a" }
           { Sample.body with name := "canonical" }),
         .joint (.SetAnchor 0 ⟨0, 0, 0⟩), .joint (.SetAxis 0 ⟨0, 1, 0⟩),
         .joint (.SetHighStop 0 0), .joint (.SetLowStop 0 0)] ∧
    (Attach (some (.mk "attach" "" [] [])) (some Sample.still.self) Sample.loaded).1.err
      = some (.thrown ⟨"XMLConfig.cc", 0, "missing required parameter[parentBody]"⟩) := by
  decide

/-- C23: in an `Attach` without node the my-body name is the canonical body
name of the model and the parent-body name is "canonical"; under the first the
model finds what `GetCanonicalBody` returns; under the second the parent finds
the body it holds under the key "canonical" when it has that key, and what its
`GetCanonicalBody` returns otherwise; these two bodies are the ones joined when
both exist, and when the first is missing `Attach` fails with "No canonical
body set.", when only the second is missing with "Parent has no canonical
body".  With a node that lacks the attribute `parentBody` or `myBody`, both
being required, `Attach` fails with the error of the missing parameter, the
attachment joint as it was and nothing but parameter loads logged. -/
theorem Attach_default_bodies (parent : gazebo.Model) (s : St) :
    ((Attach.parameters none s).st.self.myBodyNameP
        = some (ParamT.new "myBody" s.self.canonicalBodyNameP.GetValue true) ∧
      (Attach.parameters none s).st.self.parentBodyNameP
        = some (ParamT.new "parentBody" "canonical" true)) ∧
    (s.self.GetBody s.self.canonicalBodyNameP.GetValue).2 = s.self.GetCanonicalBody.2 ∧
    ((parent.GetBody "canonical").2 = match StdMap.find "canonical" parent.bodies with
      | some v => v
      | none => parent.GetCanonicalBody.2) ∧
    (∀ myBody pBody, s.self.GetCanonicalBody.2 = some myBody →
      (parent.GetBody "canonical").2 = some pBody →
      (Attach none (some parent) s).1.err = none ∧
      (Attach none (some parent) s).1.st.world.log = s.world.log ++
        [.createJoint .HINGE, .joint (.Attach myBody pBody),
         .joint (.SetAnchor 0 myBody.absPose.pos), .joint (.SetAxis 0 ⟨0, 1, 0⟩),
         .joint (.SetHighStop 0 0), .joint (.SetLowStop 0 0)]) ∧
    (s.self.GetCanonicalBody.2 = none →
      (Attach none (some parent) s).1.err
        = some (.thrown (gzthrow 932 "No canonical body set."))) ∧
    (∀ myBody, s.self.GetCanonicalBody.2 = some myBody →
      (parent.GetBody "canonical").2 = none →
      (Attach none (some parent) s).1.err
        = some (.thrown (gzthrow 935 "Parent has no canonical body"))) ∧
    (∀ node : XMLConfigNode,
      (XMLConfigNode.lookup "parentBody" node.attrs = none ∨
        XMLConfigNode.lookup "myBody" node.attrs = none) →
      (∃ key, (key = "parentBody" ∨ key = "myBody") ∧
        (Attach (some node) (some parent) s).1.err = some (.thrown
          ⟨"XMLConfig.cc", 0, "missing required parameter[" ++ key ++ "]"⟩)) ∧
      (Attach (some node) (some parent) s).1.st.self.joint = s.self.joint ∧
      ∃ pre, (∀ e ∈ pre, ∃ k, e = Event.paramLoad k) ∧
        (Attach (some node) (some parent) s).1.st.world.log = s.world.log ++ pre) := by
  have hrun : Attach none (some parent) s
      = Attach.connect parent (Attach.create (Attach.parameters none s).st) := rfl
  obtain ⟨hjoint, _, hnone, hsome, hboth⟩ :=
    Attach_connect_spec parent (Attach.create (Attach.parameters none s).st)
      (ParamT.new "parentBody" "canonical" true)
      (ParamT.new "myBody" s.self.canonicalBodyNameP.GetValue true) rfl rfl
  rw [Attach_GetBody] at hnone hsome hboth
  have hmy : (ParamT.new "myBody" s.self.canonicalBodyNameP.GetValue true).GetValue
      = s.self.canonicalBodyNameP.GetValue := rfl
  have hpb : (ParamT.new "parentBody" "canonical" true).GetValue = "canonical" := rfl
  rw [hmy, GetBody_canonical_name] at hnone hsome hboth
  rw [hpb] at hsome hboth
  refine ⟨⟨rfl, rfl⟩, GetBody_canonical_name s.self, GetBody_alias parent, ?_, ?_, ?_, ?_⟩
  · intro myBody pBody h1 h2
    rw [hrun]
    refine ⟨(hboth myBody pBody h1 h2).1, ?_⟩
    rw [(hboth myBody pBody h1 h2).2, (Attach_create_spec _).2.1]
    simp [Attach.parameters, Outcome.ok]
  · intro h
    rw [hrun]
    exact (hnone h).1
  · intro myBody h1 h2
    rw [hrun]
    exact (hsome myBody h1 h2).1
  · intro node hmiss
    obtain ⟨key, hkey, herr⟩ := Attach_parameters_missing node s hmiss
    obtain ⟨pre, hpre, hlog, _, _, _, hj0, _⟩ := Attach_parameters_spec (some node) s
    have hfail : Attach (some node) (some parent) s
        = (⟨(Attach.parameters (some node) s).st, some (.thrown
            ⟨"XMLConfig.cc", 0, "missing required parameter[" ++ key ++ "]"⟩)⟩,
           some parent) := by
      simp [Attach, herr]
    rw [hfail]
    exact ⟨⟨key, hkey, rfl⟩, hj0, pre, hpre, hlog⟩

theorem Attach_default_bodies_witness :
    (Attach none (some Sample.aliased.self) Sample.loaded).1.err = none ∧
    (Attach none (some Sample.aliased.self) Sample.loaded).1.st.world.log
      = Sample.loaded.world.log ++
        [.createJoint .HINGE,
         .joint (.Attach { Sample.body with name := "a" }
           { Sample.body with name := "canonical" }),
         .joint (.SetAnchor 0 ({ Sample.body with name := "a" } : Body).absPose.pos),
         .joint (.SetAxis 0 ⟨0, 1, 0⟩),
         .joint (.SetHighStop 0 0), .joint (.SetLowStop 0 0)] :=
  (Attach_default_bodies Sample.aliased.self Sample.loaded).2.2.2.1
    { Sample.body with name := "a" } { Sample.body with name := "canonical" }
    (by decide) (by decide)

theorem resetControllers_keys (ext : Externals) (m : StdMap (Option Controller)) :
    StdMap.keys (resetControllers ext m).1 = StdMap.keys m := by
  induction m with
  | nil => rfl
  | cons x rest ih =>
    obtain ⟨k, oc⟩ := x
    cases oc with
    | none => rfl
    | some c =>
      simp only [resetControllers, StdMap.keys, List.map_cons] at ih ⊢
      rw [ih]

theorem resetBodies_keys (v : Vector3) (m : StdMap (Option Body)) :
    StdMap.keys (resetBodies v m).1 = StdMap.keys m := by
  induction m with
  | nil => rfl
  | cons x rest ih =>
    obtain ⟨k, ob⟩ := x
    cases ob with
    | none => rfl
    | some b =>
      simp only [resetBodies, StdMap.keys, List.map_cons] at ih ⊢
      rw [ih]

/-- C24: whatever the model and the collaborators, and whether `Reset` returns
or meets a NULL entry, after `Model::Reset` the relative pose, the absolute
pose, the initial pose and the canonical body name are what they were, the
bodies map and the controllers map have the keys they had in the order they
had, and the joints vector holds as many joints as before, each either
untouched or after its own `Reset()`, in the same places. -/
theorem Reset_frame (ext : Externals) (s : St) :
    (Reset ext s).st.self.relativePose = s.self.relativePose ∧
    (Reset ext s).st.self.absPose = s.self.absPose ∧
    (Reset ext s).st.self.initPose = s.self.initPose ∧
    (Reset ext s).st.self.GetInitPose = s.self.GetInitPose ∧
    (Reset ext s).st.self.canonicalBodyNameP = s.self.canonicalBodyNameP ∧
    StdMap.keys (Reset ext s).st.self.bodies = StdMap.keys s.self.bodies ∧
    StdMap.keys (Reset ext s).st.self.controllers = StdMap.keys s.self.controllers ∧
    (Reset ext s).st.self.joints.length = s.self.joints.length ∧
    ((Reset ext s).st.self.joints = s.self.joints ∨
      (Reset ext s).st.self.joints = s.self.joints.map ext.JointReset) := by
  cases hc : (resetControllers ext s.self.controllers).2.2 with
  | some f =>
    have hrun : Reset ext s = Reset.controllers ext s := by
      unfold Reset
      exact Outcome.andThen_of_err (e := f) hc
    rw [hrun]
    exact ⟨rfl, rfl, rfl, rfl, rfl, rfl, resetControllers_keys ext _, rfl, Or.inl rfl⟩
  | none =>
    have hrun : Reset ext s
        = Reset.bodies (Reset.joints ext (Reset.controllers ext s).st).st := by
      unfold Reset
      rw [Outcome.andThen_of_ok (by exact hc), Outcome.andThen_of_ok (by rfl)]
    rw [hrun]
    exact ⟨rfl, rfl, rfl, rfl, rfl, resetBodies_keys _ _, resetControllers_keys ext _,
      by simp [Reset.bodies, Reset.joints, Reset.controllers, Outcome.ok],
      Or.inr rfl⟩

/-- C25: `GetCanonicalBody` reads `bodies[canonical body name]`.  When the
bodies map lacks that key, it returns NULL and leaves the map with one key
more, the canonical body name, holding NULL; the sample model loaded with
`canonicalBody="zzz"` has the keys "a" and "b" before the call and "a", "b"
and "zzz" after it.  When the map has the key, the model is as before.
`GetBody(name)` leaves the model as it was when the map has the key `name` or
when `name` is not "canonical"; for the name "canonical" without such a key it
is `GetCanonicalBody`. -/
theorem GetCanonicalBody_inserts :
    (∀ m : gazebo.Model, StdMap.find m.canonicalBodyNameP.GetValue m.bodies = none →
      m.GetCanonicalBody.2 = none ∧
      m.GetCanonicalBody.1.bodies = StdMap.assign m.canonicalBodyNameP.GetValue none m.bodies ∧
      m.canonicalBodyNameP.GetValue ∉ StdMap.keys m.bodies ∧
      m.canonicalBodyNameP.GetValue ∈ StdMap.keys m.GetCanonicalBody.1.bodies ∧
      StdMap.find m.canonicalBodyNameP.GetValue m.GetCanonicalBody.1.bodies = some none) ∧
    (∀ (m : gazebo.Model) (v : Option Body),
      StdMap.find m.canonicalBodyNameP.GetValue m.bodies = some v →
      m.GetCanonicalBody = (m, v)) ∧
    (∀ (m : gazebo.Model) (name : String) (v : Option Body),
      StdMap.find name m.bodies = some v → m.GetBody name = (m, v)) ∧
    (∀ (m : gazebo.Model) (name : String),
      StdMap.find name m.bodies = none → name ≠ "canonical" → m.GetBody name = (m, none)) ∧
    (∀ m : gazebo.Model, StdMap.find "canonical" m.bodies = none →
      m.GetBody "canonical" = m.GetCanonicalBody) ∧
    (Sample.misnamed.self.canonicalBodyNameP.GetValue = "zzz" ∧
      StdMap.keys Sample.misnamed.self.bodies = ["a", "b"] ∧
      Sample.misnamed.self.GetCanonicalBody.2 = none ∧
      StdMap.keys Sample.misnamed.self.GetCanonicalBody.1.bodies = ["a", "b", "zzz"] ∧
      StdMap.find "zzz" Sample.misnamed.self.GetCanonicalBody.1.bodies = some none) := by
  refine ⟨?_, ?_, ?_, ?_, ?_, by decide⟩
  · intro m h
    have hb : m.GetCanonicalBody.1.bodies
        = StdMap.assign m.canonicalBodyNameP.GetValue none m.bodies := by
      simp [GetCanonicalBody, StdMap.index, h]
    refine ⟨by simp [GetCanonicalBody, StdMap.index, h], hb, ?_, ?_, ?_⟩
    · intro hmem
      have := (StdMap.find_isSome_iff _ _).mpr hmem
      rw [h] at this
      cases this
    · rw [hb, StdMap.mem_keys_assign]
      exact Or.inl rfl
    · rw [hb, StdMap.find_assign_self]
  · intro m v h
    simp [GetCanonicalBody, StdMap.index, h]
  · intro m name v h
    simp [GetBody, StdMap.index, h]
  · intro m name h hne
    simp [GetBody, h, hne]
  · intro m h
    simp [GetBody, h]

end Model

/-! ## Update and Reset on a model with a canonical body name that names no body -/

namespace Model

/-- C14: when a `Model::Update` that is not skipped runs on a model whose
canonical body name is not empty and is the key of no body, it makes the body
updates and the controller updates and then dereferences the NULL that the
read `bodies[name]` yields: the absolute pose is not set and `UpdateChild` is
not called.  The sample model loaded with `canonicalBody="zzz"`, which is not
static, is such a model: its `Update` ends in the NULL dereference after the
updates of the bodies "a" and "b" and of the controller "c", with the key "zzz"
added to the bodies map. -/
theorem Update_null_canonical :
    (∀ (ext : Externals) (s : St),
      ¬(s.self.controllers = [] ∧ s.self.IsStatic = true) →
      s.self.canonicalBodyNameP.GetValue ≠ "" →
      (StdMap.find s.self.canonicalBodyNameP.GetValue s.self.bodies = none ∨
        StdMap.find s.self.canonicalBodyNameP.GetValue s.self.bodies = some none) →
      (Update ext s).err = some .nullDeref ∧
      (Update ext s).st.self.absPose = s.self.absPose ∧
      (Update ext s).st.world.log = s.world.log
        ++ (s.self.bodies.filter (fun e => e.2.isSome)).map (fun e => Event.bodyUpdate e.1)
        ++ (s.self.controllers.filter (fun e => e.2.isSome)).map
            (fun e => Event.controllerUpdate e.1)) ∧
    ((Load Sample.ext (Sample.robot (some "zzz")) false Sample.st).err = none ∧
      Sample.misnamed.self.IsStatic = false ∧
      Sample.misnamed.self.canonicalBodyNameP.GetValue = "zzz" ∧
      StdMap.keys Sample.misnamed.self.bodies = ["a", "b"] ∧
      (Update Sample.ext Sample.misnamed).err = some .nullDeref ∧
      (Update Sample.ext Sample.misnamed).st.self.absPose = Sample.misnamed.self.absPose ∧
      (Update Sample.ext Sample.misnamed).st.world.log
        = Sample.misnamed.world.log
          ++ [.bodyUpdate "a", .bodyUpdate "b", .controllerUpdate "c"] ∧
      StdMap.keys (Update Sample.ext Sample.misnamed).st.self.bodies = ["a", "b", "zzz"]) := by
  refine ⟨fun ext s hrun hne hfind => (Update_order ext s hrun).2.2 hne hfind, ?_⟩
  decide

theorem resetBodies_null (v : Vector3) (m : StdMap (Option Body))
    (h : ∃ e ∈ m, e.2 = none) : (resetBodies v m).2.2 = some .nullDeref := by
  induction m with
  | nil =>
    obtain ⟨e, he, _⟩ := h
    cases he
  | cons x rest ih =>
    obtain ⟨k, ob⟩ := x
    cases ob with
    | none => rfl
    | some b =>
      simp only [resetBodies]
      apply ih
      obtain ⟨e, he, hn⟩ := h
      rcases List.mem_cons.mp he with h1 | h1
      · rw [h1] at hn
        cases hn
      · exact ⟨e, h1, hn⟩

/-- C15: on a model whose bodies map holds a NULL entry, the controllers map
holding none, `Model::Reset` resets the controllers and the joints and then
dereferences the NULL in its body loop; when the NULL entry is the first of
the map, no body is touched and no setter is called.  The sample model loaded
with `canonicalBody="A"` has, after a `GetCanonicalBody()`, the keys "A", "a"
and "b" with NULL under "A": its `Reset` ends in the NULL dereference after
the reset of the controller "c" and of the joint "j", the bodies as they
were. -/
theorem Reset_null_entry :
    (∀ (ext : Externals) (s : St), (∀ e ∈ s.self.controllers, e.2 ≠ none) →
      (∃ e ∈ s.self.bodies, e.2 = none) →
      (Reset ext s).err = some .nullDeref) ∧
    (∀ (ext : Externals) (s : St) (k : String) (rest : StdMap (Option Body)),
      (∀ e ∈ s.self.controllers, e.2 ≠ none) →
      s.self.bodies = (k, none) :: rest →
      (Reset ext s).st.self.bodies = s.self.bodies ∧
      (Reset ext s).st.world.log
        = s.world.log ++ s.self.controllers.map (fun e => Event.controllerReset e.1)
          ++ s.self.joints.map Event.jointReset) ∧
    ((Load Sample.ext (Sample.robot (some "A")) false Sample.st).err = none ∧
      StdMap.keys Sample.dangling.self.bodies = ["A", "a", "b"] ∧
      StdMap.find "A" Sample.dangling.self.bodies = some none ∧
      (Reset Sample.ext Sample.dangling).err = some .nullDeref ∧
      (Reset Sample.ext Sample.dangling).st.self.bodies = Sample.dangling.self.bodies ∧
      (Reset Sample.ext Sample.dangling).st.world.log
        = Sample.dangling.world.log
          ++ [.controllerReset "c", .jointReset ⟨.HINGE, "j", some "m"⟩]) := by
  have hrun : ∀ (ext : Externals) (s : St), (∀ e ∈ s.self.controllers, e.2 ≠ none) →
      Reset ext s = Reset.bodies (Reset.joints ext (Reset.controllers ext s).st).st := by
    intro ext s hc
    obtain ⟨hc1, _, _⟩ := resetControllers_ok ext s.self.controllers hc
    unfold Reset
    rw [Outcome.andThen_of_ok (by exact hc1), Outcome.andThen_of_ok (by rfl)]
  refine ⟨?_, ?_, by decide⟩
  · intro ext s hc hb
    rw [hrun ext s hc]
    exact resetBodies_null _ _ hb
  · intro ext s k rest hc hb
    obtain ⟨_, hc2, _⟩ := resetControllers_ok ext s.self.controllers hc
    rw [hrun ext s hc]
    simp [Reset.bodies, Reset.joints, Reset.controllers, Outcome.ok, hb, resetBodies, hc2]

end Model

end gazebo
